import Mathlib

/-!
SIM800 modem driver: line parsers, power sequencer and bring-up

A shallow embedding of `components/modem/sim800.c`.

* A C string (`const char *`) is the `List Char` of its characters up to, and
  not including, the terminating NUL.
* A `char` array field of the handle is the `List Char` of all its bytes, the
  terminating NUL and whatever follows it included; `cstr` reads it back as a
  C string.
* `esp_err_t` and `modem_mode_t` are C integers, so they are `Int` here.
* The position arithmetic of `snprintf` and `strip_cr_lf_tail` is kept as in
  the source.  An access that falls outside a field or outside the local
  array `p` is not followed into the neighbouring memory: it has no effect on
  the bytes of the model, where the code reads, and can clear, a byte of what
  lies behind the field.  The positions that are touched are computed by
  separate functions (`strip_cr_lf_tail_positions`, `cops_locals.written`) so
  that they can be compared with the capacities; what the model says about
  the field itself is not affected.
* A `%d` conversion goes through `strtol`: the numeral is read into a 64 bit
  `long` and the `int` stored is that `long` converted to `int`, so a numeral
  that an `int` cannot hold (where C leaves the result undefined) leaves its
  low 32 bits.
* The handle is one block obtained from `calloc`.  `event.free` is its
  release; `event.free_parent` is the call of `free` with the address of the
  member `parent`, which is what the label `err_io` of `sim800_open` passes.
  C leaves the behaviour of that call undefined; the model records it and
  goes on with the text of the code.
* GPIO, delays, the framework primitives and the transport are an
  `environment` of answers; a `world` counts the calls made and records the
  events in order.
* Loops are recursive functions with fuel that return `none` when the fuel
  runs out; the totality lemmas show that the fuel given by the callers is
  enough.
-/

namespace Sim800

/-! ## Constants and types of the modem framework -/

/-- The C type `esp_err_t` is an `int`. -/
abbrev esp_err_t := Int

/-- Value of `ESP_OK`. -/
def ESP_OK : esp_err_t := 0

/-- Value of `ESP_FAIL`. -/
def ESP_FAIL : esp_err_t := -1

/-- Modelled from the spec: the enum `modem_state_t` is declared in a header that
is not among the sources; the spec lists the command-exchange states idle,
awaiting-response, succeeded and failed. -/
inductive modem_state_t
  | MODEM_STATE_IDLE
  | MODEM_STATE_PROCESSING
  | MODEM_STATE_SUCCESS
  | MODEM_STATE_FAIL
  deriving DecidableEq

open modem_state_t

/-- The C type `modem_mode_t` is an enum, that is an integer, so that a caller
can pass a value that is neither of the two declared modes. -/
abbrev modem_mode_t := Int

/-- Modelled from the spec: `MODEM_COMMAND_MODE`, the command mode, declared in
a header that is not among the sources; the first of the two working modes. -/
def MODEM_COMMAND_MODE : modem_mode_t := 0

/-- Modelled from the spec: `MODEM_PPP_MODE`, the data (PPP) mode, declared in a
header that is not among the sources; the second of the two working modes. -/
def MODEM_PPP_MODE : modem_mode_t := 1

/-- Modelled from the spec: `MODEM_RESULT_CODE_SUCCESS`, the success token "OK"
of the AT command set, defined in a header that is not among the sources. -/
def MODEM_RESULT_CODE_SUCCESS : List Char := "OK".toList

/-- Modelled from the spec: `MODEM_RESULT_CODE_CONNECT`, the "CONNECT" token. -/
def MODEM_RESULT_CODE_CONNECT : List Char := "CONNECT".toList

/-- Modelled from the spec: `MODEM_RESULT_CODE_ERROR`, the error token "ERROR"
of the AT command set, defined in a header that is not among the sources. -/
def MODEM_RESULT_CODE_ERROR : List Char := "ERROR".toList

/-- Modelled from the spec: `MODEM_RESULT_CODE_NO_CARRIER`, the "NO CARRIER"
token. -/
def MODEM_RESULT_CODE_NO_CARRIER : List Char := "NO CARRIER".toList

/-- Line 23: `#define MODEM_RESULT_CODE_POWERDOWN "POWER DOWN"`. -/
def MODEM_RESULT_CODE_POWERDOWN : List Char := "POWER DOWN".toList

/-- Modelled from the spec: `MODEM_MAX_NAME_LENGTH`, the capacity of the
module-name field, is defined in a header that is not among the sources; the
spec calls the field a bounded-length text. The value of the modem framework,
32 bytes, is taken. -/
def MODEM_MAX_NAME_LENGTH : Nat := 32

/-- Modelled from the spec: `MODEM_MAX_OPERATOR_LENGTH`, the capacity of the
operator-name field, is defined in a header that is not among the sources; the
spec calls the field a bounded text. The value of the modem framework, 32
bytes, is taken: a name of 29 characters and its "\r\n" stay strictly below
it. -/
def MODEM_MAX_OPERATOR_LENGTH : Nat := 32

/-- Modelled from the spec: `MODEM_IMEI_LENGTH` is defined in a header that is
not among the sources; the spec gives the IMEI a fixed digit length and its
example is a 15-digit value. The field has one more byte. -/
def MODEM_IMEI_LENGTH : Nat := 15

/-- Modelled from the spec: `MODEM_IMSI_LENGTH` is defined in a header that is
not among the sources; the spec gives the IMSI a fixed digit length, 15 digits.
The field has one more byte. -/
def MODEM_IMSI_LENGTH : Nat := 15

/-- The line parsers that can be installed in `handle_line`. `none` is the
NULL pointer and `framework` stands for a parser installed by one of the
framework primitives (sync, echo), which are not part of this file. -/
inductive line_handler
  | none
  | framework
  | csq
  | cbc
  | exit_data_mode
  | atd_ppp
  | cgmm
  | cgsn
  | cimi
  | cops
  | power_down
  deriving DecidableEq

/-- The part of the DTE object that a line parser reaches: the value that its
`process_cmd_done` callback returns. -/
structure modem_dte_t where
  process_cmd_done : esp_err_t

/-- The generic device handle `modem_dce_t`: identity fields (byte arrays),
command-exchange state, working mode, the DTE and the installed parser. -/
structure modem_dce_t where
  imei : List Char
  imsi : List Char
  name : List Char
  oper : List Char
  state : modem_state_t
  mode : modem_mode_t
  dte : modem_dte_t
  handle_line : line_handler

/-- Lines 44-47: `sim800_modem_dce_t`. `priv_resource` is the array of bound
result destinations; the model keeps the `uint32_t` cells they point to. -/
structure sim800_modem_dce_t where
  priv_resource : List Nat
  parent : modem_dce_t

/-! ## libc routines -/

/-- The call `strstr(haystack, needle) != NULL`. -/
def strstr : List Char → List Char → Bool
  | [], needle => needle.isPrefixOf []
  | c :: cs, needle => needle.isPrefixOf (c :: cs) || strstr cs needle

/-- The call `strlen`. -/
def strlen (s : List Char) : Nat := s.length

/-- The test `!strncmp(line, lit, strlen(lit))`. -/
def strncmp_eq (line lit : List Char) : Bool := lit.isPrefixOf line

/-- The content of a byte array read as a C string: the bytes before the first
NUL. -/
def cstr (buf : List Char) : List Char := buf.takeWhile (fun c => c != '\x00')

/-- The call `snprintf(buf, size, "%s", s)`: at most `size - 1` characters of `s`
are stored, followed by a NUL; the bytes after the NUL keep their value. The
value returned is the length of `s`, not the number of characters stored. -/
def snprintf (buf : List Char) (size : Nat) (s : List Char) : Nat × List Char :=
  if size = 0 then (strlen s, buf)
  else
    let k := min (strlen s) (size - 1)
    (strlen s, s.take k ++ ['\x00'] ++ buf.drop (k + 1))

/-- The C function `isspace` in the "C" locale. -/
def isspace (c : Char) : Bool :=
  c = ' ' || c = '\t' || c = '\n' || c = '\x0b' || c = '\x0c' || c = '\r'

/-- Value of `LONG_MAX` for a 64 bit `long`. -/
def LONG_MAX : Int := 9223372036854775807

/-- Value of `LONG_MIN` for a 64 bit `long`. -/
def LONG_MIN : Int := -9223372036854775808

/-- The conversion of a `long` to a 32 bit `int`: the low 32 bits of the value,
read in two's complement. -/
def long_to_int (v : Int) : Int := (v + 2147483648) % 4294967296 - 2147483648

/-- The directives of a `scanf` format that the driver uses. -/
inductive scan_directive
  | skip_string
  | int
  | lit (c : Char)

/-- The directive `%*s`: skip white space, then read and discard a non-empty run
of characters that are not white space. `none` at the end of the input. -/
def scan_skip_string (s : List Char) : Option (List Char) :=
  let s1 := s.dropWhile isspace
  if s1 = [] then none else some (s1.dropWhile (fun c => !isspace c))

/-- Value of a run of decimal digits. -/
def digits_value (ds : List Char) : Nat :=
  ds.foldl (fun acc c => acc * 10 + (c.toNat - 48)) 0

/-- The directive `%d`: skip white space, read an optional sign and a non-empty
run of decimal digits. The numeral is converted as `strtol` converts it, into a
`long` (a value that a 64 bit `long` cannot hold gives `LONG_MAX` or
`LONG_MIN`), and the `int` that is stored is that `long` converted to `int`.
For a numeral that an `int` cannot hold C leaves the result undefined; the low
32 bits are what a C library that converts through a 64 bit `long` stores. -/
def scan_int (s : List Char) : Option (Int × List Char) :=
  let s1 := s.dropWhile isspace
  let neg := s1.head? = some '-'
  let s2 := if s1.head? = some '-' ∨ s1.head? = some '+' then s1.drop 1 else s1
  let ds := s2.takeWhile Char.isDigit
  if ds = [] then none
  else
    let v : Int := if neg then -(digits_value ds : Int) else (digits_value ds : Int)
    some (long_to_int (max LONG_MIN (min LONG_MAX v)), s2.dropWhile Char.isDigit)

/-- The conversions of `sscanf`, in order; it stops at the first directive that
fails. The result is the list of values assigned to the successive pointer
arguments. -/
def sscanf : List scan_directive → List Char → List Int
  | [], _ => []
  | scan_directive.skip_string :: ds, s =>
    match scan_skip_string s with
    | none => []
    | some r => sscanf ds r
  | scan_directive.int :: ds, s =>
    match scan_int s with
    | none => []
    | some (v, r) => v :: sscanf ds r
  | scan_directive.lit c :: ds, s =>
    match s with
    | [] => []
    | x :: r => if x = c then sscanf ds r else []

/-- Storing an `int` through a pointer to `uint32_t`. -/
def int_to_uint32 (v : Int) : Nat := (v % 4294967296).toNat

/-- Assign the converted values to the first destinations, in order. -/
def store_results : List Nat → List Int → List Nat
  | cells, [] => cells
  | [], _ :: _ => []
  | _ :: cells, v :: vs => int_to_uint32 v :: store_results cells vs

/-- The call `strtok_r(str, delim, &saveptr)`; `str = none` is the NULL argument
that continues from `saveptr`. Returns the token (`none` for NULL) and the new
value of `saveptr`. -/
def strtok_r (str : Option (List Char)) (delim : List Char) (saveptr : List Char) :
    Option (List Char) × List Char :=
  let s := (str.getD saveptr).dropWhile (fun c => delim.contains c)
  if s = [] then (none, [])
  else (some (s.takeWhile (fun c => !delim.contains c)),
        (s.dropWhile (fun c => !delim.contains c)).drop 1)

/-! ## Helpers of the framework header -/

/-- Modelled from the spec: the inline helper `esp_modem_process_command_done` is
not among the sources; it records the terminal state of the exchange in the
handle and returns what the DTE callback `process_cmd_done` returns. -/
def esp_modem_process_command_done (dce : modem_dce_t) (state : modem_state_t) :
    esp_err_t × modem_dce_t :=
  (dce.dte.process_cmd_done, { dce with state := state })

/-- Modelled from the spec: the inline helper `strip_cr_lf_tail` is not among the
sources; it strips the trailing line terminator by inspecting positions
`len - 2` and `len - 1`: a carriage return found at `len - 2`, or else at
`len - 1`, is replaced by NUL. `str` is the field alone. A position at or past
its end lies in what follows the field in the handle: the code reads that byte
and clears it when it is a carriage return, and the model does not follow it
there; it leaves the field as it is, as the code does. The positions touched
are given by `strip_cr_lf_tail_positions`. -/
def strip_cr_lf_tail (str : List Char) (len : Nat) : List Char :=
  if str.get? (len - 2) = some '\r' then str.set (len - 2) '\x00'
  else if str.get? (len - 1) = some '\r' then str.set (len - 1) '\x00'
  else str

/-- The positions of `str` that `strip_cr_lf_tail` certainly touches: `len - 2`,
and also `len - 1` when the byte at `len - 2` is inside `str` and is not a
carriage return. -/
def strip_cr_lf_tail_positions (str : List Char) (len : Nat) : List Nat :=
  match str.get? (len - 2) with
  | none => [len - 2]
  | some c => if c = '\r' then [len - 2] else [len - 2, len - 1]

/-! ## The line parsers (lines 49-232) -/

/-- Apply the framework helper to the generic handle embedded in the SIM800
handle (`__containerof`). -/
def process_command_done (dce : sim800_modem_dce_t) (state : modem_state_t) :
    esp_err_t × sim800_modem_dce_t :=
  ((esp_modem_process_command_done dce.parent state).1,
   { dce with parent := (esp_modem_process_command_done dce.parent state).2 })

/-- Lines 52-68: handle a response line of `AT+CSQ`. -/
def sim800_handle_csq (dce : sim800_modem_dce_t) (line : List Char) :
    esp_err_t × sim800_modem_dce_t :=
  if strstr line MODEM_RESULT_CODE_SUCCESS then
    process_command_done dce MODEM_STATE_SUCCESS
  else if strstr line MODEM_RESULT_CODE_ERROR then
    process_command_done dce MODEM_STATE_FAIL
  else if strncmp_eq line "+CSQ".toList then
    (ESP_OK, { dce with priv_resource := (store_results dce.priv_resource
      (sscanf [scan_directive.skip_string, scan_directive.int, scan_directive.lit ',',
        scan_directive.int] line)) })
  else (ESP_FAIL, dce)

/-- Lines 73-89: handle a response line of `AT+CBC`. -/
def sim800_handle_cbc (dce : sim800_modem_dce_t) (line : List Char) :
    esp_err_t × sim800_modem_dce_t :=
  if strstr line MODEM_RESULT_CODE_SUCCESS then
    process_command_done dce MODEM_STATE_SUCCESS
  else if strstr line MODEM_RESULT_CODE_ERROR then
    process_command_done dce MODEM_STATE_FAIL
  else if strncmp_eq line "+CBC".toList then
    (ESP_OK, { dce with priv_resource := (store_results dce.priv_resource
      (sscanf [scan_directive.skip_string, scan_directive.int, scan_directive.lit ',',
        scan_directive.int, scan_directive.lit ',', scan_directive.int] line)) })
  else (ESP_FAIL, dce)

/-- Lines 94-105: handle a response line of `+++`. -/
def sim800_handle_exit_data_mode (dce : sim800_modem_dce_t) (line : List Char) :
    esp_err_t × sim800_modem_dce_t :=
  if strstr line MODEM_RESULT_CODE_SUCCESS then
    process_command_done dce MODEM_STATE_SUCCESS
  else if strstr line MODEM_RESULT_CODE_NO_CARRIER then
    process_command_done dce MODEM_STATE_SUCCESS
  else if strstr line MODEM_RESULT_CODE_ERROR then
    process_command_done dce MODEM_STATE_FAIL
  else (ESP_FAIL, dce)

/-- Lines 110-119: handle a response line of `ATD*99#`. -/
def sim800_handle_atd_ppp (dce : sim800_modem_dce_t) (line : List Char) :
    esp_err_t × sim800_modem_dce_t :=
  if strstr line MODEM_RESULT_CODE_CONNECT then
    process_command_done dce MODEM_STATE_SUCCESS
  else if strstr line MODEM_RESULT_CODE_ERROR then
    process_command_done dce MODEM_STATE_FAIL
  else (ESP_FAIL, dce)

/-- Lines 132-137, 153-158, 174-179 and 210-215: copy `s` into a field of
capacity `size` with `snprintf`, and when the value returned by `snprintf` is
greater than 2 strip the line terminator at that length and accept. Returns the
new bytes of the field and whether the value was accepted. -/
def copy_and_strip (field : List Char) (size : Nat) (s : List Char) : List Char × Bool :=
  let len := (snprintf field size s).1
  if len > 2 then (strip_cr_lf_tail (snprintf field size s).2 len, true)
  else ((snprintf field size s).2, false)

/-- Lines 124-140: handle a response line of `AT+CGMM`. -/
def sim800_handle_cgmm (dce : sim800_modem_dce_t) (line : List Char) :
    esp_err_t × sim800_modem_dce_t :=
  if strstr line MODEM_RESULT_CODE_SUCCESS then
    process_command_done dce MODEM_STATE_SUCCESS
  else if strstr line MODEM_RESULT_CODE_ERROR then
    process_command_done dce MODEM_STATE_FAIL
  else
    (if (copy_and_strip dce.parent.name MODEM_MAX_NAME_LENGTH line).2 then ESP_OK else ESP_FAIL,
     { dce with parent := { dce.parent with
        name := (copy_and_strip dce.parent.name MODEM_MAX_NAME_LENGTH line).1 } })

/-- Lines 145-161: handle a response line of `AT+CGSN`. -/
def sim800_handle_cgsn (dce : sim800_modem_dce_t) (line : List Char) :
    esp_err_t × sim800_modem_dce_t :=
  if strstr line MODEM_RESULT_CODE_SUCCESS then
    process_command_done dce MODEM_STATE_SUCCESS
  else if strstr line MODEM_RESULT_CODE_ERROR then
    process_command_done dce MODEM_STATE_FAIL
  else
    (if (copy_and_strip dce.parent.imei (MODEM_IMEI_LENGTH + 1) line).2 then ESP_OK else ESP_FAIL,
     { dce with parent := { dce.parent with
        imei := (copy_and_strip dce.parent.imei (MODEM_IMEI_LENGTH + 1) line).1 } })

/-- Lines 166-182: handle a response line of `AT+CIMI`. -/
def sim800_handle_cimi (dce : sim800_modem_dce_t) (line : List Char) :
    esp_err_t × sim800_modem_dce_t :=
  if strstr line MODEM_RESULT_CODE_SUCCESS then
    process_command_done dce MODEM_STATE_SUCCESS
  else if strstr line MODEM_RESULT_CODE_ERROR then
    process_command_done dce MODEM_STATE_FAIL
  else
    (if (copy_and_strip dce.parent.imsi (MODEM_IMSI_LENGTH + 1) line).2 then ESP_OK else ESP_FAIL,
     { dce with parent := { dce.parent with
        imsi := (copy_and_strip dce.parent.imsi (MODEM_IMSI_LENGTH + 1) line).1 } })

/-- Lines 201-203: the locals of the comma split in `sim800_handle_cops`. `p` is
the array `char *p[3]` indexed by the `uint8_t` counter `i` (an index of 3 or
more lies outside the array), `str_ptr` is the save pointer of `strtok_r`, and
`written` lists the indices of `p` that have been assigned, oldest first. -/
structure cops_locals where
  p : Nat → Option (List Char)
  i : Nat
  str_ptr : List Char
  written : List Nat

/-- Lines 206-208: `while (p[i]) { p[++i] = strtok_r(NULL, ",", &str_ptr); }`, with
`i` of type `uint8_t`. `none` when the fuel runs out before the loop exits. -/
def cops_while : Nat → cops_locals → Option cops_locals
  | 0, _ => none
  | fuel + 1, st =>
    match st.p st.i with
    | none => some st
    | some _ =>
      cops_while fuel
        { p := Function.update st.p ((st.i + 1) % 256)
            (strtok_r none [','] st.str_ptr).1,
          i := (st.i + 1) % 256,
          str_ptr := (strtok_r none [','] st.str_ptr).2,
          written := st.written ++ [(st.i + 1) % 256] }

/-- Lines 197-208: copy the line and split the copy on commas. Every call of
`strtok_r` that returns a token shortens what is left, so `strlen(line) + 2`
rounds are enough for the loop to exit. -/
def cops_split (line : List Char) : Option cops_locals :=
  cops_while (strlen line + 2)
    { p := Function.update (fun _ => none) 0 (strtok_r (some line) [','] []).1,
      i := 0,
      str_ptr := (strtok_r (some line) [','] []).2,
      written := [0] }

/-- Lines 187-220: handle a response line of `AT+COPS?`. -/
def sim800_handle_cops (dce : sim800_modem_dce_t) (line : List Char) :
    esp_err_t × sim800_modem_dce_t :=
  if strstr line MODEM_RESULT_CODE_SUCCESS then
    process_command_done dce MODEM_STATE_SUCCESS
  else if strstr line MODEM_RESULT_CODE_ERROR then
    process_command_done dce MODEM_STATE_FAIL
  else if strncmp_eq line "+COPS".toList then
    match cops_split line with
    | none => (ESP_FAIL, dce)
    | some st =>
      if st.i ≥ 3 then
        (if (copy_and_strip dce.parent.oper MODEM_MAX_OPERATOR_LENGTH ((st.p 2).getD [])).2
          then ESP_OK else ESP_FAIL,
         { dce with parent := { dce.parent with
            oper := (copy_and_strip dce.parent.oper MODEM_MAX_OPERATOR_LENGTH
              ((st.p 2).getD [])).1 } })
      else (ESP_FAIL, dce)
  else (ESP_FAIL, dce)

/-- Lines 225-232: handle a response line of `AT+CPOWD=1`. -/
def sim800_handle_power_down (dce : sim800_modem_dce_t) (line : List Char) :
    esp_err_t × sim800_modem_dce_t :=
  if strstr line MODEM_RESULT_CODE_POWERDOWN then
    process_command_done dce MODEM_STATE_SUCCESS
  else (ESP_FAIL, dce)

/-- Call the parser installed in `handle_line` on a line. A NULL pointer or a
parser of the framework is not run by this model: the line is dropped. -/
def call_handle_line (h : line_handler) (dce : sim800_modem_dce_t) (line : List Char) :
    esp_err_t × sim800_modem_dce_t :=
  match h with
  | line_handler.none => (ESP_FAIL, dce)
  | line_handler.framework => (ESP_FAIL, dce)
  | line_handler.csq => sim800_handle_csq dce line
  | line_handler.cbc => sim800_handle_cbc dce line
  | line_handler.exit_data_mode => sim800_handle_exit_data_mode dce line
  | line_handler.atd_ppp => sim800_handle_atd_ppp dce line
  | line_handler.cgmm => sim800_handle_cgmm dce line
  | line_handler.cgsn => sim800_handle_cgsn dce line
  | line_handler.cimi => sim800_handle_cimi dce line
  | line_handler.cops => sim800_handle_cops dce line
  | line_handler.power_down => sim800_handle_power_down dce line

/-- Deliver a sequence of lines, in order, to one parser. -/
def handle_lines (h : line_handler) (dce : sim800_modem_dce_t) :
    List (List Char) → sim800_modem_dce_t
  | [] => dce
  | line :: rest => handle_lines h (call_handle_line h dce line).2 rest

/-! ## Hardware and transport seen by the sequencers -/

/-- The three GPIO lines of the module (`CONFIG_EXAMPLE_GPIO_MODEM_*`). -/
inductive gpio_pin
  | PWRKEY
  | RESET
  | STATUS
  deriving DecidableEq

/-- Modelled from the spec: the named timeout profiles `MODEM_COMMAND_TIMEOUT_*`;
their values are configuration of the framework header. -/
inductive command_timeout
  | MODEM_COMMAND_TIMEOUT_DEFAULT
  | MODEM_COMMAND_TIMEOUT_OPERATOR
  | MODEM_COMMAND_TIMEOUT_MODE_CHANGE
  | MODEM_COMMAND_TIMEOUT_POWEROFF
  deriving DecidableEq

open command_timeout

/-- What the driver does to the outside, in the order in which it does it.
`send_cmd` records the text sent, the value returned by the transport and the
command-exchange state of the handle when the transport returns. `free` is the
release of the handle: the call of `free` with the pointer that `calloc`
returned, `sim800_dce` (line 595). `free_parent` is the call of `free` with
`&sim800_dce->parent`, a pointer into that block (line 577). -/
inductive event
  | delay (ms : Nat)
  | gpio_set (pin : gpio_pin) (level : Nat)
  | gpio_get (pin : gpio_pin) (level : Int)
  | sync (result : esp_err_t)
  | echo (enable : Bool) (result : esp_err_t)
  | send_cmd (command : List Char) (timeout : command_timeout) (result : esp_err_t)
      (state : modem_state_t)
  | free
  | free_parent
  deriving DecidableEq

/-- The collaborators of the driver. `status k` is the level of the STATUS line
at the `k`-th call of `gpio_get_level`; `sync k`, `echo k` and `send_cmd k` are
the `k`-th calls of `esp_modem_dce_sync`, `esp_modem_dce_echo` and of the
transport function `dte->send_cmd`, each free to change the handle. -/
structure environment where
  status : Nat → Int
  sync : Nat → sim800_modem_dce_t → esp_err_t × sim800_modem_dce_t
  echo : Nat → Bool → sim800_modem_dce_t → esp_err_t × sim800_modem_dce_t
  send_cmd : Nat → List Char → command_timeout → sim800_modem_dce_t →
    esp_err_t × sim800_modem_dce_t

/-- How many calls of each collaborator have been made, and the events so far. -/
structure world where
  samples : Nat
  syncs : Nat
  echos : Nat
  sends : Nat
  trace : List event

/-- The call `vTaskDelay(ms / portTICK_PERIOD_MS)`. -/
def vTaskDelay (ms : Nat) (w : world) : world :=
  { w with trace := w.trace ++ [event.delay ms] }

/-- The call `gpio_set_level(pin, level)`. -/
def gpio_set_level (pin : gpio_pin) (level : Nat) (w : world) : world :=
  { w with trace := w.trace ++ [event.gpio_set pin level] }

/-- The call `gpio_get_level(CONFIG_EXAMPLE_GPIO_MODEM_STATUS)`. -/
def gpio_get_level (env : environment) (w : world) : Int × world :=
  (env.status w.samples,
   { w with samples := w.samples + 1,
            trace := w.trace ++ [event.gpio_get gpio_pin.STATUS (env.status w.samples)] })

/-- The call `esp_modem_dce_sync(&sim800_dce->parent)`. -/
def esp_modem_dce_sync (env : environment) (dce : sim800_modem_dce_t) (w : world) :
    esp_err_t × sim800_modem_dce_t × world :=
  ((env.sync w.syncs dce).1, (env.sync w.syncs dce).2,
   { w with syncs := w.syncs + 1, trace := w.trace ++ [event.sync (env.sync w.syncs dce).1] })

/-- The call `esp_modem_dce_echo(&sim800_dce->parent, enable)`. -/
def esp_modem_dce_echo (env : environment) (enable : Bool) (dce : sim800_modem_dce_t) (w : world) :
    esp_err_t × sim800_modem_dce_t × world :=
  ((env.echo w.echos enable dce).1, (env.echo w.echos enable dce).2,
   { w with echos := w.echos + 1,
            trace := w.trace ++ [event.echo enable (env.echo w.echos enable dce).1] })

/-- The call `dte->send_cmd(dte, command, timeout)`. -/
def dte_send_cmd (env : environment) (command : List Char) (timeout : command_timeout)
    (dce : sim800_modem_dce_t) (w : world) : esp_err_t × sim800_modem_dce_t × world :=
  ((env.send_cmd w.sends command timeout dce).1, (env.send_cmd w.sends command timeout dce).2,
   { w with sends := w.sends + 1,
            trace := w.trace ++ [event.send_cmd command timeout
              (env.send_cmd w.sends command timeout dce).1
              (env.send_cmd w.sends command timeout dce).2.parent.state] })

/-- Install a line parser: `dce->handle_line = h`. -/
def set_handle_line (dce : sim800_modem_dce_t) (h : line_handler) : sim800_modem_dce_t :=
  { dce with parent := { dce.parent with handle_line := h } }

/-- The two `DCE_CHECK`s shared by every command function: the transport must
return `ESP_OK` and the command-exchange state must then be SUCCESS. -/
def command_checks (r : esp_err_t × sim800_modem_dce_t × world) :
    esp_err_t × sim800_modem_dce_t × world :=
  (if r.1 = ESP_OK ∧ r.2.1.parent.state = MODEM_STATE_SUCCESS then ESP_OK else ESP_FAIL, r.2)

/-! ## Command functions (lines 244-320 and 397-487) -/

/-- Lines 244-257: `sim800_get_signal_quality`; `rssi` and `ber` are the values
held by the two destinations when they are bound. -/
def sim800_get_signal_quality (env : environment) (rssi ber : Nat)
    (dce : sim800_modem_dce_t) (w : world) : esp_err_t × sim800_modem_dce_t × world :=
  command_checks (dte_send_cmd env "AT+CSQ\r".toList MODEM_COMMAND_TIMEOUT_DEFAULT
    (set_handle_line { dce with priv_resource := [rssi, ber] } line_handler.csq) w)

/-- Lines 270-283: `sim800_get_battery_status`. -/
def sim800_get_battery_status (env : environment) (bcs bcl voltage : Nat)
    (dce : sim800_modem_dce_t) (w : world) : esp_err_t × sim800_modem_dce_t × world :=
  command_checks (dte_send_cmd env "AT+CBC\r".toList MODEM_COMMAND_TIMEOUT_DEFAULT
    (set_handle_line { dce with priv_resource := [bcs, bcl, voltage] } line_handler.cbc) w)

/-- Lines 294-320: `sim800_set_working_mode`. -/
def sim800_set_working_mode (env : environment) (mode : modem_mode_t)
    (dce : sim800_modem_dce_t) (w : world) : esp_err_t × sim800_modem_dce_t × world :=
  if mode = MODEM_COMMAND_MODE then
    let r := command_checks (dte_send_cmd env "+++".toList MODEM_COMMAND_TIMEOUT_MODE_CHANGE
      (set_handle_line dce line_handler.exit_data_mode) w)
    if r.1 = ESP_OK then
      (ESP_OK, { r.2.1 with parent := { r.2.1.parent with mode := MODEM_COMMAND_MODE } }, r.2.2)
    else r
  else if mode = MODEM_PPP_MODE then
    let r := command_checks (dte_send_cmd env "ATD*99#\r".toList MODEM_COMMAND_TIMEOUT_MODE_CHANGE
      (set_handle_line dce line_handler.atd_ppp) w)
    if r.1 = ESP_OK then
      (ESP_OK, { r.2.1 with parent := { r.2.1.parent with mode := MODEM_PPP_MODE } }, r.2.2)
    else r
  else (ESP_FAIL, dce, w)

/-- Lines 397-407: `sim800_power_down`. -/
def sim800_power_down (env : environment) (dce : sim800_modem_dce_t) (w : world) :
    esp_err_t × sim800_modem_dce_t × world :=
  command_checks (dte_send_cmd env "AT+CPOWD=1\r".toList MODEM_COMMAND_TIMEOUT_POWEROFF
    (set_handle_line dce line_handler.power_down) w)

/-- Lines 417-427: `sim800_get_module_name`. -/
def sim800_get_module_name (env : environment) (dce : sim800_modem_dce_t) (w : world) :
    esp_err_t × sim800_modem_dce_t × world :=
  command_checks (dte_send_cmd env "AT+CGMM\r".toList MODEM_COMMAND_TIMEOUT_DEFAULT
    (set_handle_line dce line_handler.cgmm) w)

/-- Lines 437-447: `sim800_get_imei_number`. -/
def sim800_get_imei_number (env : environment) (dce : sim800_modem_dce_t) (w : world) :
    esp_err_t × sim800_modem_dce_t × world :=
  command_checks (dte_send_cmd env "AT+CGSN\r".toList MODEM_COMMAND_TIMEOUT_DEFAULT
    (set_handle_line dce line_handler.cgsn) w)

/-- Lines 457-467: `sim800_get_imsi_number`. -/
def sim800_get_imsi_number (env : environment) (dce : sim800_modem_dce_t) (w : world) :
    esp_err_t × sim800_modem_dce_t × world :=
  command_checks (dte_send_cmd env "AT+CIMI\r".toList MODEM_COMMAND_TIMEOUT_DEFAULT
    (set_handle_line dce line_handler.cimi) w)

/-- Lines 477-487: `sim800_get_operator_name`. -/
def sim800_get_operator_name (env : environment) (dce : sim800_modem_dce_t) (w : world) :
    esp_err_t × sim800_modem_dce_t × world :=
  command_checks (dte_send_cmd env "AT+COPS?\r".toList MODEM_COMMAND_TIMEOUT_OPERATOR
    (set_handle_line dce line_handler.cops) w)

/-! ## Power sequencer (lines 329-387) -/

/-- Lines 335-343 (and 366-374, 532-540): one round of the polling loop: wait
500 ms, sample STATUS, and when it reads high wait 30 ms and sample it again.
Returns the value of `status` at the end of the round. -/
def status_round (env : environment) (w : world) : Bool × world :=
  if (gpio_get_level env (vTaskDelay 500 w)).1 > 0 then
    (decide ((gpio_get_level env (vTaskDelay 30 (gpio_get_level env (vTaskDelay 500 w)).2)).1 > 0),
     (gpio_get_level env (vTaskDelay 30 (gpio_get_level env (vTaskDelay 500 w)).2)).2)
  else (false, (gpio_get_level env (vTaskDelay 500 w)).2)

/-- Lines 333-344 (and 364-375, 530-541): the `do ... while (!(status==true || inc>20))`
loop that polls STATUS. `inc` is the counter of the source; the first argument
is fuel, and `none` means that it ran out before the loop ended. -/
def status_probe (env : environment) : Nat → Nat → world → Option (Bool × world)
  | 0, _, _ => none
  | fuel + 1, inc, w =>
    if (status_round env w).1 = true ∨ inc + 1 > 20 then some (status_round env w)
    else status_probe env fuel (inc + 1) (status_round env w).2

/-- Lines 348-360: the power-on pulse on PWRKEY and the start-up wait. -/
def power_on_pulse (w : world) : world :=
  vTaskDelay 1000 (vTaskDelay 1000 (vTaskDelay 1000 (vTaskDelay 1000
    (gpio_set_level gpio_pin.PWRKEY 1 (vTaskDelay 1100
      (gpio_set_level gpio_pin.PWRKEY 0 (vTaskDelay 100
        (gpio_set_level gpio_pin.PWRKEY 1 w))))))))

/-- Lines 329-387: `sim800_power_up`. The loops start with `inc = 0` and end at the
latest when `inc` reaches 21, so 21 rounds of fuel are enough. -/
def sim800_power_up (env : environment) (w : world) : Option (esp_err_t × world) :=
  match status_probe env 21 0 w with
  | none => none
  | some r1 =>
    if r1.1 = false then
      match status_probe env 21 0 (power_on_pulse r1.2) with
      | none => none
      | some r2 =>
        if r2.1 = false then some (ESP_FAIL, r2.2)
        else some (ESP_OK, vTaskDelay 2000 r2.2)
    else some (ESP_OK, vTaskDelay 2000 r1.2)

/-! ## Bring-up (lines 497-579) -/

/-- Lines 504-509 (and 550-555): the `do ... while (!(sync==true || inc>10))` loop
that retries the session sync. The first argument is fuel. -/
def sync_retry (env : environment) :
    Nat → Nat → sim800_modem_dce_t → world → Option (Bool × sim800_modem_dce_t × world)
  | 0, _, _, _ => none
  | fuel + 1, inc, dce, w =>
    let r := esp_modem_dce_sync env dce (vTaskDelay 1000 w)
    if r.1 = ESP_OK ∨ inc + 1 > 10 then some (decide (r.1 = ESP_OK), r.2)
    else sync_retry env fuel (inc + 1) r.2.1 r.2.2

/-- Lines 515-526: the hardware reset pulse and the reboot wait. -/
def reset_pulse (w : world) : world :=
  vTaskDelay 1000 (vTaskDelay 1000 (vTaskDelay 1000 (vTaskDelay 1000 (vTaskDelay 1000
    (gpio_set_level gpio_pin.PWRKEY 1 (vTaskDelay 1100
      (gpio_set_level gpio_pin.RESET 0 (vTaskDelay 300
        (gpio_set_level gpio_pin.RESET 1 w)))))))))

/-- Label `err_io` (lines 576-578): `free(dce)` and `return ESP_FAIL`. The
argument `dce` is `&sim800_dce->parent` (lines 499 and 634), and `parent` comes
after `priv_resource` in `sim800_modem_dce_t` (lines 44-47): the pointer is not
the one that `calloc` returned at line 603, so the call does not release the
handle and C leaves its behaviour undefined. The model records the call as
`event.free_parent`; the result is the `return ESP_FAIL` that the text has
next, which is reached only with a C library in which that call returns. -/
def err_io (dce : sim800_modem_dce_t) (w : world) : esp_err_t × sim800_modem_dce_t × world :=
  (ESP_FAIL, dce, { w with trace := w.trace ++ [event.free_parent] })

/-- Lines 563-578: the final sync, echo off and the four identity queries. -/
def open_queries (env : environment) (dce : sim800_modem_dce_t) (w : world) :
    esp_err_t × sim800_modem_dce_t × world :=
  let r0 := esp_modem_dce_sync env dce w
  if r0.1 = ESP_OK then
    let r1 := esp_modem_dce_echo env false r0.2.1 r0.2.2
    if r1.1 = ESP_OK then
      let r2 := sim800_get_module_name env r1.2.1 r1.2.2
      if r2.1 = ESP_OK then
        let r3 := sim800_get_imei_number env r2.2.1 r2.2.2
        if r3.1 = ESP_OK then
          let r4 := sim800_get_imsi_number env r3.2.1 r3.2.2
          if r4.1 = ESP_OK then
            let r5 := sim800_get_operator_name env r4.2.1 r4.2.2
            if r5.1 = ESP_OK then (ESP_OK, r5.2)
            else err_io r5.2.1 r5.2.2
          else err_io r4.2.1 r4.2.2
        else err_io r3.2.1 r3.2.2
      else err_io r2.2.1 r2.2.2
    else err_io r1.2.1 r1.2.2
  else err_io r0.2.1 r0.2.2

/-- Lines 497-579: `sim800_open`. The sync loops end at the latest when `inc`
reaches 11 and the STATUS loop when it reaches 21. -/
def sim800_open (env : environment) (dce : sim800_modem_dce_t) (w : world) :
    Option (esp_err_t × sim800_modem_dce_t × world) :=
  match sync_retry env 11 0 dce w with
  | none => none
  | some s1 =>
    if s1.1 = false then
      match status_probe env 21 0 (reset_pulse s1.2.2) with
      | none => none
      | some st =>
        if st.1 = false then some (ESP_FAIL, s1.2.1, st.2)
        else
          match sync_retry env 11 0 s1.2.1 st.2 with
          | none => none
          | some s2 =>
            if s2.1 = false then some (ESP_FAIL, s2.2)
            else some (open_queries env s2.2.1 s2.2.2)
    else some (open_queries env s1.2.1 s1.2.2)

/-- Lines 589-597: `sim800_deinit` releases the handle: `free` is called with
`sim800_dce`, the pointer that `calloc` returned. The back-reference that it
clears belongs to the DTE object, which is outside the model. -/
def sim800_deinit (_dce : sim800_modem_dce_t) (w : world) : esp_err_t × world :=
  (ESP_OK, { w with trace := w.trace ++ [event.free] })

/-! ## Initial handle and the vocabulary of the properties -/

/-- Lines 603-609: the handle that `sim800_init` returns for the DTE `dte`:
`calloc` zeroes every byte, so the identity fields are empty strings, the state
and the mode are the first enumerators and `handle_line` is NULL. -/
def sim800_init (dte : modem_dte_t) : sim800_modem_dce_t :=
  { priv_resource := [],
    parent :=
      { imei := List.replicate (MODEM_IMEI_LENGTH + 1) '\x00',
        imsi := List.replicate (MODEM_IMSI_LENGTH + 1) '\x00',
        name := List.replicate MODEM_MAX_NAME_LENGTH '\x00',
        oper := List.replicate MODEM_MAX_OPERATOR_LENGTH '\x00',
        state := MODEM_STATE_IDLE,
        mode := MODEM_COMMAND_MODE,
        dte := dte,
        handle_line := line_handler.none } }

/-- A well-formed handle: every identity field has exactly its declared
number of bytes. -/
def dce_wf (dce : sim800_modem_dce_t) : Prop :=
  dce.parent.imei.length = MODEM_IMEI_LENGTH + 1 ∧
  dce.parent.imsi.length = MODEM_IMSI_LENGTH + 1 ∧
  dce.parent.name.length = MODEM_MAX_NAME_LENGTH ∧
  dce.parent.oper.length = MODEM_MAX_OPERATOR_LENGTH

/-- The three identity parsers. -/
def identity_parsers : List line_handler :=
  [line_handler.cgmm, line_handler.cgsn, line_handler.cimi]

/-- The field that an identity parser writes. -/
def identity_field (h : line_handler) (dce : sim800_modem_dce_t) : List Char :=
  match h with
  | line_handler.cgmm => dce.parent.name
  | line_handler.cgsn => dce.parent.imei
  | line_handler.cimi => dce.parent.imsi
  | _ => []

/-- The capacity, in bytes, of the field that an identity parser writes. -/
def identity_capacity (h : line_handler) : Nat :=
  match h with
  | line_handler.cgmm => MODEM_MAX_NAME_LENGTH
  | line_handler.cgsn => MODEM_IMEI_LENGTH + 1
  | line_handler.cimi => MODEM_IMSI_LENGTH + 1
  | _ => 0

/-- A line with its trailing "\r\n" removed; a line that does not end in
"\r\n" is left as it is. -/
def remove_trailing_crlf (s : List Char) : List Char :=
  if ['\r', '\n'].isSuffixOf s then s.take (s.length - 2) else s

/-- A line with its trailing line terminator, "\r\n" or "\r", removed. -/
def remove_line_terminator (s : List Char) : List Char :=
  if ['\r', '\n'].isSuffixOf s then s.take (s.length - 2)
  else if ['\r'].isSuffixOf s then s.take (s.length - 1)
  else s

/-- What `strip_cr_lf_tail` removes from the end of a C string `s` when it is
given the length of `s`: everything from a carriage return in the last but one
position, or else a carriage return in the last position. -/
def strip_tail (s : List Char) : List Char :=
  if s.get? (s.length - 2) = some '\r' then s.take (s.length - 2)
  else if s.get? (s.length - 1) = some '\r' then s.take (s.length - 1)
  else s

/-- The non-empty comma-separated parts of a line. -/
def comma_parts (s : List Char) : List (List Char) :=
  (s.splitOn ',').filter (fun t => t ≠ [])

/-- The parsers that test the success token. -/
def success_token_parsers : List line_handler :=
  [line_handler.csq, line_handler.cbc, line_handler.exit_data_mode, line_handler.cgmm,
   line_handler.cgsn, line_handler.cimi, line_handler.cops]

/-- Well-formedness of a handle can be decided. -/
instance (dce : sim800_modem_dce_t) : Decidable (dce_wf dce) := by
  unfold dce_wf; infer_instance

/-- The levels written to PWRKEY, in order. -/
def pwrkey_writes (tr : List event) : List Nat :=
  tr.filterMap (fun e =>
    match e with
    | event.gpio_set gpio_pin.PWRKEY level => some level
    | _ => none)

/-- An event of the STATUS polling loop: a delay or a sample of STATUS. -/
def is_probe_event (e : event) : Bool :=
  match e with
  | event.delay _ => true
  | event.gpio_get gpio_pin.STATUS _ => true
  | _ => false

/-- A command that the bring-up hands to the framework or to the transport: the
echo primitive with its argument, or a command text with its timeout profile. -/
inductive issued
  | echo (enable : Bool)
  | command (text : List Char) (timeout : command_timeout)
  deriving DecidableEq

/-- The command that an event issues, if it issues one. -/
def issued_of (e : event) : Option issued :=
  match e with
  | event.echo enable _ => some (issued.echo enable)
  | event.send_cmd text timeout _ _ => some (issued.command text timeout)
  | _ => none

/-- The commands issued by a trace, in order. -/
def issued_commands (tr : List event) : List issued := tr.filterMap issued_of

/-- Whether an event issues a command. -/
def is_command (e : event) : Bool := (issued_of e).isSome

/-- Whether the command of an event succeeded as `sim800_open` judges it: the
echo primitive returned `ESP_OK`; the transport returned `ESP_OK` and left the
command-exchange state at SUCCESS. -/
def command_succeeded (e : event) : Bool :=
  match e with
  | event.echo _ result => decide (result = ESP_OK)
  | event.send_cmd _ _ result state =>
    decide (result = ESP_OK) && decide (state = MODEM_STATE_SUCCESS)
  | _ => false

/-- The commands of the bring-up, in the order of lines 566-574. -/
def open_plan : List issued :=
  [issued.echo false,
   issued.command "AT+CGMM\r".toList MODEM_COMMAND_TIMEOUT_DEFAULT,
   issued.command "AT+CGSN\r".toList MODEM_COMMAND_TIMEOUT_DEFAULT,
   issued.command "AT+CIMI\r".toList MODEM_COMMAND_TIMEOUT_DEFAULT,
   issued.command "AT+COPS?\r".toList MODEM_COMMAND_TIMEOUT_OPERATOR]

/-- No command is issued after a command that failed. -/
def stops_at_failure : List event → Bool
  | [] => true
  | e :: rest =>
    if is_command e && !command_succeeded e then (issued_commands rest).isEmpty
    else stops_at_failure rest

/-! ## The transport as a source of response lines -/

/-- Value of `ESP_ERR_TIMEOUT`. -/
def ESP_ERR_TIMEOUT : esp_err_t := 263

/-- Modelled from the spec: the transport is not among the sources. It delivers
the response lines, one at a time and in order, to the parser installed in the
handle, until a parser has declared the exchange complete (the state is SUCCESS
or FAIL) and then returns `ESP_OK`; when the lines run out before that, the
command times out: the state is set to FAIL and the result is a failure. -/
def transport_deliver : List (List Char) → sim800_modem_dce_t → esp_err_t × sim800_modem_dce_t
  | [], dce =>
    (ESP_ERR_TIMEOUT, { dce with parent := { dce.parent with state := MODEM_STATE_FAIL } })
  | line :: rest, dce =>
    if (call_handle_line dce.parent.handle_line dce line).2.parent.state = MODEM_STATE_SUCCESS ∨
        (call_handle_line dce.parent.handle_line dce line).2.parent.state = MODEM_STATE_FAIL then
      (ESP_OK, (call_handle_line dce.parent.handle_line dce line).2)
    else transport_deliver rest (call_handle_line dce.parent.handle_line dce line).2

/-- Modelled from the spec: a transport that answers its `k`-th command with the
lines `script k`; the exchange is awaiting its response while they arrive. -/
def line_transport (script : Nat → List (List Char)) (k : Nat) (_command : List Char)
    (_timeout : command_timeout) (dce : sim800_modem_dce_t) : esp_err_t × sim800_modem_dce_t :=
  transport_deliver (script k)
    { dce with parent := { dce.parent with state := MODEM_STATE_PROCESSING } }

/-- A module that is powered and in sync, answers echo-off, and answers the
`k`-th command sent through the transport with the lines `script k`. -/
def responsive_module (script : Nat → List (List Char)) : environment :=
  { status := fun _ => 1,
    sync := fun _ dce => (ESP_OK, dce),
    echo := fun _ _ dce => (ESP_OK, dce),
    send_cmd := line_transport script }

/-- A world in which nothing has happened yet. -/
def world_start : world := ⟨0, 0, 0, 0, []⟩

/-- A sequence of calls of `sim800_set_working_mode`, one for each requested
mode, each on the handle left by the one before. Returns the results in
order. -/
def set_working_modes (env : environment) :
    List modem_mode_t → sim800_modem_dce_t → world → List esp_err_t × sim800_modem_dce_t × world
  | [], dce, w => ([], dce, w)
  | mode :: rest, dce, w =>
    ((sim800_set_working_mode env mode dce w).1 ::
       (set_working_modes env rest (sim800_set_working_mode env mode dce w).2.1
         (sim800_set_working_mode env mode dce w).2.2).1,
     (set_working_modes env rest (sim800_set_working_mode env mode dce w).2.1
       (sim800_set_working_mode env mode dce w).2.2).2)

/-- A module that never answers: every sync attempt fails, and so would echo
and every command; `status` gives the samples of the STATUS line. -/
def unresponsive_module (status : Nat → Int) : environment :=
  { status := status,
    sync := fun _ dce => (ESP_FAIL, dce),
    echo := fun _ _ dce => (ESP_FAIL, dce),
    send_cmd := fun _ _ _ dce => (ESP_ERR_TIMEOUT, dce) }

/-- The world after `j` rounds of the STATUS polling loop. -/
def rounds_after (env : environment) : Nat → world → world
  | 0, w => w
  | j + 1, w => rounds_after env j (status_round env w).2

/-- The sum of the delays of a trace, in milliseconds. -/
def total_delay : List event → Nat
  | [] => 0
  | event.delay ms :: rest => ms + total_delay rest
  | _ :: rest => total_delay rest

/-- The events of a run of sync attempts with the given results: each attempt
is a wait of 1 s followed by the call of the sync primitive. -/
def sync_attempt_events (results : List esp_err_t) : List event :=
  results.flatMap (fun r => [event.delay 1000, event.sync r])

/-- Whether an event touches a GPIO line. -/
def is_gpio (e : event) : Bool :=
  match e with
  | event.gpio_set _ _ => true
  | event.gpio_get _ _ => true
  | _ => false

/-- The GPIO events of a trace, writes and samples, in order. -/
def gpio_events (tr : List event) : List event := tr.filter is_gpio

/-- The GPIO writes of a trace, pin and level, in order. -/
def gpio_writes (tr : List event) : List (gpio_pin × Nat) :=
  tr.filterMap (fun e =>
    match e with
    | event.gpio_set pin level => some (pin, level)
    | _ => none)

/-- The event that records a command which succeeded. -/
def success_event (c : issued) : event :=
  match c with
  | issued.echo enable => event.echo enable ESP_OK
  | issued.command text timeout => event.send_cmd text timeout ESP_OK MODEM_STATE_SUCCESS

/-- The answers of a module that is not registered to a network yet: name, IMEI
and IMSI are reported, each followed by "OK", and the operator query is
answered by "+COPS: 0" and "OK". -/
def unregistered_module_script (k : Nat) : List (List Char) :=
  match k with
  | 0 => ["SIMCOM_SIM800L\r\n".toList, "OK\r\n".toList]
  | 1 => ["490154203237518\r\n".toList, "OK\r\n".toList]
  | 2 => ["262019876543210\r\n".toList, "OK\r\n".toList]
  | _ => ["+COPS: 0\r\n".toList, "OK\r\n".toList]

/-- A reading of the STATUS samples, stated on the samples alone and not on the
polling loop of the code: `debounced_reading status rounds k` goes through at
most `rounds` polls, starting at sample `k`. A poll that reads low uses one
sample. A poll that reads high is followed by a second sample, and when that
one is high too the reading is powered and ends there. The result is whether
a powered reading was found and the index of the first sample not used. -/
def debounced_reading (status : Nat → Int) : Nat → Nat → Bool × Nat
  | 0, k => (false, k)
  | rounds + 1, k =>
    if status k > 0 then
      if status (k + 1) > 0 then (true, k + 2)
      else debounced_reading status rounds (k + 2)
    else debounced_reading status rounds (k + 1)

/-- The events of the reading `debounced_reading status rounds k`: every poll is
a wait of 500 ms and a sample of STATUS, followed, when the sample is high, by
a wait of 30 ms and a second sample. -/
def reading_events (status : Nat → Int) : Nat → Nat → List event
  | 0, _ => []
  | rounds + 1, k =>
    if status k > 0 then
      event.delay 500 :: event.gpio_get gpio_pin.STATUS (status k) ::
        event.delay 30 :: event.gpio_get gpio_pin.STATUS (status (k + 1)) ::
        (if status (k + 1) > 0 then [] else reading_events status rounds (k + 2))
    else
      event.delay 500 :: event.gpio_get gpio_pin.STATUS (status k) ::
        reading_events status rounds (k + 1)

/-- The results of the sync attempts recorded in a trace, in order. -/
def sync_results (tr : List event) : List esp_err_t :=
  tr.filterMap (fun e =>
    match e with
    | event.sync result => some result
    | _ => none)

/-! ## Properties of the libc routines and of the helpers -/

theorem strstr_iff (h n : List Char) : strstr h n = true ↔ n <:+: h := by
  induction h with
  | nil =>
    simp [strstr, List.isPrefixOf_iff_prefix]
  | cons c cs ih =>
    simp only [strstr, Bool.or_eq_true, ih, List.isPrefixOf_iff_prefix]
    rw [List.infix_cons_iff]

theorem handle_ok_of_success (dce : sim800_modem_dce_t) (s : modem_state_t) :
    (process_command_done dce s).2.parent.state = s := rfl

theorem cstr_append_nul (xs ys : List Char) (h : '\x00' ∉ xs) :
    cstr (xs ++ '\x00' :: ys) = xs := by
  unfold cstr
  rw [List.takeWhile_append_of_pos]
  · simp
  · intro a ha
    have : a ≠ '\x00' := fun e => h (e ▸ ha)
    simpa using this

theorem cstr_set_lt (xs ys : List Char) (h : '\x00' ∉ xs) (j : Nat) (hj : j < xs.length) :
    cstr ((xs ++ '\x00' :: ys).set j '\x00') = xs.take j := by
  rw [List.set_append_left j _ hj, List.set_eq_take_append_cons_drop, if_pos hj,
    List.append_assoc, List.cons_append]
  apply cstr_append_nul
  intro hm
  exact h (List.mem_of_mem_take hm)

theorem cstr_set_ge (xs ys : List Char) (h : '\x00' ∉ xs) (j : Nat) (hj : xs.length ≤ j) :
    cstr ((xs ++ '\x00' :: ys).set j '\x00') = xs := by
  rw [List.set_append_right j _ hj]
  cases hk : j - xs.length with
  | zero => simpa using cstr_append_nul xs ys h
  | succ m => simpa using cstr_append_nul xs _ h

theorem get?_append_nul (xs ys : List Char) (j : Nat)
    (hys : xs.length + 1 + ys.length ≤ j ∨ j ≤ xs.length) :
    (xs ++ '\x00' :: ys).get? j = some '\r' ↔ (j < xs.length ∧ xs.get? j = some '\r') := by
  rcases Nat.lt_or_ge j xs.length with hlt | hge
  · simp [List.getElem?_append_left hlt, hlt]
  · have hn : ¬ j < xs.length := by omega
    simp only [hn, false_and, iff_false, List.get?_eq_getElem?]
    rcases hys with h1 | h2
    · rw [List.getElem?_eq_none]
      · simp
      · simp; omega
    · have : j = xs.length := by omega
      subst this
      rw [List.getElem?_append_right (Nat.le_refl _)]
      simp

theorem get?_take_lt (s : List Char) (k j : Nat) (h : j < k) : (s.take k).get? j = s.get? j := by
  simp [List.getElem?_take, h]

theorem copy_and_strip_spec (field s : List Char) (cap : Nat) (hcap : 0 < cap)
    (hfield : field.length ≤ cap) (hnul : '\x00' ∉ s) (h2 : 2 < s.length) :
    (copy_and_strip field cap s).2 = true ∧
      cstr (copy_and_strip field cap s).1 = (strip_tail s).take (cap - 1) := by
  have hc0 : cap ≠ 0 := by omega
  have hP : '\x00' ∉ s.take (min s.length (cap - 1)) := fun hm => hnul (List.mem_of_mem_take hm)
  have hPlen : (s.take (min s.length (cap - 1))).length = min s.length (cap - 1) := by
    simp
  have hRlen : (field.drop (min s.length (cap - 1) + 1)).length
      ≤ cap - (min s.length (cap - 1) + 1) := by
    simp only [List.length_drop]; omega
  have hB : (snprintf field cap s) = (s.length, s.take (min s.length (cap - 1)) ++
      '\x00' :: field.drop (min s.length (cap - 1) + 1)) := by
    simp [snprintf, hc0, strlen]
  simp only [copy_and_strip, hB, h2, gt_iff_lt, if_true, true_and, strip_cr_lf_tail]
  have c1 := get?_append_nul (s.take (min s.length (cap - 1)))
    (field.drop (min s.length (cap - 1) + 1)) (s.length - 2) (by rw [hPlen]; omega)
  have c2 := get?_append_nul (s.take (min s.length (cap - 1)))
    (field.drop (min s.length (cap - 1) + 1)) (s.length - 1) (by rw [hPlen]; omega)
  rw [hPlen] at c1 c2
  rcases Nat.lt_or_ge s.length cap with hlt | hge
  · -- the whole line fits
    have hk : min s.length (cap - 1) = s.length := by omega
    have hfull : s.take (min s.length (cap - 1)) = s := by rw [hk]; exact List.take_length s
    rw [hk] at c1 c2 ⊢
    simp only [List.take_length s] at c1 c2 ⊢
    have e1 : s.length - 2 < s.length := by omega
    have e2 : s.length - 1 < s.length := by omega
    simp only [e1, e2, true_and] at c1 c2
    unfold strip_tail
    by_cases h1 : s.get? (s.length - 2) = some '\r'
    · rw [if_pos (c1.2 h1), if_pos h1, cstr_set_lt _ _ hnul _ e1, List.take_take]
      congr 1; omega
    · rw [if_neg (fun h => h1 (c1.1 h)), if_neg h1]
      by_cases h3 : s.get? (s.length - 1) = some '\r'
      · rw [if_pos (c2.2 h3), if_pos h3, cstr_set_lt _ _ hnul _ e2, List.take_take]
        congr 1; omega
      · rw [if_neg (fun h => h3 (c2.1 h)), if_neg h3, cstr_append_nul _ _ hnul]
        rw [List.take_of_length_le (by omega)]
  · -- the line is truncated
    have hk : min s.length (cap - 1) = cap - 1 := by omega
    rw [hk] at c1 c2 hP ⊢
    have n2 : ¬ (s.length - 1 < cap - 1) := by omega
    simp only [n2, false_and, iff_false] at c2
    rw [if_neg c2]
    by_cases h1 : s.length - 2 < cap - 1 ∧ (s.take (cap - 1)).get? (s.length - 2) = some '\r'
    · rw [if_pos (c1.2 h1), cstr_set_lt _ _ hP _ (by simp; omega)]
      have h1' : s.get? (s.length - 2) = some '\r' := by
        rw [← get?_take_lt s (cap - 1) _ h1.1]; exact h1.2
      unfold strip_tail
      rw [if_pos h1', List.take_take, List.take_take]
      congr 1; omega
    · rw [if_neg (fun h => h1 (c1.1 h)), cstr_append_nul _ _ hP]
      unfold strip_tail
      by_cases h3 : s.get? (s.length - 2) = some '\r'
      · have : ¬ s.length - 2 < cap - 1 := fun hlt =>
          h1 ⟨hlt, by rw [get?_take_lt s (cap - 1) _ hlt]; exact h3⟩
        rw [if_pos h3, List.take_take]
        congr 1; omega
      · rw [if_neg h3]
        by_cases h4 : s.get? (s.length - 1) = some '\r'
        · rw [if_pos h4, List.take_take]
          congr 1; omega
        · rw [if_neg h4]

theorem splitOn_comma_eq (s : List Char) :
    s.splitOn ',' = s.takeWhile (fun c => !([','].contains c)) ::
      (if s.dropWhile (fun c => !([','].contains c)) = [] then []
       else ((s.dropWhile (fun c => !([','].contains c))).drop 1).splitOn ',') := by
  induction s with
  | nil => simp [List.splitOn, List.splitOnP_nil]
  | cons c cs ih =>
    unfold List.splitOn at ih ⊢
    rw [List.splitOnP_cons]
    by_cases hc : c = ','
    · subst hc
      simp
    · have h1 : (c == ',') = false := by simpa using hc
      rw [ih]
      simp [h1, hc, List.modifyHead]


theorem comma_parts_nil : comma_parts [] = [] := by
  simp [comma_parts, List.splitOn, List.splitOnP_nil]

theorem comma_parts_dropWhile (s : List Char) :
    comma_parts (s.dropWhile (fun c => [','].contains c)) = comma_parts s := by
  induction s with
  | nil => rfl
  | cons c cs ih =>
    by_cases hc : c = ','
    · subst hc
      have : comma_parts (',' :: cs) = comma_parts cs := by
        simp [comma_parts, List.splitOn, List.splitOnP_cons]
      rw [this, ← ih]
      simp
    · simp [hc]

theorem comma_parts_of_head (c : Char) (cs : List Char) (hc : c ≠ ',') :
    comma_parts (c :: cs) = (c :: cs).takeWhile (fun c => !([','].contains c)) ::
      comma_parts (((c :: cs).dropWhile (fun c => !([','].contains c))).drop 1) := by
  unfold comma_parts
  rw [splitOn_comma_eq (c :: cs)]
  have hT : (c :: cs).takeWhile (fun c => !([','].contains c)) ≠ [] := by
    simp [hc]
  rw [List.filter_cons_of_pos (by simpa using hT)]
  congr 1
  by_cases hD : (c :: cs).dropWhile (fun c => !([','].contains c)) = []
  · rw [if_pos hD, hD]
    simp [List.splitOn, List.splitOnP_nil]
  · rw [if_neg hD]

theorem strtok_r_eq (str : Option (List Char)) (save : List Char) :
    strtok_r str [','] save = strtok_r (some ((str.getD save).dropWhile (fun c => [','].contains c))) [','] [] := by
  simp [strtok_r, List.dropWhile_idempotent]

theorem strtok_r_none (str : Option (List Char)) (save : List Char)
    (h : comma_parts (str.getD save) = []) : strtok_r str [','] save = (none, []) := by
  rw [← comma_parts_dropWhile] at h
  unfold strtok_r
  cases hs : (str.getD save).dropWhile (fun c => [','].contains c) with
  | nil => simp
  | cons c cs =>
    exfalso
    have hc : c ≠ ',' := by
      have := List.head_dropWhile_not (fun c => [','].contains c) (str.getD save) (by rw [hs]; simp)
      simp only [hs, List.head_cons] at this
      simpa using this
    rw [hs, comma_parts_of_head c cs hc] at h
    simp at h

theorem strtok_r_some (str : Option (List Char)) (save : List Char) (t : List Char)
    (ts : List (List Char)) (h : comma_parts (str.getD save) = t :: ts) :
    (strtok_r str [','] save).1 = some t ∧ comma_parts (strtok_r str [','] save).2 = ts ∧
      (strtok_r str [','] save).2.length < (str.getD save).length := by
  rw [← comma_parts_dropWhile] at h
  have hle := (List.dropWhile_sublist (fun c => [','].contains c) (l := str.getD save)).length_le
  unfold strtok_r
  cases hs : (str.getD save).dropWhile (fun c => [','].contains c) with
  | nil => rw [hs, comma_parts_nil] at h; simp at h
  | cons c cs =>
    have hc : c ≠ ',' := by
      have := List.head_dropWhile_not (fun c => [','].contains c) (str.getD save) (by rw [hs]; simp)
      simp only [hs, List.head_cons] at this
      simpa using this
    rw [hs, comma_parts_of_head c cs hc] at h
    rw [hs] at hle
    have hle2 := (List.dropWhile_sublist (fun c => !([','].contains c)) (l := c :: cs)).length_le
    simp only [List.cons.injEq] at h
    simp only [reduceCtorEq, if_false]
    refine ⟨by rw [h.1], h.2, ?_⟩
    simp only [List.length_drop, List.length_cons] at hle hle2 ⊢
    omega

theorem cops_while_parts : ∀ (parts : List (List Char)) (fuel : Nat) (st : cops_locals),
    comma_parts st.str_ptr = parts → (st.p st.i).isSome = true →
    st.i + parts.length + 1 < 256 → st.str_ptr.length + 2 ≤ fuel →
    ∃ st', cops_while fuel st = some st' ∧ st'.i = st.i + parts.length + 1 ∧
      st'.p st'.i = none ∧
      (∀ j, j < parts.length → st'.p (st.i + 1 + j) = parts.get? j) ∧
      (∀ j, j ≤ st.i → st'.p j = st.p j) ∧
      st'.written = st.written ++ (List.range (parts.length + 1)).map (fun j => st.i + 1 + j) := by
  intro parts
  induction parts with
  | nil =>
    intro fuel st hparts hp hi hfuel
    obtain ⟨f, rfl⟩ : ∃ f, fuel = f + 1 := ⟨fuel - 1, by omega⟩
    obtain ⟨f', rfl⟩ : ∃ f', f = f' + 1 := ⟨f - 1, by omega⟩
    obtain ⟨tok, htok⟩ := Option.isSome_iff_exists.1 hp
    have hs := strtok_r_none none st.str_ptr (by simpa using hparts)
    have hmod : (st.i + 1) % 256 = st.i + 1 := Nat.mod_eq_of_lt (by simp at hi; omega)
    refine ⟨{ p := Function.update st.p (st.i + 1) none, i := st.i + 1, str_ptr := [],
              written := st.written ++ [st.i + 1] }, by
      rw [cops_while]
      simp only [htok, hs, hmod]
      rw [cops_while]
      simp, ?_, ?_, ?_, ?_, ?_⟩
    · simp
    · simp
    · intro j hj; simp at hj
    · intro j hj
      simp only
      rw [Function.update_noteq (by omega)]
    · simp [List.range_succ]
  | cons t ts ih =>
    intro fuel st hparts hp hi hfuel
    obtain ⟨f, rfl⟩ : ∃ f, fuel = f + 1 := ⟨fuel - 1, by omega⟩
    obtain ⟨tok, htok⟩ := Option.isSome_iff_exists.1 hp
    obtain ⟨h1, h2, h3⟩ := strtok_r_some none st.str_ptr t ts (by simpa using hparts)
    simp only [Option.getD_none] at h3
    simp only [List.length_cons] at hi
    have hmod : (st.i + 1) % 256 = st.i + 1 := Nat.mod_eq_of_lt (by omega)
    obtain ⟨st', e1, e2, e3, e4, e5, e6⟩ := ih f
      { p := Function.update st.p (st.i + 1) (strtok_r none [','] st.str_ptr).1,
        i := st.i + 1,
        str_ptr := (strtok_r none [','] st.str_ptr).2,
        written := st.written ++ [st.i + 1] } h2 (by simp [h1]) (by simp; omega) (by simp; omega)
    refine ⟨st', by
      rw [cops_while]
      simp only [htok, hmod]
      exact e1, ?_, e3, ?_, ?_, ?_⟩
    · rw [e2]; simp; omega
    · intro j hj
      cases j with
      | zero =>
        have := e5 (st.i + 1) (by simp)
        simp only [Function.update_same] at this
        simp [this, h1]
      | succ j =>
        have := e4 j (by simp at hj; omega)
        simp only at this
        rw [show st.i + 1 + (j + 1) = st.i + 1 + 1 + j by omega, this]
        simp
    · intro j hj
      have := e5 j (by simp; omega)
      rw [this]
      simp only
      rw [Function.update_noteq (by omega)]
    · rw [e6]
      simp only [List.length_cons, List.append_assoc, List.singleton_append]
      congr 1
      rw [List.range_succ_eq_map (ts.length + 1)]
      simp only [List.map_cons, List.map_map, Nat.add_zero]
      congr 1
      apply List.map_congr_left
      intro a _
      simp only [Function.comp]
      omega

theorem cops_split_parts (line : List Char) (h : (comma_parts line).length < 255) :
    ∃ st, cops_split line = some st ∧ st.i = (comma_parts line).length ∧
      (∀ j, j < (comma_parts line).length → st.p j = (comma_parts line).get? j) ∧
      st.written = List.range ((comma_parts line).length + 1) := by
  unfold cops_split
  cases hp : comma_parts line with
  | nil =>
    have hs := strtok_r_none (some line) [] (by simpa using hp)
    refine ⟨{ p := Function.update (fun _ => none) 0 none, i := 0, str_ptr := [],
              written := [0] }, by rw [cops_while]; simp [hs], by simp, by simp,
      by simp [List.range_succ]⟩
  | cons t ts =>
    obtain ⟨h1, h2, h3⟩ := strtok_r_some (some line) [] t ts (by simpa using hp)
    rw [hp] at h
    simp only [List.length_cons] at h
    simp only [Option.getD_some] at h3
    obtain ⟨st', e1, e2, e3, e4, e5, e6⟩ := cops_while_parts ts (strlen line + 2)
      { p := Function.update (fun _ => none) 0 (strtok_r (some line) [','] []).1,
        i := 0,
        str_ptr := (strtok_r (some line) [','] []).2,
        written := [0] } h2 (by simp [h1]) (by simp only []; omega) (by simp only [strlen]; omega)
    simp only at e2 e4 e5 e6
    refine ⟨st', e1, by rw [e2]; simp, ?_, ?_⟩
    · intro j hj
      cases j with
      | zero =>
        have := e5 0 (by simp)
        simp only [Function.update_same] at this
        simp [this, h1]
      | succ j =>
        have := e4 j (by simp at hj; omega)
        simp only at this
        rw [show j + 1 = 0 + 1 + j by omega, this]
        simp [Nat.add_comm 1 j]
    · rw [e6]
      simp only [List.length_cons, List.singleton_append]
      rw [List.range_succ_eq_map (ts.length + 1)]
      congr 1
      apply List.map_congr_left
      intro a _
      omega

theorem strstr_false {line tok : List Char} (h : ¬ tok <:+: line) : strstr line tok = false := by
  cases hs : strstr line tok with
  | false => rfl
  | true => exact absurd ((strstr_iff _ _).1 hs) h

theorem comma_parts_append_comma (x rest : List Char) (hx : x ≠ []) (hc : ',' ∉ x) :
    comma_parts (x ++ ',' :: rest) = x :: comma_parts rest := by
  have hall : ∀ a ∈ x, (!([','].contains a)) = true := by
    intro a ha
    have : a ≠ ',' := fun e => hc (e ▸ ha)
    simpa using this
  cases x with
  | nil => exact absurd rfl hx
  | cons c cs =>
    have hne : c ≠ ',' := fun e => hc (by simp [e])
    rw [List.cons_append, comma_parts_of_head c _ hne, ← List.cons_append,
      List.takeWhile_append_of_pos hall, List.dropWhile_append_of_pos hall]
    simp

theorem comma_parts_single (x : List Char) (hx : x ≠ []) (hc : ',' ∉ x) :
    comma_parts x = [x] := by
  have hall : ∀ a ∈ x, (!([','].contains a)) = true := by
    intro a ha
    have : a ≠ ',' := fun e => hc (e ▸ ha)
    simpa using this
  cases x with
  | nil => exact absurd rfl hx
  | cons c cs =>
    have hne : c ≠ ',' := fun e => hc (by simp [e])
    rw [comma_parts_of_head c _ hne]
    have h1 : (c :: cs).takeWhile (fun c => !([','].contains c)) = c :: cs := by
      rw [List.takeWhile_eq_self_iff]; exact hall
    have h2 : (c :: cs).dropWhile (fun c => !([','].contains c)) = [] := by
      rw [List.dropWhile_eq_nil_iff]; exact hall
    rw [h1, h2]
    simp [comma_parts_nil]

theorem strip_tail_crlf (s : List Char) : strip_tail (s ++ ['\r', '\n']) = s := by
  unfold strip_tail
  have h : (s ++ ['\r', '\n']).get? ((s ++ ['\r', '\n']).length - 2) = some '\r' := by
    rw [List.get?_eq_getElem?, List.getElem?_append_right (by simp)]
    simp
  rw [if_pos h]
  simp

theorem strip_tail_no_cr (s : List Char) (h : '\r' ∉ s) : strip_tail s = s := by
  unfold strip_tail
  have h1 : ∀ j, s.get? j ≠ some '\r' := by
    intro j hj
    exact h (List.get?_mem hj)
  rw [if_neg (h1 _), if_neg (h1 _)]

theorem snprintf_fst (buf : List Char) (size : Nat) (s : List Char) :
    (snprintf buf size s).1 = s.length := by
  unfold snprintf strlen
  split <;> rfl

theorem copy_and_strip_short (field : List Char) (size : Nat) (s : List Char)
    (h : s.length ≤ 2) : (copy_and_strip field size s).2 = false := by
  have hn : ¬ s.length > 2 := by omega
  simp [copy_and_strip, snprintf_fst, hn]

theorem digitChar_spec (m : Nat) (hm : m < 10) :
    (Nat.digitChar m).isDigit = true ∧ (Nat.digitChar m).toNat - 48 = m := by
  interval_cases m <;> decide

theorem digits_value_snoc (ds : List Char) (d : Char) :
    digits_value (ds ++ [d]) = digits_value ds * 10 + (d.toNat - 48) := by
  simp [digits_value, List.foldl_append]

/-- With enough fuel `Nat.toDigitsCore` puts a non-empty run of decimal digits of
value `n` in front of the accumulator. -/
theorem toDigitsCore_run : ∀ (fuel n : Nat) (acc : List Char), n < fuel →
    ∃ run : List Char, Nat.toDigitsCore 10 fuel n acc = run ++ acc ∧ run ≠ [] ∧
      (∀ c ∈ run, c.isDigit = true) ∧ digits_value run = n := by
  intro fuel
  induction fuel with
  | zero => intro n acc h; omega
  | succ fuel ih =>
    intro n acc hn
    have hd := digitChar_spec (n % 10) (Nat.mod_lt _ (by omega))
    unfold Nat.toDigitsCore
    by_cases hq : n / 10 = 0
    · refine ⟨[Nat.digitChar (n % 10)], by simp [hq], by simp, by simpa using hd.1, ?_⟩
      have : digits_value [Nat.digitChar (n % 10)] = (Nat.digitChar (n % 10)).toNat - 48 := by
        simp [digits_value]
      rw [this, hd.2]
      omega
    · obtain ⟨run, e1, -, e3, e4⟩ := ih (n / 10) (Nat.digitChar (n % 10) :: acc) (by omega)
      refine ⟨run ++ [Nat.digitChar (n % 10)], by simp [hq, e1], by simp, ?_, ?_⟩
      · intro c hc
        rcases List.mem_append.1 hc with h | h
        · exact e3 c h
        · simp only [List.mem_singleton] at h
          rw [h]; exact hd.1
      · rw [digits_value_snoc, e4, hd.2]
        omega

theorem toDigits_run (n : Nat) :
    Nat.toDigits 10 n ≠ [] ∧ (∀ c ∈ Nat.toDigits 10 n, c.isDigit = true) ∧
      digits_value (Nat.toDigits 10 n) = n := by
  obtain ⟨run, e1, e2, e3, e4⟩ := toDigitsCore_run (n + 1) n [] (by omega)
  unfold Nat.toDigits
  rw [e1, List.append_nil]
  exact ⟨e2, e3, e4⟩

theorem isDigit_not_space (c : Char) (h : c.isDigit = true) :
    isspace c = false ∧ c ≠ '-' ∧ c ≠ '+' ∧ c ≠ ',' := by
  refine ⟨?_, ?_, ?_, ?_⟩
  · cases hs : isspace c with
    | false => rfl
    | true =>
      exfalso
      simp only [isspace, Bool.or_eq_true, decide_eq_true_eq] at hs
      rcases hs with ((((rfl | rfl) | rfl) | rfl) | rfl) | rfl <;> exact absurd h (by decide)
  · rintro rfl; exact absurd h (by decide)
  · rintro rfl; exact absurd h (by decide)
  · rintro rfl; exact absurd h (by decide)

/-- The directive `%d` on a decimal numeral that fits in 32 bits, followed by
something that is not a digit: the `int` stored has the bits of the numeral. -/
theorem scan_int_numeral (ws rest : List Char) (a : Nat) (hws : ∀ c ∈ ws, isspace c = true)
    (ha : a < 4294967296) (hrest : rest.takeWhile Char.isDigit = []) :
    scan_int (ws ++ Nat.toDigits 10 a ++ rest) = some (long_to_int (a : Int), rest) := by
  obtain ⟨hne, hdig, hval⟩ := toDigits_run a
  obtain ⟨d, ds, hd⟩ : ∃ d ds, Nat.toDigits 10 a = d :: ds := by
    cases h : Nat.toDigits 10 a with
    | nil => exact absurd h hne
    | cons d ds => exact ⟨d, ds, rfl⟩
  have hdd : d.isDigit = true := hdig d (by rw [hd]; simp)
  obtain ⟨n1, n2, n3, -⟩ := isDigit_not_space d hdd
  have hdrop : (ws ++ Nat.toDigits 10 a ++ rest).dropWhile isspace
      = Nat.toDigits 10 a ++ rest := by
    rw [List.append_assoc, List.dropWhile_append_of_pos hws, hd, List.cons_append,
      List.dropWhile_cons_of_neg (by simp [n1])]
  have htake : (Nat.toDigits 10 a ++ rest).takeWhile Char.isDigit = Nat.toDigits 10 a := by
    rw [List.takeWhile_append_of_pos hdig, hrest, List.append_nil]
  have hdrop2 : (Nat.toDigits 10 a ++ rest).dropWhile Char.isDigit
      = rest.dropWhile Char.isDigit := List.dropWhile_append_of_pos hdig
  have hrest2 : rest.dropWhile Char.isDigit = rest := by
    have := List.takeWhile_append_dropWhile Char.isDigit rest
    rw [hrest] at this
    simpa using this
  have hhead : (Nat.toDigits 10 a ++ rest).head? = some d := by rw [hd]; rfl
  have hm2 : ¬ (some d = some '-') := by simp [n2]
  have hm3 : ¬ (some d = some '+') := by simp [n3]
  have hclamp : max LONG_MIN (min LONG_MAX (a : Int)) = (a : Int) := by
    unfold LONG_MIN LONG_MAX
    omega
  unfold scan_int
  simp only [hdrop, hhead, hm2, hm3, or_self, if_false, htake, hne, hval, hdrop2, hrest2,
    decide_False, Bool.false_eq_true, hclamp]

theorem not_infix_of_not_mem (c : Char) (tok line : List Char) (hc : c ∈ tok) (h : c ∉ line) :
    ¬ tok <:+: line := fun hi => h (hi.subset hc)

theorem not_mem_toDigits (c : Char) (hc : c.isDigit = false) (n : Nat) :
    c ∉ Nat.toDigits 10 n := by
  intro hm
  rw [(toDigits_run n).2.1 c hm] at hc
  exact absurd hc (by decide)

theorem int_to_uint32_natCast (a : Nat) (ha : a < 4294967296) : int_to_uint32 (a : Int) = a := by
  unfold int_to_uint32
  rw [Int.emod_eq_of_lt (by omega) (by omega)]
  simp

/-- Storing the `int` of a numeral that fits in 32 bits through a pointer to
`uint32_t` gives the numeral back. -/
theorem int_to_uint32_long_to_int (a : Nat) (ha : a < 4294967296) :
    int_to_uint32 (long_to_int (a : Int)) = a := by
  unfold int_to_uint32 long_to_int
  have h : ((a : Int) + 2147483648) % 4294967296 - 2147483648 = (a : Int) ∨
      ((a : Int) + 2147483648) % 4294967296 - 2147483648 = (a : Int) - 4294967296 := by omega
  rcases h with h | h
  · rw [h, Int.emod_eq_of_lt (by omega) (by omega)]
    simp
  · rw [h]
    have h2 : ((a : Int) - 4294967296) % 4294967296 = (a : Int) := by omega
    rw [h2]
    simp

theorem takeWhile_isDigit_terminator (t : List Char) (ht : t = [] ∨ t = ['\r', '\n']) :
    t.takeWhile Char.isDigit = [] := by
  rcases ht with rfl | rfl <;> decide

/-- The comma split never runs out of fuel: every round that does not end the
loop shortens what `strtok_r` has left. -/
theorem cops_while_total : ∀ (fuel : Nat) (st : cops_locals),
    ((st.p st.i = none ∧ 1 ≤ fuel) ∨ st.str_ptr.length + 2 ≤ fuel) →
    ∃ st', cops_while fuel st = some st' := by
  intro fuel
  induction fuel with
  | zero => intro st h; omega
  | succ fuel ih =>
    intro st h
    rw [cops_while]
    cases hp : st.p st.i with
    | none => exact ⟨st, rfl⟩
    | some tok =>
      have hlen : st.str_ptr.length + 2 ≤ fuel + 1 := by
        rcases h with h | h
        · rw [hp] at h; exact absurd h.1 (by simp)
        · exact h
      apply ih
      cases hc : comma_parts st.str_ptr with
      | nil =>
        left
        have hs := strtok_r_none none st.str_ptr (by simpa using hc)
        simp only [hs, Function.update_same, true_and]
        omega
      | cons t ts =>
        right
        obtain ⟨-, -, h3⟩ := strtok_r_some none st.str_ptr t ts (by simpa using hc)
        simp only [Option.getD_none] at h3
        simp only
        omega

theorem cops_split_total (line : List Char) : ∃ st, cops_split line = some st := by
  unfold cops_split
  apply cops_while_total
  cases hc : comma_parts line with
  | nil =>
    left
    have hs := strtok_r_none (some line) [] (by simpa using hc)
    simp [hs]
  | cons t ts =>
    right
    obtain ⟨-, -, h3⟩ := strtok_r_some (some line) [] t ts (by simpa using hc)
    simp only [Option.getD_some] at h3
    simp only [strlen]
    omega

theorem snprintf_length (buf : List Char) (size : Nat) (s : List Char) (h : buf.length = size) :
    (snprintf buf size s).2.length = size := by
  unfold snprintf strlen
  split
  · exact h
  · simp only [List.length_append, List.length_take, List.length_cons, List.length_nil,
      List.length_drop]
    omega

theorem strip_cr_lf_tail_length (str : List Char) (len : Nat) :
    (strip_cr_lf_tail str len).length = str.length := by
  unfold strip_cr_lf_tail
  split
  · simp
  · split <;> simp

theorem copy_and_strip_length (field : List Char) (size : Nat) (s : List Char)
    (h : field.length = size) : (copy_and_strip field size s).1.length = size := by
  unfold copy_and_strip
  simp only
  split
  · simp [strip_cr_lf_tail_length, snprintf_length _ _ _ h]
  · simp [snprintf_length _ _ _ h]

/-- Every parser keeps the handle well formed. -/
theorem call_handle_line_wf (h : line_handler) (dce : sim800_modem_dce_t) (line : List Char)
    (hwf : dce_wf dce) : dce_wf (call_handle_line h dce line).2 := by
  obtain ⟨w1, w2, w3, w4⟩ := hwf
  cases h <;>
    simp only [call_handle_line, sim800_handle_csq, sim800_handle_cbc,
      sim800_handle_exit_data_mode, sim800_handle_atd_ppp, sim800_handle_cgmm,
      sim800_handle_cgsn, sim800_handle_cimi, sim800_handle_cops, sim800_handle_power_down,
      process_command_done, esp_modem_process_command_done] <;>
    (repeat' split) <;>
    exact ⟨by simp [w1, copy_and_strip_length], by simp [w2, copy_and_strip_length],
      by simp [w3, copy_and_strip_length], by simp [w4, copy_and_strip_length]⟩

/-! ## Properties of the sequencers -/

theorem status_probe_total (env : environment) : ∀ (fuel inc : Nat) (w : world),
    1 ≤ fuel → 21 ≤ fuel + inc → ∃ r, status_probe env fuel inc w = some r := by
  intro fuel
  induction fuel with
  | zero => intro inc w h; omega
  | succ fuel ih =>
    intro inc w _ h21
    rw [status_probe]
    split
    · exact ⟨_, rfl⟩
    · rename_i hc
      have hinc : ¬ inc + 1 > 20 := fun h => hc (Or.inr h)
      exact ih (inc + 1) _ (by omega) (by omega)

theorem status_round_events (env : environment) (w : world) :
    ∃ evs, (status_round env w).2.trace = w.trace ++ evs ∧
      (∀ e ∈ evs, is_probe_event e = true) ∧
      (status_round env w).2.syncs = w.syncs ∧ (status_round env w).2.echos = w.echos ∧
      (status_round env w).2.sends = w.sends := by
  unfold status_round
  split
  · exact ⟨[event.delay 500, event.gpio_get gpio_pin.STATUS (env.status w.samples),
      event.delay 30, event.gpio_get gpio_pin.STATUS (env.status (w.samples + 1))],
      by simp [gpio_get_level, vTaskDelay], by simp [is_probe_event], rfl, rfl, rfl⟩
  · exact ⟨[event.delay 500, event.gpio_get gpio_pin.STATUS (env.status w.samples)],
      by simp [gpio_get_level, vTaskDelay], by simp [is_probe_event], rfl, rfl, rfl⟩

theorem status_probe_events (env : environment) : ∀ (fuel inc : Nat) (w : world) (r : Bool × world),
    status_probe env fuel inc w = some r →
    ∃ evs, r.2.trace = w.trace ++ evs ∧ (∀ e ∈ evs, is_probe_event e = true) ∧
      r.2.syncs = w.syncs ∧ r.2.echos = w.echos ∧ r.2.sends = w.sends := by
  intro fuel
  induction fuel with
  | zero => intro inc w r h; simp [status_probe] at h
  | succ fuel ih =>
    intro inc w r h
    rw [status_probe] at h
    obtain ⟨evs, b1, b2, b3, b4, b5⟩ := status_round_events env w
    split at h
    · cases h
      exact ⟨evs, b1, b2, b3, b4, b5⟩
    · obtain ⟨evs2, c1, c2, c3, c4, c5⟩ := ih _ _ _ h
      refine ⟨evs ++ evs2, by rw [c1, b1, List.append_assoc], ?_, by rw [c3, b3], by rw [c4, b4],
        by rw [c5, b5]⟩
      intro e he
      rcases List.mem_append.1 he with h1 | h1
      · exact b2 e h1
      · exact c2 e h1

theorem pwrkey_writes_probe_events (evs : List event) (h : ∀ e ∈ evs, is_probe_event e = true) :
    pwrkey_writes evs = [] := by
  unfold pwrkey_writes
  rw [List.filterMap_eq_nil_iff]
  intro e he
  have := h e he
  cases e <;> simp_all [is_probe_event]

theorem pwrkey_writes_append (a b : List event) :
    pwrkey_writes (a ++ b) = pwrkey_writes a ++ pwrkey_writes b := by
  simp [pwrkey_writes, List.filterMap_append]

theorem power_on_pulse_trace (w : world) :
    (power_on_pulse w).trace = w.trace ++
      [event.gpio_set gpio_pin.PWRKEY 1, event.delay 100, event.gpio_set gpio_pin.PWRKEY 0,
       event.delay 1100, event.gpio_set gpio_pin.PWRKEY 1,
       event.delay 1000, event.delay 1000, event.delay 1000, event.delay 1000] := by
  simp [power_on_pulse, vTaskDelay, gpio_set_level]

theorem stops_at_failure_spec : ∀ (q : List event), stops_at_failure q = true →
    ∀ (pre : List event) (e : event) (post : List event), q = pre ++ e :: post →
      is_command e = true → command_succeeded e = false → issued_commands post = [] := by
  intro q
  induction q with
  | nil => intro _ pre e post h; simp at h
  | cons x xs ih =>
    intro hq pre e post h hc hf
    cases pre with
    | nil =>
      simp only [List.nil_append, List.cons.injEq] at h
      obtain ⟨rfl, rfl⟩ := h
      simpa [stops_at_failure, hc, hf] using hq
    | cons p ps =>
      simp only [List.cons_append, List.cons.injEq] at h
      obtain ⟨rfl, rfl⟩ := h
      unfold stops_at_failure at hq
      split at hq
      · have hnil : issued_commands (ps ++ e :: post) = [] := by simpa using hq
        unfold issued_commands at hnil ⊢
        rw [List.filterMap_eq_nil_iff] at hnil ⊢
        intro a ha
        exact hnil a (by simp [ha])
      · exact ih hq ps e post rfl hc hf

theorem issued_commands_append (a b : List event) :
    issued_commands (a ++ b) = issued_commands a ++ issued_commands b := by
  simp [issued_commands, List.filterMap_append]

theorem issued_commands_probe_events (evs : List event)
    (h : ∀ e ∈ evs, is_probe_event e = true) : issued_commands evs = [] := by
  unfold issued_commands
  rw [List.filterMap_eq_nil_iff]
  intro e he
  have := h e he
  cases e <;> simp_all [is_probe_event, issued_of]

theorem sync_retry_total (env : environment) :
    ∀ (fuel inc : Nat) (dce : sim800_modem_dce_t) (w : world),
    1 ≤ fuel → 11 ≤ fuel + inc → ∃ r, sync_retry env fuel inc dce w = some r := by
  intro fuel
  induction fuel with
  | zero => intro inc dce w h; omega
  | succ fuel ih =>
    intro inc dce w _ h11
    rw [sync_retry]
    split
    · exact ⟨_, rfl⟩
    · rename_i hc
      have hinc : ¬ inc + 1 > 10 := fun h => hc (Or.inr h)
      exact ih (inc + 1) _ _ (by omega) (by omega)

theorem sync_retry_issues_nothing (env : environment) :
    ∀ (fuel inc : Nat) (dce : sim800_modem_dce_t) (w : world)
      (r : Bool × sim800_modem_dce_t × world),
    sync_retry env fuel inc dce w = some r →
    issued_commands r.2.2.trace = issued_commands w.trace := by
  intro fuel
  induction fuel with
  | zero => intro inc dce w r h; simp [sync_retry] at h
  | succ fuel ih =>
    intro inc dce w r h
    rw [sync_retry] at h
    have hb : issued_commands (esp_modem_dce_sync env dce (vTaskDelay 1000 w)).2.2.trace
        = issued_commands w.trace := by
      simp [esp_modem_dce_sync, vTaskDelay, issued_commands_append, issued_commands, issued_of]
    split at h
    · cases h
      exact hb
    · rw [ih _ _ _ _ h, hb]

theorem status_probe_issues_nothing (env : environment) (fuel inc : Nat) (w : world)
    (r : Bool × world) (h : status_probe env fuel inc w = some r) :
    issued_commands r.2.trace = issued_commands w.trace := by
  obtain ⟨evs, t, q, -⟩ := status_probe_events env fuel inc w r h
  rw [t, issued_commands_append, issued_commands_probe_events evs q, List.append_nil]

theorem reset_pulse_issues_nothing (w : world) :
    issued_commands (reset_pulse w).trace = issued_commands w.trace := by
  simp [reset_pulse, vTaskDelay, gpio_set_level, issued_commands_append, issued_commands,
    issued_of]

theorem command_checks_event (env : environment) (text : List Char) (timeout : command_timeout)
    (dce : sim800_modem_dce_t) (w : world) :
    ∃ e, (command_checks (dte_send_cmd env text timeout dce w)).2.2.trace = w.trace ++ [e] ∧
      issued_of e = some (issued.command text timeout) ∧
      ((command_checks (dte_send_cmd env text timeout dce w)).1 = ESP_OK ↔
        command_succeeded e = true) := by
  refine ⟨event.send_cmd text timeout (env.send_cmd w.sends text timeout dce).1
    (env.send_cmd w.sends text timeout dce).2.parent.state, rfl, rfl, ?_⟩
  simp only [command_checks, dte_send_cmd, command_succeeded, Bool.and_eq_true,
    decide_eq_true_eq]
  split
  · rename_i h; simp [h]
  · rename_i h
    constructor
    · intro h'; exact absurd h' (by decide)
    · intro h'; exact absurd h' h

theorem echo_event (env : environment) (enable : Bool) (dce : sim800_modem_dce_t) (w : world) :
    ∃ e, (esp_modem_dce_echo env enable dce w).2.2.trace = w.trace ++ [e] ∧
      issued_of e = some (issued.echo enable) ∧
      ((esp_modem_dce_echo env enable dce w).1 = ESP_OK ↔ command_succeeded e = true) := by
  refine ⟨event.echo enable (env.echo w.echos enable dce).1, rfl, rfl, ?_⟩
  simp [esp_modem_dce_echo, command_succeeded]

theorem get_module_name_event (env : environment) (dce : sim800_modem_dce_t) (w : world) :
    ∃ e, (sim800_get_module_name env dce w).2.2.trace = w.trace ++ [e] ∧
      issued_of e = some (issued.command "AT+CGMM\r".toList MODEM_COMMAND_TIMEOUT_DEFAULT) ∧
      ((sim800_get_module_name env dce w).1 = ESP_OK ↔ command_succeeded e = true) :=
  command_checks_event env _ _ _ w

theorem get_imei_number_event (env : environment) (dce : sim800_modem_dce_t) (w : world) :
    ∃ e, (sim800_get_imei_number env dce w).2.2.trace = w.trace ++ [e] ∧
      issued_of e = some (issued.command "AT+CGSN\r".toList MODEM_COMMAND_TIMEOUT_DEFAULT) ∧
      ((sim800_get_imei_number env dce w).1 = ESP_OK ↔ command_succeeded e = true) :=
  command_checks_event env _ _ _ w

theorem get_imsi_number_event (env : environment) (dce : sim800_modem_dce_t) (w : world) :
    ∃ e, (sim800_get_imsi_number env dce w).2.2.trace = w.trace ++ [e] ∧
      issued_of e = some (issued.command "AT+CIMI\r".toList MODEM_COMMAND_TIMEOUT_DEFAULT) ∧
      ((sim800_get_imsi_number env dce w).1 = ESP_OK ↔ command_succeeded e = true) :=
  command_checks_event env _ _ _ w

theorem get_operator_name_event (env : environment) (dce : sim800_modem_dce_t) (w : world) :
    ∃ e, (sim800_get_operator_name env dce w).2.2.trace = w.trace ++ [e] ∧
      issued_of e = some (issued.command "AT+COPS?\r".toList MODEM_COMMAND_TIMEOUT_OPERATOR) ∧
      ((sim800_get_operator_name env dce w).1 = ESP_OK ↔ command_succeeded e = true) :=
  command_checks_event env _ _ _ w

theorem succeeded_false_of_not {e : event} {p : Prop} (h : p ↔ command_succeeded e = true)
    (hn : ¬ p) : command_succeeded e = false := by
  cases hc : command_succeeded e with
  | false => rfl
  | true => exact absurd (h.2 hc) hn

theorem open_queries_spec (env : environment) (dce : sim800_modem_dce_t) (w : world) :
    ∃ q, (open_queries env dce w).2.2.trace = w.trace ++ q ∧
      issued_commands q <+: open_plan ∧
      ((open_queries env dce w).1 = ESP_OK ↔
        ((esp_modem_dce_sync env dce w).1 = ESP_OK ∧ issued_commands q = open_plan ∧
          ∀ e ∈ q, is_command e = true → command_succeeded e = true)) ∧
      ((esp_modem_dce_sync env dce w).1 = ESP_OK →
        (∀ e ∈ q, is_command e = true → command_succeeded e = true) →
        issued_commands q = open_plan) ∧
      stops_at_failure q = true ∧
      ((esp_modem_dce_sync env dce w).1 ≠ ESP_OK → issued_commands q = []) := by
  have hfail : ESP_FAIL ≠ ESP_OK := by decide
  have is : ∀ r, issued_of (event.sync r) = none := fun _ => rfl
  have ic : ∀ r, command_succeeded (event.sync r) = false := fun _ => rfl
  have jf : issued_of event.free_parent = none := rfl
  have t0 : (esp_modem_dce_sync env dce w).2.2.trace
      = w.trace ++ [event.sync (esp_modem_dce_sync env dce w).1] := rfl
  unfold open_queries
  simp only
  by_cases h0 : (esp_modem_dce_sync env dce w).1 = ESP_OK
  swap
  · refine ⟨[event.sync (esp_modem_dce_sync env dce w).1, event.free_parent], ?_, ?_, ?_, ?_, ?_, ?_⟩ <;>
      simp [h0, err_io, t0, issued_commands, is, jf, open_plan, hfail, stops_at_failure,
        is_command]
  set r0 := esp_modem_dce_sync env dce w with hr0
  obtain ⟨e1, t1, i1, s1⟩ := echo_event env false r0.2.1 r0.2.2
  set r1 := esp_modem_dce_echo env false r0.2.1 r0.2.2 with hr1
  by_cases h1 : r1.1 = ESP_OK
  swap
  · have f1 := succeeded_false_of_not s1 h1
    refine ⟨[event.sync r0.1, e1, event.free_parent], ?_, ?_, ?_, ?_, ?_, ?_⟩ <;>
      simp [h0, h1, err_io, t0, t1, issued_commands, is, jf, i1, open_plan, hfail,
        stops_at_failure, is_command, f1]
  have g1 := s1.1 h1
  obtain ⟨e2, t2, i2, s2⟩ := get_module_name_event env r1.2.1 r1.2.2
  set r2 := sim800_get_module_name env r1.2.1 r1.2.2 with hr2
  by_cases h2 : r2.1 = ESP_OK
  swap
  · have f2 := succeeded_false_of_not s2 h2
    refine ⟨[event.sync r0.1, e1, e2, event.free_parent], ?_, ?_, ?_, ?_, ?_, ?_⟩ <;>
      simp [h0, h1, h2, err_io, t0, t1, t2, issued_commands, is, jf, i1, i2, open_plan, hfail,
        stops_at_failure, is_command, g1, f2]
  have g2 := s2.1 h2
  obtain ⟨e3, t3, i3, s3⟩ := get_imei_number_event env r2.2.1 r2.2.2
  set r3 := sim800_get_imei_number env r2.2.1 r2.2.2 with hr3
  by_cases h3 : r3.1 = ESP_OK
  swap
  · have f3 := succeeded_false_of_not s3 h3
    refine ⟨[event.sync r0.1, e1, e2, e3, event.free_parent], ?_, ?_, ?_, ?_, ?_, ?_⟩ <;>
      simp [h0, h1, h2, h3, err_io, t0, t1, t2, t3, issued_commands, is, jf, i1, i2, i3,
        open_plan, hfail, stops_at_failure, is_command, g1, g2, f3]
  have g3 := s3.1 h3
  obtain ⟨e4, t4, i4, s4⟩ := get_imsi_number_event env r3.2.1 r3.2.2
  set r4 := sim800_get_imsi_number env r3.2.1 r3.2.2 with hr4
  by_cases h4 : r4.1 = ESP_OK
  swap
  · have f4 := succeeded_false_of_not s4 h4
    refine ⟨[event.sync r0.1, e1, e2, e3, e4, event.free_parent], ?_, ?_, ?_, ?_, ?_, ?_⟩ <;>
      simp [h0, h1, h2, h3, h4, err_io, t0, t1, t2, t3, t4, issued_commands, is, jf, i1, i2, i3,
        i4, open_plan, hfail, stops_at_failure, is_command, g1, g2, g3, f4]
  have g4 := s4.1 h4
  obtain ⟨e5, t5, i5, s5⟩ := get_operator_name_event env r4.2.1 r4.2.2
  set r5 := sim800_get_operator_name env r4.2.1 r4.2.2 with hr5
  by_cases h5 : r5.1 = ESP_OK
  swap
  · have f5 := succeeded_false_of_not s5 h5
    refine ⟨[event.sync r0.1, e1, e2, e3, e4, e5, event.free_parent], ?_, ?_, ?_, ?_, ?_, ?_⟩ <;>
      simp [h0, h1, h2, h3, h4, h5, err_io, t0, t1, t2, t3, t4, t5, issued_commands, is, jf, i1,
        i2, i3, i4, i5, open_plan, hfail, stops_at_failure, is_command, g1, g2, g3, g4, f5]
  have g5 := s5.1 h5
  refine ⟨[event.sync r0.1, e1, e2, e3, e4, e5], ?_, ?_, ?_, ?_, ?_, ?_⟩ <;>
    simp [h0, h1, h2, h3, h4, h5, t0, t1, t2, t3, t4, t5, issued_commands, is, i1,
      i2, i3, i4, i5, open_plan, stops_at_failure, is_command, g1, g2, g3, g4, g5, ic]

/-! ## Claims about the line parsers -/

/-- C1 (amended): for each of the seven parsers that test the success token
(signal-quality, battery, exit-data-mode, module-name, IMEI, IMSI and
operator-name) and for every line that contains "OK", handling that line sets
the command-exchange state to SUCCESS, whatever lines the parser handled
before. -/
theorem success_token_completes_exchange (h : line_handler) (hh : h ∈ success_token_parsers)
    (dce : sim800_modem_dce_t) (before : List (List Char)) (line : List Char)
    (hline : MODEM_RESULT_CODE_SUCCESS <:+: line) :
    (call_handle_line h (handle_lines h dce before) line).2.parent.state
      = MODEM_STATE_SUCCESS := by
  have hs : strstr line MODEM_RESULT_CODE_SUCCESS = true := (strstr_iff _ _).2 hline
  simp only [success_token_parsers, List.mem_cons, List.mem_singleton, List.not_mem_nil,
    or_false] at hh
  rcases hh with rfl | rfl | rfl | rfl | rfl | rfl | rfl <;>
    simp [call_handle_line, sim800_handle_csq, sim800_handle_cbc, sim800_handle_exit_data_mode,
      sim800_handle_cgmm, sim800_handle_cgsn, sim800_handle_cimi, sim800_handle_cops, hs,
      handle_ok_of_success]

/-- C1, witness: the IMSI parser reaches SUCCESS on "OK\r\n" after a blank line
and an echoed command. -/
theorem success_token_completes_exchange_witness :
    line_handler.cimi ∈ success_token_parsers ∧
    MODEM_RESULT_CODE_SUCCESS <:+: "OK\r\n".toList ∧
    (call_handle_line line_handler.cimi
      (handle_lines line_handler.cimi (sim800_init ⟨ESP_OK⟩)
        ["\r\n".toList, "AT+CIMI\r\n".toList]) "OK\r\n".toList).2.parent.state
      = MODEM_STATE_SUCCESS :=
  ⟨by decide, by decide,
   success_token_completes_exchange line_handler.cimi (by decide) (sim800_init ⟨ESP_OK⟩)
     ["\r\n".toList, "AT+CIMI\r\n".toList] "OK\r\n".toList (by decide)⟩

/-- C1, counterexample: the line "OK" contains the success token, yet the dial
parser and the power-down parser leave the command-exchange state of a fresh
handle at IDLE. -/
theorem success_token_ignored_by_dial_and_power_down :
    MODEM_RESULT_CODE_SUCCESS <:+: "OK".toList ∧
    (call_handle_line line_handler.atd_ppp (sim800_init ⟨ESP_OK⟩) "OK".toList).2.parent.state
      ≠ MODEM_STATE_SUCCESS ∧
    (call_handle_line line_handler.power_down (sim800_init ⟨ESP_OK⟩) "OK".toList).2.parent.state
      ≠ MODEM_STATE_SUCCESS := by
  decide

/-- C2 (amended): for every well-formed handle, every mode text `m` and non-empty
format text `f` without a comma, and every operator name `s` (a C string)
that contains no comma and no carriage return and has between 3 and 29
characters, if the line "+COPS: m,f,s", with or without a trailing "\r\n",
contains neither "OK" nor "ERROR", then the operator-name parser returns ESP_OK
and stores exactly `s` as the operator name, embedded spaces preserved. -/
theorem cops_stores_operator_name (dce : sim800_modem_dce_t) (hwf : dce_wf dce)
    (m f s t : List Char) (hm : ',' ∉ m) (hf0 : f ≠ []) (hf : ',' ∉ f)
    (hs : ',' ∉ s) (hcr : '\r' ∉ s) (hnul : '\x00' ∉ s)
    (h3 : 3 ≤ s.length) (h29 : s.length ≤ 29) (ht : t = [] ∨ t = ['\r', '\n'])
    (hok : ¬ MODEM_RESULT_CODE_SUCCESS <:+: "+COPS: ".toList ++ m ++ [','] ++ f ++ [','] ++ s ++ t)
    (herr : ¬ MODEM_RESULT_CODE_ERROR <:+: "+COPS: ".toList ++ m ++ [','] ++ f ++ [','] ++ s ++ t) :
    (sim800_handle_cops dce ("+COPS: ".toList ++ m ++ [','] ++ f ++ [','] ++ s ++ t)).1 = ESP_OK ∧
    cstr (sim800_handle_cops dce
      ("+COPS: ".toList ++ m ++ [','] ++ f ++ [','] ++ s ++ t)).2.parent.oper = s := by
  have hs0 : s ≠ [] := by intro e; rw [e] at h3; simp at h3
  have hst : ',' ∉ s ++ t := by
    rcases ht with rfl | rfl <;> simp [hs]
  have hparts : comma_parts ("+COPS: ".toList ++ m ++ [','] ++ f ++ [','] ++ s ++ t)
      = ["+COPS: ".toList ++ m, f, s ++ t] := by
    have e : "+COPS: ".toList ++ m ++ [','] ++ f ++ [','] ++ s ++ t
        = ("+COPS: ".toList ++ m) ++ ',' :: (f ++ ',' :: (s ++ t)) := by simp
    rw [e, comma_parts_append_comma _ _ (by simp) (by simp [hm]),
      comma_parts_append_comma _ _ hf0 hf, comma_parts_single _ (by simp [hs0]) hst]
  obtain ⟨st, hsplit, hi, hp, -⟩ := cops_split_parts _ (by rw [hparts]; simp)
  rw [hparts] at hi hp
  have hp2 : st.p 2 = some (s ++ t) := by simpa using hp 2 (by simp)
  have hi3 : st.i ≥ 3 := by simp at hi; omega
  have hpre : strncmp_eq ("+COPS: ".toList ++ m ++ [','] ++ f ++ [','] ++ s ++ t) "+COPS".toList
      = true := by
    simp [strncmp_eq]
  have hnul' : '\x00' ∉ s ++ t := by
    rcases ht with rfl | rfl <;> simp [hnul]
  have hlen : 2 < (s ++ t).length := by simp; omega
  obtain ⟨c1, c2⟩ := copy_and_strip_spec dce.parent.oper (s ++ t) MODEM_MAX_OPERATOR_LENGTH
    (by decide) (Nat.le_of_eq hwf.2.2.2) hnul' hlen
  have hstrip : (strip_tail (s ++ t)).take (MODEM_MAX_OPERATOR_LENGTH - 1) = s := by
    have : strip_tail (s ++ t) = s := by
      rcases ht with rfl | rfl
      · simpa using strip_tail_no_cr s hcr
      · exact strip_tail_crlf s
    rw [this, List.take_of_length_le (by simp only [ MODEM_MAX_OPERATOR_LENGTH]; omega)]
  simp only [sim800_handle_cops, strstr_false hok, strstr_false herr, hpre, hsplit, hi3, hp2,
    Option.getD_some, if_true, c1, c2, hstrip, Bool.false_eq_true, if_false, and_self]

/-- C2, witness: "+COPS: 0,0,Operator One" stores "Operator One". -/
theorem cops_stores_operator_name_witness :
    dce_wf (sim800_init ⟨ESP_OK⟩) ∧ ',' ∉ "0".toList ∧ "0".toList ≠ [] ∧
    ',' ∉ "Operator One".toList ∧ '\r' ∉ "Operator One".toList ∧
    '\x00' ∉ "Operator One".toList ∧ 3 ≤ "Operator One".toList.length ∧
    "Operator One".toList.length ≤ 29 ∧
    ¬ MODEM_RESULT_CODE_SUCCESS <:+:
      "+COPS: ".toList ++ "0".toList ++ [','] ++ "0".toList ++ [','] ++ "Operator One".toList ++ [] ∧
    ¬ MODEM_RESULT_CODE_ERROR <:+:
      "+COPS: ".toList ++ "0".toList ++ [','] ++ "0".toList ++ [','] ++ "Operator One".toList ++ [] ∧
    "+COPS: ".toList ++ "0".toList ++ [','] ++ "0".toList ++ [','] ++ "Operator One".toList ++ []
      = "+COPS: 0,0,Operator One".toList ∧
    ((sim800_handle_cops (sim800_init ⟨ESP_OK⟩)
      ("+COPS: ".toList ++ "0".toList ++ [','] ++ "0".toList ++ [','] ++
        "Operator One".toList ++ [])).1 = ESP_OK ∧
     cstr (sim800_handle_cops (sim800_init ⟨ESP_OK⟩)
      ("+COPS: ".toList ++ "0".toList ++ [','] ++ "0".toList ++ [','] ++
        "Operator One".toList ++ [])).2.parent.oper = "Operator One".toList) :=
  ⟨by decide, by decide, by decide, by decide, by decide, by decide, by decide, by decide,
   by decide, by decide, by decide,
   cops_stores_operator_name (sim800_init ⟨ESP_OK⟩) (by decide) "0".toList "0".toList
     "Operator One".toList [] (by decide) (by decide) (by decide) (by decide) (by decide)
     (by decide) (by decide) (by decide) (Or.inl rfl) (by decide) (by decide)⟩

/-- C2, counterexample: the operator name "TOKYO Mobile" has 12 characters and no
comma, carriage return or line feed, but it contains "OK": the parser takes the
line "+COPS: 0,0,TOKYO Mobile" for the success token and the operator name of a
fresh handle stays empty. -/
theorem cops_drops_name_containing_success_token :
    ',' ∉ "TOKYO Mobile".toList ∧ '\r' ∉ "TOKYO Mobile".toList ∧
    '\n' ∉ "TOKYO Mobile".toList ∧ 3 ≤ "TOKYO Mobile".toList.length ∧
    "TOKYO Mobile".toList.length ≤ 29 ∧
    cstr (sim800_handle_cops (sim800_init ⟨ESP_OK⟩)
      "+COPS: 0,0,TOKYO Mobile".toList).2.parent.oper = [] ∧
    cstr (sim800_handle_cops (sim800_init ⟨ESP_OK⟩)
      "+COPS: 0,0,TOKYO Mobile".toList).2.parent.oper ≠ "TOKYO Mobile".toList := by
  decide

/-- C3: for all natural numbers `a` and `b` that fit in 32 bits, the
signal-quality parser given the line "+CSQ: a,b", with or without a trailing
"\r\n", writes `a` into the first bound destination (rssi) and `b` into the
second (ber), returns ESP_OK and leaves the rest of the handle, the
command-exchange state included, as it was: no terminal state is reported. -/
theorem csq_parses_rssi_and_ber (dce : sim800_modem_dce_t) (r0 r1 : Nat) (more : List Nat)
    (hres : dce.priv_resource = r0 :: r1 :: more) (a b : Nat)
    (ha : a < 4294967296) (hb : b < 4294967296) (t : List Char)
    (ht : t = [] ∨ t = ['\r', '\n']) :
    sim800_handle_csq dce ("+CSQ: ".toList ++ Nat.toDigits 10 a ++ [','] ++ Nat.toDigits 10 b ++ t)
      = (ESP_OK, { dce with priv_resource := a :: b :: more }) := by
  have e : "+CSQ: ".toList = ['+', 'C', 'S', 'Q', ':', ' '] := rfl
  have htK : 'K' ∉ t := by rcases ht with rfl | rfl <;> decide
  have htE : 'E' ∉ t := by rcases ht with rfl | rfl <;> decide
  have hok : ¬ MODEM_RESULT_CODE_SUCCESS <:+:
      "+CSQ: ".toList ++ Nat.toDigits 10 a ++ [','] ++ Nat.toDigits 10 b ++ t :=
    not_infix_of_not_mem 'K' _ _ (by decide) (by
      simp [e, not_mem_toDigits 'K' (by decide), htK])
  have herr : ¬ MODEM_RESULT_CODE_ERROR <:+:
      "+CSQ: ".toList ++ Nat.toDigits 10 a ++ [','] ++ Nat.toDigits 10 b ++ t :=
    not_infix_of_not_mem 'E' _ _ (by decide) (by
      simp [e, not_mem_toDigits 'E' (by decide), htE])
  have hpre : strncmp_eq ("+CSQ: ".toList ++ Nat.toDigits 10 a ++ [','] ++ Nat.toDigits 10 b ++ t)
      "+CSQ".toList = true := by
    simp [strncmp_eq, e]
  have hskip : scan_skip_string
      ("+CSQ: ".toList ++ Nat.toDigits 10 a ++ [','] ++ Nat.toDigits 10 b ++ t)
      = some ([' '] ++ Nat.toDigits 10 a ++ (',' :: (Nat.toDigits 10 b ++ t))) := by
    simp [scan_skip_string, e, isspace]
  have h1 := scan_int_numeral [' '] (',' :: (Nat.toDigits 10 b ++ t)) a (by decide) ha (by
    simp [List.takeWhile])
  have h2 := scan_int_numeral [] t b (by simp) hb (takeWhile_isDigit_terminator t ht)
  simp only [List.nil_append] at h2
  simp only [sim800_handle_csq, strstr_false hok, strstr_false herr, hpre, sscanf, hskip, h1, h2,
    hres, store_results, int_to_uint32_long_to_int a ha, int_to_uint32_long_to_int b hb,
    Bool.false_eq_true, if_false, if_true]

/-- C3, witness: "+CSQ: 10,29" gives rssi = 10 and ber = 29. -/
theorem csq_parses_rssi_and_ber_witness :
    { sim800_init ⟨ESP_OK⟩ with priv_resource := [0, 0] }.priv_resource = 0 :: 0 :: [] ∧
    10 < 4294967296 ∧ 29 < 4294967296 ∧
    "+CSQ: ".toList ++ Nat.toDigits 10 10 ++ [','] ++ Nat.toDigits 10 29 ++ []
      = "+CSQ: 10,29".toList ∧
    sim800_handle_csq { sim800_init ⟨ESP_OK⟩ with priv_resource := [0, 0] }
      ("+CSQ: ".toList ++ Nat.toDigits 10 10 ++ [','] ++ Nat.toDigits 10 29 ++ [])
      = (ESP_OK, { { sim800_init ⟨ESP_OK⟩ with priv_resource := [0, 0] } with
          priv_resource := 10 :: 29 :: [] }) :=
  ⟨rfl, by decide, by decide, by decide,
   csq_parses_rssi_and_ber { sim800_init ⟨ESP_OK⟩ with priv_resource := [0, 0] } 0 0 [] rfl
     10 29 (by decide) (by decide) [] (Or.inl rfl)⟩

/-- Example for C3 at the top of the range: the numerals 2147483648 and
4294967295 fit in 32 bits and not in an `int`; the destinations receive them
unchanged. -/
theorem csq_keeps_values_above_int_max :
    "+CSQ: ".toList ++ Nat.toDigits 10 2147483648 ++ [','] ++ Nat.toDigits 10 4294967295
      = "+CSQ: 2147483648,4294967295".toList ∧
    (sim800_handle_csq { sim800_init ⟨ESP_OK⟩ with priv_resource := [0, 0] }
      "+CSQ: 2147483648,4294967295".toList).2.priv_resource = [2147483648, 4294967295] := by
  decide

/-- C4: for all natural numbers `a`, `b` and `c` that fit in 32 bits, the
battery-status parser given the line "+CBC: a,b,c", with or without a trailing
"\r\n", writes `a`, `b` and `c` into the three bound destinations in that order
(charge status, charge level, voltage), returns ESP_OK and leaves the rest of
the handle, the command-exchange state included, as it was. -/
theorem cbc_parses_three_fields (dce : sim800_modem_dce_t) (r0 r1 r2 : Nat) (more : List Nat)
    (hres : dce.priv_resource = r0 :: r1 :: r2 :: more) (a b c : Nat)
    (ha : a < 4294967296) (hb : b < 4294967296) (hc : c < 4294967296) (t : List Char)
    (ht : t = [] ∨ t = ['\r', '\n']) :
    sim800_handle_cbc dce ("+CBC: ".toList ++ Nat.toDigits 10 a ++ [','] ++ Nat.toDigits 10 b
        ++ [','] ++ Nat.toDigits 10 c ++ t)
      = (ESP_OK, { dce with priv_resource := a :: b :: c :: more }) := by
  have e : "+CBC: ".toList = ['+', 'C', 'B', 'C', ':', ' '] := rfl
  have htK : 'K' ∉ t := by rcases ht with rfl | rfl <;> decide
  have htE : 'E' ∉ t := by rcases ht with rfl | rfl <;> decide
  have hok : ¬ MODEM_RESULT_CODE_SUCCESS <:+:
      "+CBC: ".toList ++ Nat.toDigits 10 a ++ [','] ++ Nat.toDigits 10 b
        ++ [','] ++ Nat.toDigits 10 c ++ t :=
    not_infix_of_not_mem 'K' _ _ (by decide) (by
      simp [e, not_mem_toDigits 'K' (by decide), htK])
  have herr : ¬ MODEM_RESULT_CODE_ERROR <:+:
      "+CBC: ".toList ++ Nat.toDigits 10 a ++ [','] ++ Nat.toDigits 10 b
        ++ [','] ++ Nat.toDigits 10 c ++ t :=
    not_infix_of_not_mem 'E' _ _ (by decide) (by
      simp [e, not_mem_toDigits 'E' (by decide), htE])
  have hpre : strncmp_eq ("+CBC: ".toList ++ Nat.toDigits 10 a ++ [','] ++ Nat.toDigits 10 b
      ++ [','] ++ Nat.toDigits 10 c ++ t) "+CBC".toList = true := by
    simp [strncmp_eq, e]
  have hskip : scan_skip_string
      ("+CBC: ".toList ++ Nat.toDigits 10 a ++ [','] ++ Nat.toDigits 10 b
        ++ [','] ++ Nat.toDigits 10 c ++ t)
      = some ([' '] ++ Nat.toDigits 10 a ++
          (',' :: ([] ++ Nat.toDigits 10 b ++ (',' :: (Nat.toDigits 10 c ++ t))))) := by
    simp [scan_skip_string, e, isspace]
  have h1 := scan_int_numeral [' ']
    (',' :: ([] ++ Nat.toDigits 10 b ++ (',' :: (Nat.toDigits 10 c ++ t)))) a (by decide) ha (by
      simp [List.takeWhile])
  have h2 := scan_int_numeral [] (',' :: (Nat.toDigits 10 c ++ t)) b (by simp) hb (by
    simp [List.takeWhile])
  have h3 := scan_int_numeral [] t c (by simp) hc (takeWhile_isDigit_terminator t ht)
  simp only [List.nil_append] at h3
  simp only [sim800_handle_cbc, strstr_false hok, strstr_false herr, hpre, sscanf, hskip, h1, h2,
    h3, hres, store_results, int_to_uint32_long_to_int a ha,
    int_to_uint32_long_to_int b hb, int_to_uint32_long_to_int c hc,
    Bool.false_eq_true, if_false, if_true]

/-- C4, witness: "+CBC: 1,80,4150" gives bcs = 1, bcl = 80 and voltage = 4150. -/
theorem cbc_parses_three_fields_witness :
    { sim800_init ⟨ESP_OK⟩ with priv_resource := [0, 0, 0] }.priv_resource = 0 :: 0 :: 0 :: [] ∧
    1 < 4294967296 ∧ 80 < 4294967296 ∧ 4150 < 4294967296 ∧
    "+CBC: ".toList ++ Nat.toDigits 10 1 ++ [','] ++ Nat.toDigits 10 80 ++ [','] ++
      Nat.toDigits 10 4150 ++ [] = "+CBC: 1,80,4150".toList ∧
    sim800_handle_cbc { sim800_init ⟨ESP_OK⟩ with priv_resource := [0, 0, 0] }
      ("+CBC: ".toList ++ Nat.toDigits 10 1 ++ [','] ++ Nat.toDigits 10 80 ++ [','] ++
        Nat.toDigits 10 4150 ++ [])
      = (ESP_OK, { { sim800_init ⟨ESP_OK⟩ with priv_resource := [0, 0, 0] } with
          priv_resource := 1 :: 80 :: 4150 :: [] }) :=
  ⟨rfl, by decide, by decide, by decide, by decide,
   cbc_parses_three_fields { sim800_init ⟨ESP_OK⟩ with priv_resource := [0, 0, 0] } 0 0 0 [] rfl
     1 80 4150 (by decide) (by decide) (by decide) [] (Or.inl rfl)⟩

/-- Example for C4 at the top of the range: the voltage numeral 4294967295 fits
in 32 bits and not in an `int`; the destination receives it unchanged. -/
theorem cbc_keeps_values_above_int_max :
    "+CBC: ".toList ++ Nat.toDigits 10 1 ++ [','] ++ Nat.toDigits 10 80 ++ [','] ++
      Nat.toDigits 10 4294967295 = "+CBC: 1,80,4294967295".toList ∧
    (sim800_handle_cbc { sim800_init ⟨ESP_OK⟩ with priv_resource := [0, 0, 0] }
      "+CBC: 1,80,4294967295".toList).2.priv_resource = [1, 80, 4294967295] := by
  decide

/-- What the identity parsers store: for each identity parser (module name,
IMEI, IMSI), every well-formed handle and every line (a C string) longer than 2
characters that contains neither "OK" nor "ERROR", the parser returns ESP_OK and
the stored field equals the line without the tail that `strip_cr_lf_tail`
removes, truncated to capacity - 1 characters. The tail removed is everything
from a carriage return in the last but one position, or else a carriage return
in the last position; in particular a line `body ++ "\r\n"` stores `body`
truncated to capacity - 1 characters, which is the line with its trailing
"\r\n" removed. -/
theorem identity_parser_stores_line (h : line_handler) (hh : h ∈ identity_parsers)
    (dce : sim800_modem_dce_t) (hwf : dce_wf dce) (line : List Char)
    (hnul : '\x00' ∉ line) (hlen : 2 < line.length)
    (hok : ¬ MODEM_RESULT_CODE_SUCCESS <:+: line) (herr : ¬ MODEM_RESULT_CODE_ERROR <:+: line) :
    (call_handle_line h dce line).1 = ESP_OK ∧
    cstr (identity_field h (call_handle_line h dce line).2)
      = (strip_tail line).take (identity_capacity h - 1) ∧
    (∀ body, line = body ++ ['\r', '\n'] →
      cstr (identity_field h (call_handle_line h dce line).2)
        = body.take (identity_capacity h - 1)) := by
  have key : (call_handle_line h dce line).1 = ESP_OK ∧
      cstr (identity_field h (call_handle_line h dce line).2)
        = (strip_tail line).take (identity_capacity h - 1) := by
    simp only [identity_parsers, List.mem_cons, List.mem_singleton, List.not_mem_nil,
      or_false] at hh
    rcases hh with rfl | rfl | rfl
    · obtain ⟨c1, c2⟩ := copy_and_strip_spec dce.parent.name line MODEM_MAX_NAME_LENGTH
        (by decide) (Nat.le_of_eq hwf.2.2.1) hnul hlen
      simp [call_handle_line, sim800_handle_cgmm, strstr_false hok, strstr_false herr,
        identity_field, identity_capacity, c1, c2]
    · obtain ⟨c1, c2⟩ := copy_and_strip_spec dce.parent.imei line (MODEM_IMEI_LENGTH + 1)
        (by decide) (Nat.le_of_eq hwf.1) hnul hlen
      simp only [call_handle_line, sim800_handle_cgsn, strstr_false hok, strstr_false herr,
        identity_field, identity_capacity, c1, c2, Bool.false_eq_true, if_false, if_true,
        and_self]
    · obtain ⟨c1, c2⟩ := copy_and_strip_spec dce.parent.imsi line (MODEM_IMSI_LENGTH + 1)
        (by decide) (Nat.le_of_eq hwf.2.1) hnul hlen
      simp only [call_handle_line, sim800_handle_cimi, strstr_false hok, strstr_false herr,
        identity_field, identity_capacity, c1, c2, Bool.false_eq_true, if_false, if_true,
        and_self]
  refine ⟨key.1, key.2, ?_⟩
  intro body hbody
  rw [key.2, hbody, strip_tail_crlf]

/-- Example: a line of 15 decimal digits followed by "\r\n" given to the IMEI
parser of a fresh handle stores exactly those 15 digits. -/
theorem identity_parser_stores_line_witness :
    line_handler.cgsn ∈ identity_parsers ∧ dce_wf (sim800_init ⟨ESP_OK⟩) ∧
    '\x00' ∉ "490154203237518\r\n".toList ∧ 2 < "490154203237518\r\n".toList.length ∧
    ¬ MODEM_RESULT_CODE_SUCCESS <:+: "490154203237518\r\n".toList ∧
    ¬ MODEM_RESULT_CODE_ERROR <:+: "490154203237518\r\n".toList ∧
    cstr (identity_field line_handler.cgsn
      (call_handle_line line_handler.cgsn (sim800_init ⟨ESP_OK⟩)
        "490154203237518\r\n".toList).2) = "490154203237518".toList :=
  ⟨by decide, by decide, by decide, by decide, by decide, by decide,
   (identity_parser_stores_line line_handler.cgsn (by decide) (sim800_init ⟨ESP_OK⟩)
     (by decide) "490154203237518\r\n".toList (by decide) (by decide) (by decide)
     (by decide)).2.2 "490154203237518".toList (by decide)⟩

/-- C5 (the code at the failing input): the lines "ab\rx" and "abc\r" are longer
than 2 characters, contain neither token and do not end in "\r\n", so the line
with its trailing "\r\n" removed is the line itself. The IMEI parser stores
"ab" and "abc": the strip that the call sites announce as `Strip "\r\n"` cuts
at a carriage return that no line feed follows. -/
theorem identity_parser_strips_more_than_crlf :
    2 < "ab\rx".toList.length ∧
    ¬ MODEM_RESULT_CODE_SUCCESS <:+: "ab\rx".toList ∧
    ¬ MODEM_RESULT_CODE_ERROR <:+: "ab\rx".toList ∧
    cstr (sim800_handle_cgsn (sim800_init ⟨ESP_OK⟩) "ab\rx".toList).2.parent.imei
      = "ab".toList ∧
    (remove_trailing_crlf "ab\rx".toList).take (MODEM_IMEI_LENGTH + 1 - 1) = "ab\rx".toList ∧
    cstr (sim800_handle_cgsn (sim800_init ⟨ESP_OK⟩) "abc\r".toList).2.parent.imei
      = "abc".toList ∧
    (remove_trailing_crlf "abc\r".toList).take (MODEM_IMEI_LENGTH + 1 - 1) = "abc\r".toList := by
  decide

/-- C6 (amended): for each identity parser (module name, IMEI, IMSI) and every
line that contains neither "OK" nor "ERROR" and has at most 2 characters, line
terminator included (a blank line "\r\n" for instance), the parser returns
ESP_FAIL and leaves the command-exchange state as it was. -/
theorem identity_parser_rejects_short_line (h : line_handler) (hh : h ∈ identity_parsers)
    (dce : sim800_modem_dce_t) (line : List Char) (hlen : line.length ≤ 2)
    (hok : ¬ MODEM_RESULT_CODE_SUCCESS <:+: line) (herr : ¬ MODEM_RESULT_CODE_ERROR <:+: line) :
    (call_handle_line h dce line).1 = ESP_FAIL ∧
    (call_handle_line h dce line).2.parent.state = dce.parent.state := by
  simp only [identity_parsers, List.mem_cons, List.mem_singleton, List.not_mem_nil,
    or_false] at hh
  rcases hh with rfl | rfl | rfl <;>
    simp [call_handle_line, sim800_handle_cgmm, sim800_handle_cgsn, sim800_handle_cimi,
      strstr_false hok, strstr_false herr, copy_and_strip_short _ _ _ hlen]

/-- C6, witness: the module-name parser rejects the blank line "\r\n". -/
theorem identity_parser_rejects_short_line_witness :
    line_handler.cgmm ∈ identity_parsers ∧ "\r\n".toList.length ≤ 2 ∧
    ¬ MODEM_RESULT_CODE_SUCCESS <:+: "\r\n".toList ∧
    ¬ MODEM_RESULT_CODE_ERROR <:+: "\r\n".toList ∧
    (call_handle_line line_handler.cgmm (sim800_init ⟨ESP_OK⟩) "\r\n".toList).1 = ESP_FAIL ∧
    (call_handle_line line_handler.cgmm (sim800_init ⟨ESP_OK⟩) "\r\n".toList).2.parent.state
      = (sim800_init ⟨ESP_OK⟩).parent.state :=
  ⟨by decide, by decide, by decide, by decide,
   identity_parser_rejects_short_line line_handler.cgmm (by decide) (sim800_init ⟨ESP_OK⟩)
     "\r\n".toList (by decide) (by decide) (by decide)⟩

/-- C6, counterexample: the line "ab\r\n" contains neither token and is 2 characters
long once its line terminator is removed, yet the IMEI parser accepts it: it
returns ESP_OK and stores "ab". -/
theorem identity_parser_accepts_two_characters :
    ¬ MODEM_RESULT_CODE_SUCCESS <:+: "ab\r\n".toList ∧
    ¬ MODEM_RESULT_CODE_ERROR <:+: "ab\r\n".toList ∧
    (remove_line_terminator "ab\r\n".toList).length < 3 ∧
    (call_handle_line line_handler.cgsn (sim800_init ⟨ESP_OK⟩) "ab\r\n".toList).1 = ESP_OK ∧
    cstr (call_handle_line line_handler.cgsn (sim800_init ⟨ESP_OK⟩)
      "ab\r\n".toList).2.parent.imei = "ab".toList := by
  decide

/-- C7 (the code at the failing input): for the IMEI line "490154203237518\r\n",
`snprintf` returns 17 although it stores 15 characters and a NUL in the 16 byte
field, and `strip_cr_lf_tail`, called with 17, touches positions 15 and 16;
position 16 is outside the field. The parser returns ESP_OK. -/
theorem imei_strip_reads_past_field :
    (snprintf (sim800_init ⟨ESP_OK⟩).parent.imei (MODEM_IMEI_LENGTH + 1)
      "490154203237518\r\n".toList).1 = 17 ∧
    (cstr (snprintf (sim800_init ⟨ESP_OK⟩).parent.imei (MODEM_IMEI_LENGTH + 1)
      "490154203237518\r\n".toList).2).length = 15 ∧
    (snprintf (sim800_init ⟨ESP_OK⟩).parent.imei (MODEM_IMEI_LENGTH + 1)
      "490154203237518\r\n".toList).2.length = MODEM_IMEI_LENGTH + 1 ∧
    strip_cr_lf_tail_positions
      (snprintf (sim800_init ⟨ESP_OK⟩).parent.imei (MODEM_IMEI_LENGTH + 1)
        "490154203237518\r\n".toList).2 17 = [15, 16] ∧
    ¬ (16 < MODEM_IMEI_LENGTH + 1) ∧
    (sim800_handle_cgsn (sim800_init ⟨ESP_OK⟩) "490154203237518\r\n".toList).1 = ESP_OK := by
  decide

/-- C8: for every line that starts with "+COPS", contains neither "OK" nor "ERROR"
and has fewer than three non-empty comma-separated parts, the comma split ends
with `i` equal to the number of parts, and the operator-name parser returns
ESP_FAIL and leaves the whole handle, so the stored operator name and the
command-exchange state, as it was. -/
theorem cops_rejects_fewer_than_three_parts (dce : sim800_modem_dce_t) (line : List Char)
    (_hpre : "+COPS".toList <+: line)
    (hok : ¬ MODEM_RESULT_CODE_SUCCESS <:+: line) (herr : ¬ MODEM_RESULT_CODE_ERROR <:+: line)
    (hparts : (comma_parts line).length < 3) :
    (∃ st, cops_split line = some st ∧ st.i = (comma_parts line).length) ∧
    sim800_handle_cops dce line = (ESP_FAIL, dce) := by
  obtain ⟨st, hst, hi, -, -⟩ := cops_split_parts line (by omega)
  have hn : ¬ st.i ≥ 3 := by omega
  exact ⟨⟨st, hst, hi⟩,
    by simp [sim800_handle_cops, strstr_false hok, strstr_false herr, hst, hn]⟩

/-- C8, witness: the line "+COPS: 0" has one part and is rejected. -/
theorem cops_rejects_fewer_than_three_parts_witness :
    "+COPS".toList <+: "+COPS: 0".toList ∧
    ¬ MODEM_RESULT_CODE_SUCCESS <:+: "+COPS: 0".toList ∧
    ¬ MODEM_RESULT_CODE_ERROR <:+: "+COPS: 0".toList ∧
    (comma_parts "+COPS: 0".toList).length < 3 ∧
    ((∃ st, cops_split "+COPS: 0".toList = some st ∧
        st.i = (comma_parts "+COPS: 0".toList).length) ∧
     sim800_handle_cops (sim800_init ⟨ESP_OK⟩) "+COPS: 0".toList
      = (ESP_FAIL, sim800_init ⟨ESP_OK⟩)) :=
  ⟨by decide, by decide, by decide, by decide,
   cops_rejects_fewer_than_three_parts (sim800_init ⟨ESP_OK⟩) "+COPS: 0".toList
     (by decide) (by decide) (by decide) (by decide)⟩

/-! ## Claims about the remaining parsers and the mode switch -/

/-- C14: for every line, the power-down parser sets the command-exchange state to
SUCCESS if the line contains "POWER DOWN", and otherwise returns ESP_FAIL and
leaves the handle, the state included, as it was; it never sets the state to
FAIL: the state is FAIL after a line only if it was FAIL before. -/
theorem power_down_parser_spec (dce : sim800_modem_dce_t) (line : List Char) :
    (MODEM_RESULT_CODE_POWERDOWN <:+: line →
      (sim800_handle_power_down dce line).2.parent.state = MODEM_STATE_SUCCESS) ∧
    (¬ MODEM_RESULT_CODE_POWERDOWN <:+: line →
      sim800_handle_power_down dce line = (ESP_FAIL, dce)) ∧
    ((sim800_handle_power_down dce line).2.parent.state = MODEM_STATE_FAIL →
      dce.parent.state = MODEM_STATE_FAIL) := by
  by_cases h : MODEM_RESULT_CODE_POWERDOWN <:+: line
  · have hs : strstr line MODEM_RESULT_CODE_POWERDOWN = true := (strstr_iff _ _).2 h
    refine ⟨fun _ => ?_, fun hn => absurd h hn, ?_⟩ <;>
      simp [sim800_handle_power_down, hs, process_command_done, esp_modem_process_command_done]
  · refine ⟨fun hp => absurd hp h, fun _ => ?_, ?_⟩ <;>
      simp [sim800_handle_power_down, strstr_false h]

/-- C15: for every line, the exit-data-mode parser sets the command-exchange state
to SUCCESS when the line contains "OK" or "NO CARRIER" (whether or not it also
contains "ERROR"), sets it to FAIL when the line contains "ERROR" and neither
of those tokens, and otherwise returns ESP_FAIL and leaves the handle as it
was. -/
theorem exit_data_mode_parser_spec (dce : sim800_modem_dce_t) (line : List Char) :
    (MODEM_RESULT_CODE_SUCCESS <:+: line ∨ MODEM_RESULT_CODE_NO_CARRIER <:+: line →
      (sim800_handle_exit_data_mode dce line).2.parent.state = MODEM_STATE_SUCCESS) ∧
    (MODEM_RESULT_CODE_ERROR <:+: line → ¬ MODEM_RESULT_CODE_SUCCESS <:+: line →
      ¬ MODEM_RESULT_CODE_NO_CARRIER <:+: line →
      (sim800_handle_exit_data_mode dce line).2.parent.state = MODEM_STATE_FAIL) ∧
    (¬ MODEM_RESULT_CODE_SUCCESS <:+: line → ¬ MODEM_RESULT_CODE_NO_CARRIER <:+: line →
      ¬ MODEM_RESULT_CODE_ERROR <:+: line →
      sim800_handle_exit_data_mode dce line = (ESP_FAIL, dce)) := by
  refine ⟨?_, ?_, ?_⟩
  · intro h
    by_cases h1 : MODEM_RESULT_CODE_SUCCESS <:+: line
    · simp [sim800_handle_exit_data_mode, (strstr_iff _ _).2 h1, process_command_done,
        esp_modem_process_command_done]
    · have h2 : MODEM_RESULT_CODE_NO_CARRIER <:+: line := h.resolve_left h1
      simp [sim800_handle_exit_data_mode, strstr_false h1, (strstr_iff _ _).2 h2,
        process_command_done, esp_modem_process_command_done]
  · intro h3 h1 h2
    simp [sim800_handle_exit_data_mode, strstr_false h1, strstr_false h2, (strstr_iff _ _).2 h3,
      process_command_done, esp_modem_process_command_done]
  · intro h1 h2 h3
    simp [sim800_handle_exit_data_mode, strstr_false h1, strstr_false h2, strstr_false h3]

/-- C17: for every requested mode other than command mode and PPP mode,
`sim800_set_working_mode` returns ESP_FAIL and leaves the handle (recorded
mode, installed parser, command-exchange state) and the world as they were: the
transport is not called and no event is recorded. -/
theorem set_working_mode_rejects_other_modes (env : environment) (mode : modem_mode_t)
    (dce : sim800_modem_dce_t) (w : world)
    (hc : mode ≠ MODEM_COMMAND_MODE) (hp : mode ≠ MODEM_PPP_MODE) :
    sim800_set_working_mode env mode dce w = (ESP_FAIL, dce, w) := by
  simp [sim800_set_working_mode, hc, hp]

theorem set_working_mode_records (env : environment) (mode : modem_mode_t)
    (dce : sim800_modem_dce_t) (w : world)
    (h : (sim800_set_working_mode env mode dce w).1 = ESP_OK) :
    (sim800_set_working_mode env mode dce w).2.1.parent.mode = mode := by
  have hfail : ESP_FAIL ≠ ESP_OK := by decide
  unfold sim800_set_working_mode at h ⊢
  by_cases hc : mode = MODEM_COMMAND_MODE
  · simp only [hc, if_true] at h ⊢
    split
    · rfl
    · rename_i hn
      simp only [hn, if_false] at h
  · simp only [hc, if_false] at h ⊢
    by_cases hp : mode = MODEM_PPP_MODE
    · simp only [hp, if_true] at h ⊢
      split
      · rfl
      · rename_i hn
        simp only [hn, if_false] at h
    · simp only [hp, if_false] at h
      exact absurd h hfail

/-- C16: after any sequence of mode switches that all return ESP_OK, each made on
the handle left by the one before, the recorded mode is the mode requested
last, whatever the handle, the earlier requests and the collaborators; in
particular a switch to PPP mode followed by a switch to command mode leaves the
recorded mode at command mode. -/
theorem mode_switch_round_trip (env : environment) (before : List modem_mode_t)
    (last : modem_mode_t) (dce : sim800_modem_dce_t) (w : world)
    (h : ∀ r ∈ (set_working_modes env (before ++ [last]) dce w).1, r = ESP_OK) :
    (set_working_modes env (before ++ [last]) dce w).2.1.parent.mode = last := by
  induction before generalizing dce w with
  | nil =>
    simp only [List.nil_append, set_working_modes] at h ⊢
    exact set_working_mode_records env last dce w (h _ (by simp))
  | cons m ms ih =>
    simp only [List.cons_append, set_working_modes] at h ⊢
    exact ih _ _ (fun r hr => h r (List.mem_cons_of_mem _ hr))

/-- C16, witness: a dial answered by "CONNECT" followed by an escape answered by
"OK" leaves the recorded mode at command mode. -/
theorem mode_switch_round_trip_witness :
    (∀ r ∈ (set_working_modes
        (responsive_module (fun k => if k = 0 then ["CONNECT\r\n".toList] else ["OK\r\n".toList]))
        ([ MODEM_PPP_MODE] ++ [ MODEM_COMMAND_MODE]) (sim800_init ⟨ESP_OK⟩) world_start).1,
      r = ESP_OK) ∧
    (set_working_modes
        (responsive_module (fun k => if k = 0 then ["CONNECT\r\n".toList] else ["OK\r\n".toList]))
        ([ MODEM_PPP_MODE] ++ [ MODEM_COMMAND_MODE]) (sim800_init ⟨ESP_OK⟩)
        world_start).2.1.parent.mode = MODEM_COMMAND_MODE :=
  ⟨by decide,
   mode_switch_round_trip _ [ MODEM_PPP_MODE] MODEM_COMMAND_MODE (sim800_init ⟨ESP_OK⟩)
     world_start (by decide)⟩

/-- C17, witness: the mode value 2 is rejected. -/
theorem set_working_mode_rejects_other_modes_witness :
    (2 : modem_mode_t) ≠ MODEM_COMMAND_MODE ∧ (2 : modem_mode_t) ≠ MODEM_PPP_MODE ∧
    sim800_set_working_mode (responsive_module (fun _ => ["OK\r\n".toList])) 2
      (sim800_init ⟨ESP_OK⟩) world_start = (ESP_FAIL, sim800_init ⟨ESP_OK⟩, world_start) :=
  ⟨by decide, by decide,
   set_working_mode_rejects_other_modes _ 2 (sim800_init ⟨ESP_OK⟩) world_start
     (by decide) (by decide)⟩

/-- C19 (the code at the failing input): the regular answer
`+COPS: 0,0,"Operator One"` starts with "+COPS", contains neither "OK" nor
"ERROR" and has three parts; the split assigns `p[0]`, `p[1]`, `p[2]` and then
`p[3]`, the write that records the end of the tokens, and 3 is not an index of
the three-element array. -/
theorem cops_split_writes_index_three :
    "+COPS".toList <+: "+COPS: 0,0,\"Operator One\"\r\n".toList ∧
    ¬ MODEM_RESULT_CODE_SUCCESS <:+: "+COPS: 0,0,\"Operator One\"\r\n".toList ∧
    ¬ MODEM_RESULT_CODE_ERROR <:+: "+COPS: 0,0,\"Operator One\"\r\n".toList ∧
    (cops_split "+COPS: 0,0,\"Operator One\"\r\n".toList).map (fun st => st.written)
      = some [0, 1, 2, 3] ∧
    ¬ (3 < 3) := by
  decide

theorem copy_and_strip_rejected (field : List Char) (size : Nat) (s : List Char)
    (hsize : 3 ≤ size) (hnul : '\x00' ∉ s)
    (h : (copy_and_strip field size s).2 = false) :
    cstr (copy_and_strip field size s).1 = s := by
  have hlen : s.length ≤ 2 := by
    by_contra hc
    have h' : s.length > 2 := by omega
    have : (copy_and_strip field size s).2 = true := by
      simp [copy_and_strip, snprintf_fst, h']
    rw [this] at h
    exact absurd h (by decide)
  have hn : ¬ s.length > 2 := by omega
  have hs0 : size ≠ 0 := by omega
  have hk : min s.length (size - 1) = s.length := by omega
  simp only [copy_and_strip, snprintf_fst, hn, if_false]
  simp only [snprintf, hs0, if_false, strlen, hk, List.take_length, List.append_assoc,
    List.singleton_append]
  exact cstr_append_nul _ _ hnul

/-- C20 (amended): for each identity parser (module name, IMEI, IMSI) and every
line (a C string) that contains neither "OK" nor "ERROR", if the parser returns
ESP_FAIL for that line, the line has been copied into the identity field, which
now holds the line itself, and the command-exchange state, the operator name
and the two other identity fields are the same after the call as before it. -/
theorem identity_parser_rejection_overwrites (h : line_handler) (hh : h ∈ identity_parsers)
    (dce : sim800_modem_dce_t) (line : List Char) (hnul : '\x00' ∉ line)
    (hok : ¬ MODEM_RESULT_CODE_SUCCESS <:+: line) (herr : ¬ MODEM_RESULT_CODE_ERROR <:+: line)
    (hfail : (call_handle_line h dce line).1 = ESP_FAIL) :
    cstr (identity_field h (call_handle_line h dce line).2) = line ∧
    (call_handle_line h dce line).2.parent.state = dce.parent.state ∧
    (call_handle_line h dce line).2.parent.oper = dce.parent.oper ∧
    (∀ h' ∈ identity_parsers, h' ≠ h →
      identity_field h' (call_handle_line h dce line).2 = identity_field h' dce) := by
  have hne : ESP_OK ≠ ESP_FAIL := by decide
  simp only [identity_parsers, List.mem_cons, List.mem_singleton, List.not_mem_nil,
    or_false] at hh
  rcases hh with rfl | rfl | rfl
  · have hf : (copy_and_strip dce.parent.name MODEM_MAX_NAME_LENGTH line).2 = false := by
      cases hc : (copy_and_strip dce.parent.name MODEM_MAX_NAME_LENGTH line).2 with
      | false => rfl
      | true =>
        simp [call_handle_line, sim800_handle_cgmm, strstr_false hok, strstr_false herr, hc,
          hne] at hfail
    have hc := copy_and_strip_rejected dce.parent.name MODEM_MAX_NAME_LENGTH line (by decide)
      hnul hf
    refine ⟨?_, ?_, ?_, ?_⟩
    · simpa [call_handle_line, sim800_handle_cgmm, strstr_false hok, strstr_false herr,
        identity_field] using hc
    · simp [call_handle_line, sim800_handle_cgmm, strstr_false hok, strstr_false herr]
    · simp [call_handle_line, sim800_handle_cgmm, strstr_false hok, strstr_false herr]
    · intro h' hh' hd
      simp only [identity_parsers, List.mem_cons, List.mem_singleton, List.not_mem_nil,
        or_false] at hh'
      rcases hh' with rfl | rfl | rfl
      · exact absurd rfl hd
      · simp [call_handle_line, sim800_handle_cgmm, strstr_false hok, strstr_false herr,
          identity_field]
      · simp [call_handle_line, sim800_handle_cgmm, strstr_false hok, strstr_false herr,
          identity_field]
  · have hf : (copy_and_strip dce.parent.imei (MODEM_IMEI_LENGTH + 1) line).2 = false := by
      cases hc : (copy_and_strip dce.parent.imei (MODEM_IMEI_LENGTH + 1) line).2 with
      | false => rfl
      | true =>
        simp [call_handle_line, sim800_handle_cgsn, strstr_false hok, strstr_false herr, hc,
          hne] at hfail
    have hc := copy_and_strip_rejected dce.parent.imei (MODEM_IMEI_LENGTH + 1) line (by decide)
      hnul hf
    refine ⟨?_, ?_, ?_, ?_⟩
    · simpa [call_handle_line, sim800_handle_cgsn, strstr_false hok, strstr_false herr,
        identity_field] using hc
    · simp [call_handle_line, sim800_handle_cgsn, strstr_false hok, strstr_false herr]
    · simp [call_handle_line, sim800_handle_cgsn, strstr_false hok, strstr_false herr]
    · intro h' hh' hd
      simp only [identity_parsers, List.mem_cons, List.mem_singleton, List.not_mem_nil,
        or_false] at hh'
      rcases hh' with rfl | rfl | rfl
      · simp [call_handle_line, sim800_handle_cgsn, strstr_false hok, strstr_false herr,
          identity_field]
      · exact absurd rfl hd
      · simp [call_handle_line, sim800_handle_cgsn, strstr_false hok, strstr_false herr,
          identity_field]
  · have hf : (copy_and_strip dce.parent.imsi (MODEM_IMSI_LENGTH + 1) line).2 = false := by
      cases hc : (copy_and_strip dce.parent.imsi (MODEM_IMSI_LENGTH + 1) line).2 with
      | false => rfl
      | true =>
        simp [call_handle_line, sim800_handle_cimi, strstr_false hok, strstr_false herr, hc,
          hne] at hfail
    have hc := copy_and_strip_rejected dce.parent.imsi (MODEM_IMSI_LENGTH + 1) line (by decide)
      hnul hf
    refine ⟨?_, ?_, ?_, ?_⟩
    · simpa [call_handle_line, sim800_handle_cimi, strstr_false hok, strstr_false herr,
        identity_field] using hc
    · simp [call_handle_line, sim800_handle_cimi, strstr_false hok, strstr_false herr]
    · simp [call_handle_line, sim800_handle_cimi, strstr_false hok, strstr_false herr]
    · intro h' hh' hd
      simp only [identity_parsers, List.mem_cons, List.mem_singleton, List.not_mem_nil,
        or_false] at hh'
      rcases hh' with rfl | rfl | rfl
      · simp [call_handle_line, sim800_handle_cimi, strstr_false hok, strstr_false herr,
          identity_field]
      · simp [call_handle_line, sim800_handle_cimi, strstr_false hok, strstr_false herr,
          identity_field]
      · exact absurd rfl hd

/-- C20, witness: the module-name parser rejects the blank line "\r\n" that
follows the name, and the name field then holds "\r\n". -/
theorem identity_parser_rejection_overwrites_witness :
    line_handler.cgmm ∈ identity_parsers ∧ '\x00' ∉ "\r\n".toList ∧
    ¬ MODEM_RESULT_CODE_SUCCESS <:+: "\r\n".toList ∧
    ¬ MODEM_RESULT_CODE_ERROR <:+: "\r\n".toList ∧
    (call_handle_line line_handler.cgmm
      (sim800_handle_cgmm (sim800_init ⟨ESP_OK⟩) "SIMCOM_SIM800L\r\n".toList).2
      "\r\n".toList).1 = ESP_FAIL ∧
    cstr (identity_field line_handler.cgmm (call_handle_line line_handler.cgmm
      (sim800_handle_cgmm (sim800_init ⟨ESP_OK⟩) "SIMCOM_SIM800L\r\n".toList).2
      "\r\n".toList).2) = "\r\n".toList :=
  ⟨by decide, by decide, by decide, by decide, by decide,
   (identity_parser_rejection_overwrites line_handler.cgmm (by decide)
     (sim800_handle_cgmm (sim800_init ⟨ESP_OK⟩) "SIMCOM_SIM800L\r\n".toList).2
     "\r\n".toList (by decide) (by decide) (by decide) (by decide)).1⟩

/-- C20, counterexample: the module-name parser stores "SIMCOM_SIM800L"; the blank
line "\r\n" that follows contains neither token and is rejected with ESP_FAIL,
and the stored name is "\r\n" afterwards. -/
theorem blank_line_replaces_module_name :
    cstr (sim800_handle_cgmm (sim800_init ⟨ESP_OK⟩) "SIMCOM_SIM800L\r\n".toList).2.parent.name
      = "SIMCOM_SIM800L".toList ∧
    ¬ MODEM_RESULT_CODE_SUCCESS <:+: "\r\n".toList ∧
    ¬ MODEM_RESULT_CODE_ERROR <:+: "\r\n".toList ∧
    (sim800_handle_cgmm
      (sim800_handle_cgmm (sim800_init ⟨ESP_OK⟩) "SIMCOM_SIM800L\r\n".toList).2
      "\r\n".toList).1 = ESP_FAIL ∧
    cstr (sim800_handle_cgmm
      (sim800_handle_cgmm (sim800_init ⟨ESP_OK⟩) "SIMCOM_SIM800L\r\n".toList).2
      "\r\n".toList).2.parent.name = "\r\n".toList ∧
    (sim800_handle_cgmm
      (sim800_handle_cgmm (sim800_init ⟨ESP_OK⟩) "SIMCOM_SIM800L\r\n".toList).2
      "\r\n".toList).2.parent.name
      ≠ (sim800_handle_cgmm (sim800_init ⟨ESP_OK⟩) "SIMCOM_SIM800L\r\n".toList).2.parent.name := by
  decide

/-- C12 (the code at the failing input): with a module that never answers a sync,
`sim800_open` returns ESP_FAIL without a `free` of the handle among its events,
both when STATUS never reads high after the hardware reset (return of line
545) and when STATUS reads high and the second retry loop fails (return of line
559). -/
theorem open_fails_without_release :
    (sim800_open (unresponsive_module (fun _ => 0)) (sim800_init ⟨ESP_OK⟩) world_start).map
      (fun r => (r.1, decide (event.free ∈ r.2.2.trace))) = some (ESP_FAIL, false) ∧
    (sim800_open (unresponsive_module (fun _ => 1)) (sim800_init ⟨ESP_OK⟩) world_start).map
      (fun r => (r.1, decide (event.free ∈ r.2.2.trace))) = some (ESP_FAIL, false) := by
  decide

/-! ## Claims about the polling loop, the retry loops and the outcome of the bring-up -/

theorem status_round_powered (env : environment) (w : world) :
    (status_round env w).1 = true ↔ (env.status w.samples > 0 ∧ env.status (w.samples + 1) > 0) := by
  unfold status_round
  by_cases h : env.status w.samples > 0
  · simp [gpio_get_level, vTaskDelay, h]
  · simp [gpio_get_level, vTaskDelay, h]

theorem status_round_trace (env : environment) (w : world) :
    (status_round env w).2.trace = w.trace ++
      (event.delay 500 :: event.gpio_get gpio_pin.STATUS (env.status w.samples) ::
        (if env.status w.samples > 0 then
          [event.delay 30, event.gpio_get gpio_pin.STATUS (env.status (w.samples + 1))]
         else [])) := by
  unfold status_round
  by_cases h : env.status w.samples > 0
  · simp [gpio_get_level, vTaskDelay, h]
  · simp [gpio_get_level, vTaskDelay, h]

theorem status_probe_rounds (env : environment) : ∀ (fuel inc : Nat) (w : world)
    (r : Bool × world), 1 ≤ fuel → fuel + inc = 21 → status_probe env fuel inc w = some r →
    ∃ n, n < fuel ∧ r = status_round env (rounds_after env n w) ∧
      (∀ j, j < n → (status_round env (rounds_after env j w)).1 = false) ∧
      (r.1 = false → n + 1 = fuel) := by
  intro fuel
  induction fuel with
  | zero => intro inc w r h; omega
  | succ fuel ih =>
    intro inc w r _ hsum h
    rw [status_probe] at h
    split at h
    · rename_i hc
      cases h
      refine ⟨0, by omega, rfl, fun j hj => by omega, ?_⟩
      intro hf
      rcases hc with hc | hc
      · rw [hf] at hc; exact absurd hc (by decide)
      · omega
    · rename_i hc
      have h1 : ¬ (status_round env w).1 = true := fun h' => hc (Or.inl h')
      have h2 : ¬ inc + 1 > 20 := fun h' => hc (Or.inr h')
      obtain ⟨n, hn, hr, hall, hlast⟩ := ih (inc + 1) _ r (by omega) (by omega) h
      refine ⟨n + 1, by omega, hr, ?_, fun hf => by have := hlast hf; omega⟩
      intro j hj
      cases j with
      | zero => simpa [rounds_after] using h1
      | succ j => exact hall j (by omega)

theorem rounds_after_succ (env : environment) : ∀ (j : Nat) (w : world),
    rounds_after env (j + 1) w = (status_round env (rounds_after env j w)).2 := by
  intro j
  induction j with
  | zero => intro w; rfl
  | succ j ih =>
    intro w
    rw [rounds_after, ih (status_round env w).2]
    rfl

theorem total_delay_append (a b : List event) :
    total_delay (a ++ b) = total_delay a + total_delay b := by
  induction a with
  | nil => simp [total_delay]
  | cons e rest ih =>
    cases e <;> simp [total_delay, ih, Nat.add_assoc]

theorem rounds_after_never_high (env : environment) (hlow : ∀ n, env.status n ≤ 0) :
    ∀ (j : Nat) (w : world), (rounds_after env j w).samples = w.samples + j ∧
      total_delay (rounds_after env j w).trace = total_delay w.trace + 500 * j ∧
      pwrkey_writes (rounds_after env j w).trace = pwrkey_writes w.trace := by
  intro j
  induction j with
  | zero => intro w; simp [rounds_after]
  | succ j ih =>
    intro w
    have hn : ¬ env.status w.samples > 0 := by have := hlow w.samples; omega
    obtain ⟨a, b, c⟩ := ih (status_round env w).2
    have ht := status_round_trace env w
    simp only [hn, if_false] at ht
    have hs : (status_round env w).2.samples = w.samples + 1 := by
      simp [status_round, hn, gpio_get_level, vTaskDelay]
    simp only [rounds_after]
    refine ⟨by rw [a, hs]; omega, ?_, ?_⟩
    · rw [b, ht, total_delay_append]
      simp [total_delay]; omega
    · rw [c, ht, pwrkey_writes_append]
      simp [pwrkey_writes]

/-- C18: for every sequence of STATUS samples the polling loop ends after `n + 1`
rounds with `n < 21`, so after at most 21 rounds. Each round starts with a wait
of 500 ms and a sample of STATUS, followed, when that sample is high, by a wait
of 30 ms and a second sample; a round reads powered exactly when both samples
are high. The loop stops at the first round that reads powered, it reports
powered if and only if one of the 21 rounds reads powered, and it reports not
powered only after the 21st round. With STATUS never high it runs 21 rounds,
takes 21 samples, waits 10500 ms in all and reports not powered. -/
theorem status_probe_bounded_and_debounced (env : environment) (w : world) :
    ∃ n, n < 21 ∧
      status_probe env 21 0 w = some (status_round env (rounds_after env n w)) ∧
      (∀ j, j < n → (status_round env (rounds_after env j w)).1 = false) ∧
      ((status_round env (rounds_after env n w)).1 = false → n = 20) ∧
      ((status_round env (rounds_after env n w)).1 = true ↔
        ∃ j, j < 21 ∧ (status_round env (rounds_after env j w)).1 = true) ∧
      (∀ v : world, (status_round env v).1 = true ↔
        (env.status v.samples > 0 ∧ env.status (v.samples + 1) > 0)) ∧
      (∀ v : world, (status_round env v).2.trace = v.trace ++
        (event.delay 500 :: event.gpio_get gpio_pin.STATUS (env.status v.samples) ::
          (if env.status v.samples > 0 then
            [event.delay 30, event.gpio_get gpio_pin.STATUS (env.status (v.samples + 1))]
           else []))) ∧
      ((∀ k, env.status k ≤ 0) →
        n = 20 ∧ (status_round env (rounds_after env n w)).1 = false ∧
        (status_round env (rounds_after env n w)).2.samples = w.samples + 21 ∧
        total_delay (status_round env (rounds_after env n w)).2.trace
          = total_delay w.trace + 10500) := by
  obtain ⟨r, hr⟩ := status_probe_total env 21 0 w (by omega) (by omega)
  obtain ⟨n, hn, rfl, hall, hlast⟩ := status_probe_rounds env 21 0 w r (by omega) rfl hr
  refine ⟨n, hn, hr, hall, fun hf => by have := hlast hf; omega, ?_, status_round_powered env,
    status_round_trace env, ?_⟩
  · constructor
    · intro h; exact ⟨n, hn, h⟩
    · rintro ⟨j, hj, hp⟩
      by_contra hc
      have hf : (status_round env (rounds_after env n w)).1 = false := by
        cases hb : (status_round env (rounds_after env n w)).1 with
        | false => rfl
        | true => exact absurd hb hc
      have hn20 : n + 1 = 21 := hlast hf
      rcases Nat.lt_or_ge j n with hlt | hge
      · rw [hall j hlt] at hp; exact absurd hp (by decide)
      · have : j = n := by omega
        subst this
        exact hc hp
  · intro hlow
    have hf : (status_round env (rounds_after env n w)).1 = false := by
      cases hb : (status_round env (rounds_after env n w)).1 with
      | false => rfl
      | true =>
        have := (status_round_powered env _).1 hb
        have := hlow (rounds_after env n w).samples
        omega
    have hn20 : n = 20 := by have := hlast hf; omega
    subst hn20
    obtain ⟨a, b, -⟩ := rounds_after_never_high env hlow 21 w
    rw [rounds_after_succ env 20 w] at a b
    exact ⟨rfl, hf, a, by rw [b]⟩

theorem sync_retry_attempts (env : environment) :
    ∀ (fuel inc : Nat) (dce : sim800_modem_dce_t) (w : world)
      (r : Bool × sim800_modem_dce_t × world),
    1 ≤ fuel → fuel + inc = 11 → sync_retry env fuel inc dce w = some r →
    ∃ results : List esp_err_t,
      r.2.2.trace = w.trace ++ sync_attempt_events results ∧
      1 ≤ results.length ∧ results.length ≤ fuel ∧
      (∀ x ∈ results.dropLast, x ≠ ESP_OK) ∧
      (r.1 = true ↔ results.getLast? = some ESP_OK) ∧
      (r.1 = false → results.length = fuel) := by
  intro fuel
  induction fuel with
  | zero => intro inc dce w r h; omega
  | succ fuel ih =>
    intro inc dce w r _ hsum h
    rw [sync_retry] at h
    have ht : (esp_modem_dce_sync env dce (vTaskDelay 1000 w)).2.2.trace
        = w.trace ++ sync_attempt_events [(esp_modem_dce_sync env dce (vTaskDelay 1000 w)).1] := by
      simp [esp_modem_dce_sync, vTaskDelay, sync_attempt_events]
    split at h
    · rename_i hc
      cases h
      refine ⟨[(esp_modem_dce_sync env dce (vTaskDelay 1000 w)).1], ht, by simp, by simp,
        by simp, by simp, ?_⟩
      intro hf
      simp only [decide_eq_false_iff_not] at hf
      rcases hc with hc | hc
      · exact absurd hc hf
      · simp; omega
    · rename_i hc
      have h1 : ¬ (esp_modem_dce_sync env dce (vTaskDelay 1000 w)).1 = ESP_OK :=
        fun h' => hc (Or.inl h')
      have h2 : ¬ inc + 1 > 10 := fun h' => hc (Or.inr h')
      obtain ⟨res, a1, a2, a3, a4, a5, a6⟩ := ih (inc + 1) _ _ r (by omega) (by omega) h
      obtain ⟨x, xs, rfl⟩ : ∃ x xs, res = x :: xs := by
        cases res with
        | nil => simp at a2
        | cons x xs => exact ⟨x, xs, rfl⟩
      refine ⟨(esp_modem_dce_sync env dce (vTaskDelay 1000 w)).1 :: x :: xs, ?_, by simp,
        by simp at a3 ⊢; omega, ?_, ?_, ?_⟩
      · rw [a1, ht]
        simp [sync_attempt_events]
      · intro y hy
        simp only [List.dropLast_cons₂, List.mem_cons] at hy
        rcases hy with rfl | hy
        · exact h1
        · exact a4 y hy
      · rw [a5]; simp [List.getLast?_cons_cons]
      · intro hf
        have := a6 hf
        simp at this ⊢
        omega

theorem gpio_writes_append (a b : List event) :
    gpio_writes (a ++ b) = gpio_writes a ++ gpio_writes b := by
  simp [gpio_writes, List.filterMap_append]

theorem gpio_events_append (a b : List event) :
    gpio_events (a ++ b) = gpio_events a ++ gpio_events b := by
  simp [gpio_events]

theorem gpio_writes_gpio_events (tr : List event) :
    gpio_writes (gpio_events tr) = gpio_writes tr := by
  induction tr with
  | nil => rfl
  | cons e rest ih =>
    cases e <;> simp_all [gpio_writes, gpio_events, is_gpio, List.filter_cons]

theorem gpio_events_sync_attempts (results : List esp_err_t) :
    gpio_events (sync_attempt_events results) = [] := by
  induction results with
  | nil => rfl
  | cons r rest ih =>
    have : sync_attempt_events (r :: rest)
        = [event.delay 1000, event.sync r] ++ sync_attempt_events rest := by
      simp [sync_attempt_events]
    rw [this, gpio_events_append, ih]
    rfl

theorem gpio_writes_probe_events (evs : List event) (h : ∀ e ∈ evs, is_probe_event e = true) :
    gpio_writes evs = [] := by
  unfold gpio_writes
  rw [List.filterMap_eq_nil_iff]
  intro e he
  have := h e he
  cases e <;> simp_all [is_probe_event]

theorem err_io_gpio (dce : sim800_modem_dce_t) (w : world) :
    gpio_events (err_io dce w).2.2.trace = gpio_events w.trace := by
  simp [err_io, gpio_events, is_gpio]

theorem sync_gpio (env : environment) (dce : sim800_modem_dce_t) (w : world) :
    gpio_events (esp_modem_dce_sync env dce w).2.2.trace = gpio_events w.trace := by
  simp [esp_modem_dce_sync, gpio_events, is_gpio]

theorem echo_gpio (env : environment) (b : Bool) (dce : sim800_modem_dce_t) (w : world) :
    gpio_events (esp_modem_dce_echo env b dce w).2.2.trace = gpio_events w.trace := by
  simp [esp_modem_dce_echo, gpio_events, is_gpio]

theorem command_checks_gpio (env : environment) (text : List Char) (timeout : command_timeout)
    (dce : sim800_modem_dce_t) (w : world) :
    gpio_events (command_checks (dte_send_cmd env text timeout dce w)).2.2.trace
      = gpio_events w.trace := by
  simp [command_checks, dte_send_cmd, gpio_events, is_gpio]

theorem open_queries_gpio (env : environment) (dce : sim800_modem_dce_t) (w : world) :
    gpio_events (open_queries env dce w).2.2.trace = gpio_events w.trace := by
  unfold open_queries
  simp only
  repeat' split
  all_goals
    simp only [err_io_gpio, sim800_get_operator_name, sim800_get_imsi_number,
      sim800_get_imei_number, sim800_get_module_name, command_checks_gpio, echo_gpio, sync_gpio]

theorem reset_pulse_trace (w : world) :
    (reset_pulse w).trace = w.trace ++
      [event.gpio_set gpio_pin.RESET 1, event.delay 300, event.gpio_set gpio_pin.RESET 0,
       event.delay 1100, event.gpio_set gpio_pin.PWRKEY 1,
       event.delay 1000, event.delay 1000, event.delay 1000, event.delay 1000,
       event.delay 1000] := by
  simp [reset_pulse, vTaskDelay, gpio_set_level]

theorem gpio_writes_sync_attempts (results : List esp_err_t) :
    gpio_writes (sync_attempt_events results) = [] := by
  rw [← gpio_writes_gpio_events, gpio_events_sync_attempts]
  rfl

theorem open_queries_gpio_writes (env : environment) (dce : sim800_modem_dce_t) (w : world) :
    gpio_writes (open_queries env dce w).2.2.trace = gpio_writes w.trace := by
  rw [← gpio_writes_gpio_events, open_queries_gpio, gpio_writes_gpio_events]

/-- C13: for every behaviour of the sync primitive, the first retry loop of
`sim800_open` makes between 1 and 11 sync attempts, each after a wait of 1 s,
and only the last of them can succeed. If it succeeds, `sim800_open` goes on
to line 563 and its events contain no GPIO write and no sample of STATUS. If it
does not, all 11 attempts were made and failed, the hardware reset follows
(RESET high, 300 ms, RESET low, 1100 ms, PWRKEY high, five waits of 1 s), then
the STATUS polling loop; the result is ESP_FAIL if that loop does not read
powered, and otherwise a second retry loop makes between 1 and 11 attempts and
the result is ESP_FAIL if all 11 fail. On this branch the GPIO writes of the
whole call are exactly RESET 1, RESET 0, PWRKEY 1. -/
theorem open_sync_retries_and_reset (env : environment) (dce : sim800_modem_dce_t) (w : world) :
    ∃ (b : Bool) (d1 : sim800_modem_dce_t) (w1 : world) (results : List esp_err_t),
      sync_retry env 11 0 dce w = some (b, d1, w1) ∧
      w1.trace = w.trace ++ sync_attempt_events results ∧
      1 ≤ results.length ∧ results.length ≤ 11 ∧
      (∀ x ∈ results.dropLast, x ≠ ESP_OK) ∧
      (b = true ↔ results.getLast? = some ESP_OK) ∧
      (b = true →
        sim800_open env dce w = some (open_queries env d1 w1) ∧
        gpio_events (open_queries env d1 w1).2.2.trace = gpio_events w.trace) ∧
      (b = false →
        results.length = 11 ∧
        (reset_pulse w1).trace = w1.trace ++
          [event.gpio_set gpio_pin.RESET 1, event.delay 300, event.gpio_set gpio_pin.RESET 0,
           event.delay 1100, event.gpio_set gpio_pin.PWRKEY 1,
           event.delay 1000, event.delay 1000, event.delay 1000, event.delay 1000,
           event.delay 1000] ∧
        (∃ (p : Bool) (w2 : world), status_probe env 21 0 (reset_pulse w1) = some (p, w2) ∧
          (p = false → sim800_open env dce w = some (ESP_FAIL, d1, w2)) ∧
          (p = true →
            ∃ (b2 : Bool) (d3 : sim800_modem_dce_t) (w3 : world) (results2 : List esp_err_t),
              sync_retry env 11 0 d1 w2 = some (b2, d3, w3) ∧
              w3.trace = w2.trace ++ sync_attempt_events results2 ∧
              1 ≤ results2.length ∧ results2.length ≤ 11 ∧
              (∀ x ∈ results2.dropLast, x ≠ ESP_OK) ∧
              (b2 = true ↔ results2.getLast? = some ESP_OK) ∧
              (b2 = false →
                results2.length = 11 ∧ sim800_open env dce w = some (ESP_FAIL, d3, w3)) ∧
              (b2 = true → sim800_open env dce w = some (open_queries env d3 w3)))) ∧
        (∀ r, sim800_open env dce w = some r →
          gpio_writes r.2.2.trace = gpio_writes w.trace ++
            [(gpio_pin.RESET, 1), (gpio_pin.RESET, 0), (gpio_pin.PWRKEY, 1)])) := by
  obtain ⟨⟨b, d1, w1⟩, hs1⟩ := sync_retry_total env 11 0 dce w (by omega) (by omega)
  obtain ⟨results, a1, a2, a3, a4, a5, a6⟩ :=
    sync_retry_attempts env 11 0 dce w _ (by omega) rfl hs1
  simp only at a1 a5 a6
  refine ⟨b, d1, w1, results, hs1, a1, a2, a3, a4, a5, ?_, ?_⟩
  · intro hb
    subst hb
    refine ⟨by simp [sim800_open, hs1], ?_⟩
    rw [open_queries_gpio, a1, gpio_events_append, gpio_events_sync_attempts, List.append_nil]
  · intro hb
    subst hb
    have hw1 : gpio_writes w1.trace = gpio_writes w.trace := by
      rw [a1, gpio_writes_append, gpio_writes_sync_attempts, List.append_nil]
    have hrp : gpio_writes (reset_pulse w1).trace = gpio_writes w.trace ++
        [(gpio_pin.RESET, 1), (gpio_pin.RESET, 0), (gpio_pin.PWRKEY, 1)] := by
      rw [reset_pulse_trace, gpio_writes_append, hw1]
      simp [gpio_writes]
    obtain ⟨⟨p, w2⟩, hp⟩ := status_probe_total env 21 0 (reset_pulse w1) (by omega) (by omega)
    obtain ⟨evs, t2, q2, -⟩ := status_probe_events env 21 0 _ _ hp
    simp only at t2
    have hw2 : gpio_writes w2.trace = gpio_writes w.trace ++
        [(gpio_pin.RESET, 1), (gpio_pin.RESET, 0), (gpio_pin.PWRKEY, 1)] := by
      rw [t2, gpio_writes_append, gpio_writes_probe_events evs q2, List.append_nil, hrp]
    refine ⟨a6 rfl, reset_pulse_trace w1, ?_⟩
    cases p with
    | false =>
      have ho : sim800_open env dce w = some (ESP_FAIL, d1, w2) := by
        simp [sim800_open, hs1, hp]
      refine ⟨⟨false, w2, hp, fun _ => ho, fun h => (by cases h)⟩, ?_⟩
      intro r hr
      rw [ho] at hr
      cases hr
      exact hw2
    | true =>
      obtain ⟨⟨b2, d3, w3⟩, hs2⟩ := sync_retry_total env 11 0 d1 w2 (by omega) (by omega)
      obtain ⟨results2, c1, c2, c3, c4, c5, c6⟩ :=
        sync_retry_attempts env 11 0 d1 w2 _ (by omega) rfl hs2
      simp only at c1 c5 c6
      have hw3 : gpio_writes w3.trace = gpio_writes w.trace ++
          [(gpio_pin.RESET, 1), (gpio_pin.RESET, 0), (gpio_pin.PWRKEY, 1)] := by
        rw [c1, gpio_writes_append, gpio_writes_sync_attempts, List.append_nil, hw2]
      cases b2 with
      | false =>
        have ho : sim800_open env dce w = some (ESP_FAIL, d3, w3) := by
          simp [sim800_open, hs1, hp, hs2]
        refine ⟨⟨true, w2, hp, fun h => (by cases h), fun _ =>
          ⟨false, d3, w3, results2, hs2, c1, c2, c3, c4, c5, fun _ => ⟨c6 rfl, ho⟩,
            fun h => (by cases h)⟩⟩, ?_⟩
        intro r hr
        rw [ho] at hr
        cases hr
        exact hw3
      | true =>
        have ho : sim800_open env dce w = some (open_queries env d3 w3) := by
          simp [sim800_open, hs1, hp, hs2]
        refine ⟨⟨true, w2, hp, fun h => (by cases h), fun _ =>
          ⟨true, d3, w3, results2, hs2, c1, c2, c3, c4, c5, fun h => (by cases h),
            fun _ => ho⟩⟩, ?_⟩
        intro r hr
        rw [ho] at hr
        cases hr
        rw [open_queries_gpio_writes, hw3]

theorem command_events_of_succeeded : ∀ (q : List event),
    (∀ e ∈ q, is_command e = true → command_succeeded e = true) →
    q.filter is_command = (issued_commands q).map success_event := by
  intro q
  induction q with
  | nil => intro _; rfl
  | cons e rest ih =>
    intro h
    have hrest := ih (fun x hx => h x (List.mem_cons_of_mem _ hx))
    have he := h e (List.mem_cons_self _ _)
    cases e with
    | echo enable result =>
      have : result = ESP_OK := by simpa [is_command, issued_of, command_succeeded] using he
      subst this
      simp [List.filter_cons, is_command, issued_of, issued_commands, success_event] at hrest ⊢
      exact hrest
    | send_cmd text timeout result state =>
      have hs : result = ESP_OK ∧ state = MODEM_STATE_SUCCESS := by
        simpa [is_command, issued_of, command_succeeded] using he
      obtain ⟨rfl, rfl⟩ := hs
      simp [List.filter_cons, is_command, issued_of, issued_commands, success_event] at hrest ⊢
      exact hrest
    | delay ms =>
      simp [List.filter_cons, is_command, issued_of, issued_commands] at hrest ⊢
      exact hrest
    | gpio_set pin level =>
      simp [List.filter_cons, is_command, issued_of, issued_commands] at hrest ⊢
      exact hrest
    | gpio_get pin level =>
      simp [List.filter_cons, is_command, issued_of, issued_commands] at hrest ⊢
      exact hrest
    | sync result =>
      simp [List.filter_cons, is_command, issued_of, issued_commands] at hrest ⊢
      exact hrest
    | free =>
      simp [List.filter_cons, is_command, issued_of, issued_commands] at hrest ⊢
      exact hrest
    | free_parent =>
      simp [List.filter_cons, is_command, issued_of, issued_commands] at hrest ⊢
      exact hrest

theorem command_events_nil (evs : List event) (h : issued_commands evs = []) :
    evs.filter is_command = [] := by
  unfold issued_commands at h
  rw [List.filterMap_eq_nil_iff] at h
  rw [List.filter_eq_nil_iff]
  intro e he
  simp [is_command, h e he]

theorem issued_commands_sync_attempts (results : List esp_err_t) :
    issued_commands (sync_attempt_events results) = [] := by
  unfold issued_commands
  rw [List.filterMap_eq_nil_iff]
  intro e he
  simp only [sync_attempt_events, List.mem_flatMap, List.mem_cons, List.mem_singleton,
    List.not_mem_nil, or_false] at he
  obtain ⟨r, -, rfl | rfl⟩ := he <;> rfl

theorem issued_commands_reset_pulse (w : world) :
    ∃ evs, (reset_pulse w).trace = w.trace ++ evs ∧ issued_commands evs = [] :=
  ⟨_, reset_pulse_trace w, rfl⟩

/-- C11 (amended): if `sim800_open` returns ESP_OK, then echo-off and each of the
four identity queries (AT+CGMM, AT+CGSN, AT+CIMI, AT+COPS?) has been issued
exactly once during this call, in that order, and each exchange was
successful: the transport returned ESP_OK and left the command-exchange state
at SUCCESS. -/
theorem open_success_means_exchanges_succeeded (env : environment) (dce : sim800_modem_dce_t)
    (w : world) (r : esp_err_t × sim800_modem_dce_t × world)
    (h : sim800_open env dce w = some r) (hok : r.1 = ESP_OK) :
    ∃ evs, r.2.2.trace = w.trace ++ evs ∧
      evs.filter is_command =
        [event.echo false ESP_OK,
         event.send_cmd "AT+CGMM\r".toList MODEM_COMMAND_TIMEOUT_DEFAULT ESP_OK MODEM_STATE_SUCCESS,
         event.send_cmd "AT+CGSN\r".toList MODEM_COMMAND_TIMEOUT_DEFAULT ESP_OK MODEM_STATE_SUCCESS,
         event.send_cmd "AT+CIMI\r".toList MODEM_COMMAND_TIMEOUT_DEFAULT ESP_OK MODEM_STATE_SUCCESS,
         event.send_cmd "AT+COPS?\r".toList MODEM_COMMAND_TIMEOUT_OPERATOR ESP_OK
           MODEM_STATE_SUCCESS] := by
  have hne : ESP_FAIL ≠ ESP_OK := by decide
  have reach : ∀ (d1 : sim800_modem_dce_t) (w1 : world) (pre : List event),
      w1.trace = w.trace ++ pre → issued_commands pre = [] → r = open_queries env d1 w1 →
      ∃ evs, r.2.2.trace = w.trace ++ evs ∧ evs.filter is_command = open_plan.map success_event := by
    intro d1 w1 pre hpre hnil hr
    obtain ⟨q, b1, -, b3, -, -, -⟩ := open_queries_spec env d1 w1
    rw [← hr] at b1 b3
    obtain ⟨-, hplan, hall⟩ := b3.1 hok
    refine ⟨pre ++ q, by rw [b1, hpre, List.append_assoc], ?_⟩
    rw [List.filter_append, command_events_nil pre hnil, List.nil_append,
      command_events_of_succeeded q hall, hplan]
  have hfinal : open_plan.map success_event =
      [event.echo false ESP_OK,
       event.send_cmd "AT+CGMM\r".toList MODEM_COMMAND_TIMEOUT_DEFAULT ESP_OK MODEM_STATE_SUCCESS,
       event.send_cmd "AT+CGSN\r".toList MODEM_COMMAND_TIMEOUT_DEFAULT ESP_OK MODEM_STATE_SUCCESS,
       event.send_cmd "AT+CIMI\r".toList MODEM_COMMAND_TIMEOUT_DEFAULT ESP_OK MODEM_STATE_SUCCESS,
       event.send_cmd "AT+COPS?\r".toList MODEM_COMMAND_TIMEOUT_OPERATOR ESP_OK
         MODEM_STATE_SUCCESS] := rfl
  rw [← hfinal]
  obtain ⟨⟨b, d1, w1⟩, hs1⟩ := sync_retry_total env 11 0 dce w (by omega) (by omega)
  obtain ⟨results, a1, -⟩ := sync_retry_attempts env 11 0 dce w _ (by omega) rfl hs1
  simp only at a1
  cases b with
  | true =>
    have ho : sim800_open env dce w = some (open_queries env d1 w1) := by
      simp [sim800_open, hs1]
    rw [ho] at h
    cases h
    exact reach d1 w1 _ a1 (issued_commands_sync_attempts results) rfl
  | false =>
    obtain ⟨⟨p, w2⟩, hp⟩ := status_probe_total env 21 0 (reset_pulse w1) (by omega) (by omega)
    obtain ⟨evs, t2, q2, -⟩ := status_probe_events env 21 0 _ _ hp
    simp only at t2
    cases p with
    | false =>
      have ho : sim800_open env dce w = some (ESP_FAIL, d1, w2) := by
        simp [sim800_open, hs1, hp]
      rw [ho] at h
      cases h
      exact absurd hok hne
    | true =>
      obtain ⟨⟨b2, d3, w3⟩, hs2⟩ := sync_retry_total env 11 0 d1 w2 (by omega) (by omega)
      obtain ⟨results2, c1, -⟩ := sync_retry_attempts env 11 0 d1 w2 _ (by omega) rfl hs2
      simp only at c1
      cases b2 with
      | false =>
        have ho : sim800_open env dce w = some (ESP_FAIL, d3, w3) := by
          simp [sim800_open, hs1, hp, hs2]
        rw [ho] at h
        cases h
        exact absurd hok hne
      | true =>
        have ho : sim800_open env dce w = some (open_queries env d3 w3) := by
          simp [sim800_open, hs1, hp, hs2]
        rw [ho] at h
        cases h
        refine reach d3 w3
          (sync_attempt_events results ++
            ([event.gpio_set gpio_pin.RESET 1, event.delay 300, event.gpio_set gpio_pin.RESET 0,
              event.delay 1100, event.gpio_set gpio_pin.PWRKEY 1, event.delay 1000,
              event.delay 1000, event.delay 1000, event.delay 1000, event.delay 1000] ++
              (evs ++ sync_attempt_events results2)))
          (by rw [c1, t2, reset_pulse_trace, a1]; simp only [List.append_assoc]) ?_ rfl
        simp only [issued_commands_append, issued_commands_sync_attempts,
          issued_commands_probe_events evs q2, List.append_nil, List.nil_append]
        rfl

/-- C11, witness: the bring-up of a module that answers every command succeeds
and its five exchanges are recorded as successful. -/
theorem open_success_means_exchanges_succeeded_witness :
    sim800_open (responsive_module unregistered_module_script) (sim800_init ⟨ESP_OK⟩) world_start
      = some (open_queries (responsive_module unregistered_module_script) (sim800_init ⟨ESP_OK⟩)
          (esp_modem_dce_sync (responsive_module unregistered_module_script)
            (sim800_init ⟨ESP_OK⟩) (vTaskDelay 1000 world_start)).2.2) ∧
    (open_queries (responsive_module unregistered_module_script) (sim800_init ⟨ESP_OK⟩)
      (esp_modem_dce_sync (responsive_module unregistered_module_script)
        (sim800_init ⟨ESP_OK⟩) (vTaskDelay 1000 world_start)).2.2).1 = ESP_OK ∧
    ∃ evs, (open_queries (responsive_module unregistered_module_script) (sim800_init ⟨ESP_OK⟩)
        (esp_modem_dce_sync (responsive_module unregistered_module_script)
          (sim800_init ⟨ESP_OK⟩) (vTaskDelay 1000 world_start)).2.2).2.2.trace
        = world_start.trace ++ evs ∧
      evs.filter is_command =
        [event.echo false ESP_OK,
         event.send_cmd "AT+CGMM\r".toList MODEM_COMMAND_TIMEOUT_DEFAULT ESP_OK MODEM_STATE_SUCCESS,
         event.send_cmd "AT+CGSN\r".toList MODEM_COMMAND_TIMEOUT_DEFAULT ESP_OK MODEM_STATE_SUCCESS,
         event.send_cmd "AT+CIMI\r".toList MODEM_COMMAND_TIMEOUT_DEFAULT ESP_OK MODEM_STATE_SUCCESS,
         event.send_cmd "AT+COPS?\r".toList MODEM_COMMAND_TIMEOUT_OPERATOR ESP_OK
           MODEM_STATE_SUCCESS] :=
  ⟨rfl, by decide,
   open_success_means_exchanges_succeeded (responsive_module unregistered_module_script)
     (sim800_init ⟨ESP_OK⟩) world_start _ rfl (by decide)⟩

/-- C11, counterexample: a module that is not registered to a network answers the
operator query with "+COPS: 0" and "OK". `sim800_open` returns ESP_OK with
the name, IMEI and IMSI stored and the operator name still as `sim800_init`
left it. -/
theorem open_succeeds_with_operator_unresolved :
    (sim800_open (responsive_module unregistered_module_script) (sim800_init ⟨ESP_OK⟩)
      world_start).map (fun r => (r.1, cstr r.2.1.parent.name, cstr r.2.1.parent.imei,
        cstr r.2.1.parent.imsi, decide (r.2.1.parent.oper = (sim800_init ⟨ESP_OK⟩).parent.oper)))
      = some (ESP_OK, "SIMCOM_SIM800L".toList, "490154203237518".toList,
          "262019876543210".toList, true) := by
  decide

/-! ## Claims about partial conversions and about a failed mode switch -/

theorem sscanf_csq_cases (line : List Char) :
    sscanf [scan_directive.skip_string, scan_directive.int, scan_directive.lit ',',
        scan_directive.int] line = [] ∨
    (∃ v, sscanf [scan_directive.skip_string, scan_directive.int, scan_directive.lit ',',
        scan_directive.int] line = [v]) ∨
    ∃ v1 v2, sscanf [scan_directive.skip_string, scan_directive.int, scan_directive.lit ',',
        scan_directive.int] line = [v1, v2] := by
  simp only [sscanf]
  split
  · simp
  · split
    · simp
    · split
      · simp
      · split
        · split
          · simp
          · simp
        · simp

/-- C21 (as amended): which destinations the signal-quality parser writes is
fixed by the line alone, and they are a leading part of the two: for every line,
either the parser writes neither destination (whatever the handle, rssi and ber
keep their values), or it writes rssi only (rssi receives a value read from the
line and ber keeps its previous value), or it writes both; it never writes ber
from a line while leaving rssi at its previous value. For a line "+CSQ: a" that
carries one number only, `a` fitting in 32 bits, with or without a trailing
"\r\n", the parser returns ESP_OK, writes `a` into rssi and leaves ber, and the
rest of the handle, as they were. -/
theorem csq_writes_leading_destinations (line : List Char) :
    ((∀ (dce : sim800_modem_dce_t) (rssi ber : Nat),
        (sim800_handle_csq { dce with priv_resource := [rssi, ber] } line).2.priv_resource
          = [rssi, ber]) ∨
     (∃ v : Nat, ∀ (dce : sim800_modem_dce_t) (rssi ber : Nat),
        (sim800_handle_csq { dce with priv_resource := [rssi, ber] } line).2.priv_resource
          = [v, ber]) ∨
     (∃ v1 v2 : Nat, ∀ (dce : sim800_modem_dce_t) (rssi ber : Nat),
        (sim800_handle_csq { dce with priv_resource := [rssi, ber] } line).2.priv_resource
          = [v1, v2])) ∧
    (∀ (a : Nat) (t : List Char), a < 4294967296 → (t = [] ∨ t = ['\r', '\n']) →
      line = "+CSQ: ".toList ++ Nat.toDigits 10 a ++ t →
      ∀ (dce : sim800_modem_dce_t) (rssi ber : Nat),
        sim800_handle_csq { dce with priv_resource := [rssi, ber] } line
          = (ESP_OK, { dce with priv_resource := [a, ber] })) := by
  constructor
  · unfold sim800_handle_csq
    by_cases hok : strstr line MODEM_RESULT_CODE_SUCCESS = true
    · left
      intro dce rssi ber
      simp only [hok, if_true, process_command_done]
    · by_cases herr : strstr line MODEM_RESULT_CODE_ERROR = true
      · left
        intro dce rssi ber
        simp only [hok, herr, if_true, if_false, Bool.false_eq_true, process_command_done]
      · by_cases hpre : strncmp_eq line "+CSQ".toList = true
        · rcases sscanf_csq_cases line with h | ⟨v, h⟩ | ⟨v1, v2, h⟩
          · left
            intro dce rssi ber
            simp only [hok, herr, hpre, h, store_results, if_true, if_false, Bool.false_eq_true]
          · right; left
            refine ⟨int_to_uint32 v, ?_⟩
            intro dce rssi ber
            simp only [hok, herr, hpre, h, store_results, if_true, if_false, Bool.false_eq_true]
          · right; right
            refine ⟨int_to_uint32 v1, int_to_uint32 v2, ?_⟩
            intro dce rssi ber
            simp only [hok, herr, hpre, h, store_results, if_true, if_false, Bool.false_eq_true]
        · left
          intro dce rssi ber
          simp only [hok, herr, hpre, if_true, if_false, Bool.false_eq_true]
  · intro a t ha ht hline dce rssi ber
    subst hline
    have e : "+CSQ: ".toList = ['+', 'C', 'S', 'Q', ':', ' '] := rfl
    have htK : 'K' ∉ t := by rcases ht with rfl | rfl <;> decide
    have htE : 'E' ∉ t := by rcases ht with rfl | rfl <;> decide
    have hok : ¬ MODEM_RESULT_CODE_SUCCESS <:+: "+CSQ: ".toList ++ Nat.toDigits 10 a ++ t :=
      not_infix_of_not_mem 'K' _ _ (by decide) (by
        simp [e, not_mem_toDigits 'K' (by decide), htK])
    have herr : ¬ MODEM_RESULT_CODE_ERROR <:+: "+CSQ: ".toList ++ Nat.toDigits 10 a ++ t :=
      not_infix_of_not_mem 'E' _ _ (by decide) (by
        simp [e, not_mem_toDigits 'E' (by decide), htE])
    have hpre : strncmp_eq ("+CSQ: ".toList ++ Nat.toDigits 10 a ++ t) "+CSQ".toList = true := by
      simp [strncmp_eq, e]
    have hskip : scan_skip_string ("+CSQ: ".toList ++ Nat.toDigits 10 a ++ t)
        = some ([' '] ++ Nat.toDigits 10 a ++ t) := by
      simp [scan_skip_string, e, isspace]
    have h1 := scan_int_numeral [' '] t a (by decide) ha (takeWhile_isDigit_terminator t ht)
    have hs : sscanf [scan_directive.skip_string, scan_directive.int, scan_directive.lit ',',
        scan_directive.int] ("+CSQ: ".toList ++ Nat.toDigits 10 a ++ t) = [long_to_int (a : Int)] := by
      have hcr : ¬ ('\r' = ',') := by decide
      rcases ht with rfl | rfl
      · simp only [sscanf, hskip, h1]
      · simp only [sscanf, hskip, h1, hcr, if_false]
    simp only [sim800_handle_csq, strstr_false hok, strstr_false herr, hpre, hs,
      store_results, int_to_uint32_long_to_int a ha, Bool.false_eq_true, if_false, if_true]

/-- C21, witness: the line "+CSQ: 10\r\n" writes 10 into rssi and leaves ber at
7. -/
theorem csq_writes_leading_destinations_witness :
    10 < 4294967296 ∧
    "+CSQ: 10\r\n".toList = "+CSQ: ".toList ++ Nat.toDigits 10 10 ++ ['\r', '\n'] ∧
    sim800_handle_csq { sim800_init ⟨ESP_OK⟩ with priv_resource := [99, 7] }
        "+CSQ: 10\r\n".toList
      = (ESP_OK, { sim800_init ⟨ESP_OK⟩ with priv_resource := [10, 7] }) :=
  ⟨by decide, by decide,
   (csq_writes_leading_destinations "+CSQ: 10\r\n".toList).2 10 ['\r', '\n'] (by decide)
     (Or.inr rfl) (by decide) (sim800_init ⟨ESP_OK⟩) 99 7⟩

/-- C21 (counterexample to the claim as stated): the line "+CSQ: 10" carries
the rssi number and no ber; it contains neither "OK" nor "ERROR". With the
destinations holding rssi = 99 and ber = 7 the parser returns ESP_OK and leaves
rssi = 10 and ber = 7: rssi is updated from the line and ber keeps its previous
value. -/
theorem csq_updates_rssi_without_ber :
    ((sim800_handle_csq { sim800_init ⟨ESP_OK⟩ with priv_resource := [99, 7] }
        "+CSQ: 10\r\n".toList).1,
     (sim800_handle_csq { sim800_init ⟨ESP_OK⟩ with priv_resource := [99, 7] }
        "+CSQ: 10\r\n".toList).2.priv_resource) = (ESP_OK, [10, 7]) := by
  decide

theorem call_handle_line_mode (h : line_handler) (dce : sim800_modem_dce_t) (line : List Char) :
    (call_handle_line h dce line).2.parent.mode = dce.parent.mode := by
  cases h <;>
    simp only [call_handle_line, sim800_handle_csq, sim800_handle_cbc,
      sim800_handle_exit_data_mode, sim800_handle_atd_ppp, sim800_handle_cgmm,
      sim800_handle_cgsn, sim800_handle_cimi, sim800_handle_cops, sim800_handle_power_down] <;>
    (repeat' split) <;> rfl

theorem transport_deliver_mode (lines : List (List Char)) (dce : sim800_modem_dce_t) :
    (transport_deliver lines dce).2.parent.mode = dce.parent.mode := by
  induction lines generalizing dce with
  | nil => rfl
  | cons line rest ih =>
    simp only [transport_deliver]
    split
    · exact call_handle_line_mode _ _ _
    · rw [ih, call_handle_line_mode]

theorem line_transport_mode (script : Nat → List (List Char)) (k : Nat) (command : List Char)
    (timeout : command_timeout) (dce : sim800_modem_dce_t) :
    (line_transport script k command timeout dce).2.parent.mode = dce.parent.mode := by
  simp only [line_transport, transport_deliver_mode]

/-- C22: whenever `sim800_set_working_mode` returns ESP_FAIL, the recorded
working mode of the handle is the one it had before the call, whether the
transport reported a failure or the command-exchange state it left is not
SUCCESS: the function assigns `dce->mode` only after both checks have passed.
The transport is a collaborator outside this file; it is taken to leave the
recorded mode alone, as the line-delivering transport does, since no line
parser assigns it. The statement covers every requested mode, command mode and
PPP mode among them. -/
theorem set_working_mode_failure_keeps_mode (env : environment) (mode : modem_mode_t)
    (dce : sim800_modem_dce_t) (w : world)
    (htransport : ∀ (k : Nat) (command : List Char) (timeout : command_timeout)
      (d : sim800_modem_dce_t), (env.send_cmd k command timeout d).2.parent.mode = d.parent.mode)
    (hfail : (sim800_set_working_mode env mode dce w).1 = ESP_FAIL) :
    (sim800_set_working_mode env mode dce w).2.1.parent.mode = dce.parent.mode := by
  have hne : ESP_OK ≠ ESP_FAIL := by decide
  unfold sim800_set_working_mode at hfail ⊢
  by_cases hc : mode = MODEM_COMMAND_MODE
  · simp only [hc, if_true] at hfail ⊢
    split
    · rename_i hok
      simp only [hok, if_true] at hfail
      exact absurd hfail hne
    · simp only [command_checks, dte_send_cmd, htransport, set_handle_line]
  · simp only [hc, if_false] at hfail ⊢
    by_cases hp : mode = MODEM_PPP_MODE
    · simp only [hp, if_true] at hfail ⊢
      split
      · rename_i hok
        simp only [hok, if_true] at hfail
        exact absurd hfail hne
      · simp only [command_checks, dte_send_cmd, htransport, set_handle_line]
    · simp only [hp, if_false]

/-- C22, witness: a handle in PPP mode is asked to return to command mode. When
the module answers the escape with "ERROR" the transport returns ESP_OK with the
state at FAIL, and when the module does not answer the transport reports a
timeout; in both cases the call returns ESP_FAIL and the recorded mode is still
PPP mode. -/
theorem set_working_mode_failure_keeps_mode_witness :
    ((sim800_set_working_mode (responsive_module (fun _ => ["ERROR\r\n".toList]))
        MODEM_COMMAND_MODE
        { sim800_init ⟨ESP_OK⟩ with
          parent := ({ (sim800_init ⟨ESP_OK⟩).parent with mode := MODEM_PPP_MODE }) }
        world_start).1 = ESP_FAIL ∧
     (sim800_set_working_mode (responsive_module (fun _ => ["ERROR\r\n".toList]))
        MODEM_COMMAND_MODE
        { sim800_init ⟨ESP_OK⟩ with
          parent := ({ (sim800_init ⟨ESP_OK⟩).parent with mode := MODEM_PPP_MODE }) }
        world_start).2.1.parent.mode = MODEM_PPP_MODE) ∧
    ((sim800_set_working_mode (responsive_module (fun _ => []))
        MODEM_COMMAND_MODE
        { sim800_init ⟨ESP_OK⟩ with
          parent := ({ (sim800_init ⟨ESP_OK⟩).parent with mode := MODEM_PPP_MODE }) }
        world_start).1 = ESP_FAIL ∧
     (sim800_set_working_mode (responsive_module (fun _ => []))
        MODEM_COMMAND_MODE
        { sim800_init ⟨ESP_OK⟩ with
          parent := ({ (sim800_init ⟨ESP_OK⟩).parent with mode := MODEM_PPP_MODE }) }
        world_start).2.1.parent.mode = MODEM_PPP_MODE) :=
  ⟨⟨by decide,
    set_working_mode_failure_keeps_mode (responsive_module (fun _ => ["ERROR\r\n".toList]))
      MODEM_COMMAND_MODE _ world_start (fun k c t d => line_transport_mode _ k c t d)
      (by decide)⟩,
   ⟨by decide,
    set_working_mode_failure_keeps_mode (responsive_module (fun _ => []))
      MODEM_COMMAND_MODE _ world_start (fun k c t d => line_transport_mode _ k c t d)
      (by decide)⟩⟩

/-! ## Claims about the power sequencer, stated on the STATUS samples -/

theorem status_round_samples (env : environment) (w : world) :
    (status_round env w).2.samples
      = if env.status w.samples > 0 then w.samples + 2 else w.samples + 1 := by
  unfold status_round
  by_cases h : env.status w.samples > 0
  · simp [gpio_get_level, vTaskDelay, h]
  · simp [gpio_get_level, vTaskDelay, h]

theorem status_round_value (env : environment) (w : world) :
    (status_round env w).1
      = decide (env.status w.samples > 0 ∧ env.status (w.samples + 1) > 0) := by
  rw [Bool.eq_iff_iff]
  simpa using status_round_powered env w

/-- The polling loop of the code computes the reading of the samples: its
verdict, the number of samples it uses and its events are those of
`debounced_reading` and `reading_events`. -/
theorem status_probe_reading (env : environment) : ∀ (fuel inc : Nat) (w : world)
    (r : Bool × world), 1 ≤ fuel → fuel + inc = 21 → status_probe env fuel inc w = some r →
    r.1 = (debounced_reading env.status fuel w.samples).1 ∧
    r.2.samples = (debounced_reading env.status fuel w.samples).2 ∧
    r.2.trace = w.trace ++ reading_events env.status fuel w.samples := by
  intro fuel
  induction fuel with
  | zero => intro inc w r h; omega
  | succ fuel ih =>
    intro inc w r _ hsum h
    rw [status_probe] at h
    have hv := status_round_value env w
    have hs := status_round_samples env w
    have ht := status_round_trace env w
    by_cases hc : (status_round env w).1 = true ∨ inc + 1 > 20
    · rw [if_pos hc] at h
      cases h
      by_cases hk : env.status w.samples > 0
      · by_cases hk1 : env.status (w.samples + 1) > 0
        · simp [hv, hs, ht, debounced_reading, reading_events, hk, hk1]
        · have hf : fuel = 0 := by
            rcases hc with hc | hc
            · rw [hv] at hc; simp [hk1] at hc
            · omega
          subst hf
          simp [hv, hs, ht, debounced_reading, reading_events, hk, hk1]
      · have hf : fuel = 0 := by
          rcases hc with hc | hc
          · rw [hv] at hc; simp [hk] at hc
          · omega
        subst hf
        simp [hv, hs, ht, debounced_reading, reading_events, hk]
    · rw [if_neg hc] at h
      have hnp : ¬ (status_round env w).1 = true := fun h' => hc (Or.inl h')
      have hinc : ¬ inc + 1 > 20 := fun h' => hc (Or.inr h')
      obtain ⟨a, b, c⟩ := ih (inc + 1) _ r (by omega) (by omega) h
      rw [hs] at a b c
      rw [ht] at c
      by_cases hk : env.status w.samples > 0
      · by_cases hk1 : env.status (w.samples + 1) > 0
        · rw [hv] at hnp; simp [hk, hk1] at hnp
        · simp only [hk, if_true] at a b c
          simp [debounced_reading, reading_events, hk, hk1, a, b, c]
      · simp only [hk, if_false] at a b c
        simp [debounced_reading, reading_events, hk, a, b, c]

theorem reading_events_probe (status : Nat → Int) : ∀ (rounds k : Nat),
    ∀ e ∈ reading_events status rounds k, is_probe_event e = true := by
  intro rounds
  induction rounds with
  | zero => intro k e he; simp [reading_events] at he
  | succ rounds ih =>
    intro k e he
    unfold reading_events at he
    split at he
    · simp only [List.mem_cons] at he
      rcases he with rfl | rfl | rfl | rfl | he
      · rfl
      · rfl
      · rfl
      · rfl
      · split at he
        · simp at he
        · exact ih _ e he
    · simp only [List.mem_cons] at he
      rcases he with rfl | rfl | he
      · rfl
      · rfl
      · exact ih _ e he

theorem power_on_pulse_samples (w : world) : (power_on_pulse w).samples = w.samples := by
  simp [power_on_pulse, vTaskDelay, gpio_set_level]

/-- C9: for every sequence of STATUS samples `sim800_power_up` returns, and what
it does is fixed by the reading of the samples (`debounced_reading`: at most 21
polls 500 ms apart, a poll that reads high confirmed by a second sample 30 ms
later). PWRKEY is written if and only if the first reading, which starts at the
first sample of the call, is not powered. If it is powered the events of the
call are those of the reading and the final wait of 2 s, and the result is
ESP_OK. Otherwise the reading is followed by the writes 1, 0, 1 on PWRKEY, with
100 ms between the first two and 1100 ms before the third, by four waits of
1 s, and by exactly one further reading, which starts at the first sample that
the first one did not use; the result is ESP_FAIL if and only if that second
reading is not powered either, and ESP_OK after the wait of 2 s if it is. -/
theorem power_up_pulses_pwrkey_once (env : environment) (w : world) :
    ∃ r, sim800_power_up env w = some r ∧
      pwrkey_writes r.2.trace = pwrkey_writes w.trace ++
        (if (debounced_reading env.status 21 w.samples).1 = true then [] else [1, 0, 1]) ∧
      ((debounced_reading env.status 21 w.samples).1 = true →
        r.1 = ESP_OK ∧
        r.2.trace = w.trace ++ reading_events env.status 21 w.samples ++ [event.delay 2000]) ∧
      ((debounced_reading env.status 21 w.samples).1 = false →
        r.2.trace = w.trace ++ reading_events env.status 21 w.samples ++
          [event.gpio_set gpio_pin.PWRKEY 1, event.delay 100, event.gpio_set gpio_pin.PWRKEY 0,
           event.delay 1100, event.gpio_set gpio_pin.PWRKEY 1,
           event.delay 1000, event.delay 1000, event.delay 1000, event.delay 1000] ++
          reading_events env.status 21 (debounced_reading env.status 21 w.samples).2 ++
          (if (debounced_reading env.status 21
              (debounced_reading env.status 21 w.samples).2).1 = true
            then [event.delay 2000] else []) ∧
        (r.1 = ESP_FAIL ↔
          (debounced_reading env.status 21
            (debounced_reading env.status 21 w.samples).2).1 = false) ∧
        (r.1 = ESP_OK ↔
          (debounced_reading env.status 21
            (debounced_reading env.status 21 w.samples).2).1 = true)) := by
  obtain ⟨⟨p1, w1⟩, h1⟩ := status_probe_total env 21 0 w (by omega) (by omega)
  obtain ⟨a1, b1, c1⟩ := status_probe_reading env 21 0 w _ (by omega) rfl h1
  simp only at a1 b1 c1
  have q1 := pwrkey_writes_probe_events _ (reading_events_probe env.status 21 w.samples)
  cases p1 with
  | true =>
    refine ⟨(ESP_OK, vTaskDelay 2000 w1), by simp [sim800_power_up, h1], ?_, ?_, ?_⟩
    · rw [← a1]
      simp only [vTaskDelay, c1, pwrkey_writes_append, q1, if_true, List.append_nil]
      simp [pwrkey_writes]
    · intro _
      exact ⟨rfl, by simp [vTaskDelay, c1]⟩
    · intro hf
      rw [← a1] at hf
      exact absurd hf (by decide)
  | false =>
    obtain ⟨⟨p2, w2⟩, h2⟩ := status_probe_total env 21 0 (power_on_pulse w1) (by omega) (by omega)
    obtain ⟨a2, b2, c2⟩ := status_probe_reading env 21 0 (power_on_pulse w1) _ (by omega) rfl h2
    simp only at a2 b2 c2
    rw [power_on_pulse_samples, b1] at a2 b2 c2
    rw [power_on_pulse_trace, c1] at c2
    have q2 := pwrkey_writes_probe_events _
      (reading_events_probe env.status 21 (debounced_reading env.status 21 w.samples).2)
    have hw : pwrkey_writes w2.trace = pwrkey_writes w.trace ++ [1, 0, 1] := by
      rw [c2]
      simp only [pwrkey_writes_append, q1, q2, List.append_nil]
      simp [pwrkey_writes]
    cases p2 with
    | true =>
      refine ⟨(ESP_OK, vTaskDelay 2000 w2), by simp [sim800_power_up, h1, h2], ?_, ?_, ?_⟩
      · rw [← a1]
        simp only [vTaskDelay, pwrkey_writes_append, hw]
        simp [pwrkey_writes]
      · intro hf
        rw [← a1] at hf
        exact absurd hf (by decide)
      · intro _
        rw [← a2]
        have hne : ESP_OK ≠ ESP_FAIL := by decide
        refine ⟨by simp [vTaskDelay, c2], ?_, ?_⟩
        · constructor
          · intro h; exact absurd h hne
          · intro h; exact absurd h (by decide)
        · exact ⟨fun _ => rfl, fun _ => rfl⟩
    | false =>
      refine ⟨(ESP_FAIL, w2), by simp [sim800_power_up, h1, h2], ?_, ?_, ?_⟩
      · rw [← a1]
        simp [hw]
      · intro hf
        rw [← a1] at hf
        exact absurd hf (by decide)
      · intro _
        rw [← a2]
        have hne : ESP_FAIL ≠ ESP_OK := by decide
        refine ⟨by simp [c2], ?_, ?_⟩
        · exact ⟨fun _ => rfl, fun _ => rfl⟩
        · constructor
          · intro h; exact absurd h hne
          · intro h; exact absurd h (by decide)

/-- The reading of samples that are never high uses one sample for each poll
and is not powered. -/
theorem debounced_reading_never_high (status : Nat → Int) (hlow : ∀ k, status k ≤ 0) :
    ∀ (rounds k : Nat), debounced_reading status rounds k = (false, k + rounds) := by
  intro rounds
  induction rounds with
  | zero => intro k; rfl
  | succ rounds ih =>
    intro k
    have hn : ¬ status k > 0 := by have := hlow k; omega
    simp only [debounced_reading, hn, if_false, ih]
    congr 1
    omega

/-- Example of a reading: with STATUS low at the first two samples and high from
the third on, the third poll is confirmed by its second sample; four samples
are used. -/
theorem debounced_reading_third_poll :
    debounced_reading (fun k => if k < 2 then 0 else 1) 21 0 = (true, 4) := by
  decide

/-- C9, example: STATUS reads low at the first two polls and high from the third
poll on; the third round confirms power (4 samples in all), PWRKEY is never
written and the result is ESP_OK. -/
theorem power_up_third_poll_example :
    (sim800_power_up
      { status := fun k => if k < 2 then 0 else 1, sync := fun _ d => (ESP_OK, d),
        echo := fun _ _ d => (ESP_OK, d), send_cmd := fun _ _ _ d => (ESP_OK, d) }
      ⟨0, 0, 0, 0, []⟩).map (fun r => (r.1, r.2.samples, pwrkey_writes r.2.trace))
      = some (ESP_OK, 4, []) := by
  decide

/-! ## Claims about the order of the bring-up, stated on the sync results -/

theorem sync_results_append (a b : List event) :
    sync_results (a ++ b) = sync_results a ++ sync_results b := by
  simp [sync_results, List.filterMap_append]

theorem sync_results_sync_attempts (results : List esp_err_t) :
    sync_results (sync_attempt_events results) = results := by
  induction results with
  | nil => rfl
  | cons x rest ih =>
    have h : sync_attempt_events (x :: rest)
        = [event.delay 1000, event.sync x] ++ sync_attempt_events rest := by
      simp [sync_attempt_events]
    rw [h, sync_results_append, ih]
    rfl

theorem sync_results_probe_events (evs : List event) (h : ∀ e ∈ evs, is_probe_event e = true) :
    sync_results evs = [] := by
  unfold sync_results
  rw [List.filterMap_eq_nil_iff]
  intro e he
  have := h e he
  cases e <;> simp_all [is_probe_event]

theorem sync_results_of_issued (e : event) (c : issued) (h : issued_of e = some c) :
    sync_results [e] = [] := by
  cases e <;> simp_all [issued_of, sync_results]

theorem all_failed_of_last_failed (l : List esp_err_t) (h1 : ∀ x ∈ l.dropLast, x ≠ ESP_OK)
    (h2 : ¬ l.getLast? = some ESP_OK) : ∀ x ∈ l, x ≠ ESP_OK := by
  intro x hx
  by_cases hl : l = []
  · subst hl; simp at hx
  · rw [← List.dropLast_append_getLast hl] at hx
    rcases List.mem_append.1 hx with h | h
    · exact h1 x h
    · simp only [List.mem_singleton] at h
      intro hxe
      apply h2
      rw [List.getLast?_eq_getLast l hl, ← h, hxe]

/-- The first sync attempt of a retry loop is the answer of the sync primitive
to the handle as it is given. -/
theorem sync_retry_first (env : environment) (dce : sim800_modem_dce_t) (w : world)
    (r : Bool × sim800_modem_dce_t × world) (h : sync_retry env 11 0 dce w = some r) :
    ∃ rest, r.2.2.trace
      = w.trace ++ event.delay 1000 :: event.sync (env.sync w.syncs dce).1 :: rest := by
  rw [sync_retry] at h
  split at h
  · cases h
    exact ⟨[], by simp [esp_modem_dce_sync, vTaskDelay]⟩
  · obtain ⟨results, a1, -⟩ := sync_retry_attempts env 10 1 _ _ r (by omega) rfl h
    exact ⟨sync_attempt_events results, by rw [a1]; simp [esp_modem_dce_sync, vTaskDelay]⟩

/-- With a sync primitive that always answers, the retry loop ends after its
first attempt. -/
theorem sync_retry_always (env : environment) (dce : sim800_modem_dce_t) (w : world)
    (hall : ∀ (k : Nat) (d : sim800_modem_dce_t), (env.sync k d).1 = ESP_OK) :
    ∃ d1 w1, sync_retry env 11 0 dce w = some (true, d1, w1) ∧
      w1.trace = w.trace ++ [event.delay 1000, event.sync ESP_OK] := by
  refine ⟨(esp_modem_dce_sync env dce (vTaskDelay 1000 w)).2.1,
    (esp_modem_dce_sync env dce (vTaskDelay 1000 w)).2.2, ?_, ?_⟩
  · rw [sync_retry]
    simp [esp_modem_dce_sync, vTaskDelay, hall]
  · simp [esp_modem_dce_sync, vTaskDelay, hall]

/-- From line 563 on: the events of `open_queries` start with the final sync, and
no other sync follows it. When the result is not ESP_OK the last event is the
call of `free` of the label `err_io`. -/
theorem open_queries_sync (env : environment) (dce : sim800_modem_dce_t) (w : world) :
    ∃ q', (open_queries env dce w).2.2.trace
        = w.trace ++ event.sync (esp_modem_dce_sync env dce w).1 :: q' ∧
      sync_results q' = [] ∧
      ((open_queries env dce w).1 ≠ ESP_OK → q'.getLast? = some event.free_parent) := by
  have t0 : (esp_modem_dce_sync env dce w).2.2.trace
      = w.trace ++ [event.sync (esp_modem_dce_sync env dce w).1] := rfl
  have sf : sync_results [event.free_parent] = [] := rfl
  unfold open_queries
  simp only
  by_cases h0 : (esp_modem_dce_sync env dce w).1 = ESP_OK
  swap
  · exact ⟨[event.free_parent], by simp [h0, err_io, t0], sf, fun _ => rfl⟩
  set r0 := esp_modem_dce_sync env dce w with hr0
  obtain ⟨e1, t1, i1, -⟩ := echo_event env false r0.2.1 r0.2.2
  have n1 := sync_results_of_issued e1 _ i1
  set r1 := esp_modem_dce_echo env false r0.2.1 r0.2.2 with hr1
  by_cases h1 : r1.1 = ESP_OK
  swap
  · refine ⟨[e1, event.free_parent], by simp [h0, h1, err_io, t0, t1], ?_, fun _ => rfl⟩
    rw [show [e1, event.free_parent] = [e1] ++ [event.free_parent] from rfl,
      sync_results_append, n1, sf]
    rfl
  obtain ⟨e2, t2, i2, -⟩ := get_module_name_event env r1.2.1 r1.2.2
  have n2 := sync_results_of_issued e2 _ i2
  set r2 := sim800_get_module_name env r1.2.1 r1.2.2 with hr2
  by_cases h2 : r2.1 = ESP_OK
  swap
  · refine ⟨[e1, e2, event.free_parent], by simp [h0, h1, h2, err_io, t0, t1, t2], ?_,
      fun _ => rfl⟩
    rw [show [e1, e2, event.free_parent] = [e1] ++ ([e2] ++ [event.free_parent]) from rfl,
      sync_results_append, sync_results_append, n1, n2, sf]
    rfl
  obtain ⟨e3, t3, i3, -⟩ := get_imei_number_event env r2.2.1 r2.2.2
  have n3 := sync_results_of_issued e3 _ i3
  set r3 := sim800_get_imei_number env r2.2.1 r2.2.2 with hr3
  by_cases h3 : r3.1 = ESP_OK
  swap
  · refine ⟨[e1, e2, e3, event.free_parent],
      by simp [h0, h1, h2, h3, err_io, t0, t1, t2, t3], ?_, fun _ => rfl⟩
    rw [show [e1, e2, e3, event.free_parent]
        = [e1] ++ ([e2] ++ ([e3] ++ [event.free_parent])) from rfl,
      sync_results_append, sync_results_append, sync_results_append, n1, n2, n3, sf]
    rfl
  obtain ⟨e4, t4, i4, -⟩ := get_imsi_number_event env r3.2.1 r3.2.2
  have n4 := sync_results_of_issued e4 _ i4
  set r4 := sim800_get_imsi_number env r3.2.1 r3.2.2 with hr4
  by_cases h4 : r4.1 = ESP_OK
  swap
  · refine ⟨[e1, e2, e3, e4, event.free_parent],
      by simp [h0, h1, h2, h3, h4, err_io, t0, t1, t2, t3, t4], ?_, fun _ => rfl⟩
    rw [show [e1, e2, e3, e4, event.free_parent]
        = [e1] ++ ([e2] ++ ([e3] ++ ([e4] ++ [event.free_parent]))) from rfl,
      sync_results_append, sync_results_append, sync_results_append, sync_results_append,
      n1, n2, n3, n4, sf]
    rfl
  obtain ⟨e5, t5, i5, -⟩ := get_operator_name_event env r4.2.1 r4.2.2
  have n5 := sync_results_of_issued e5 _ i5
  set r5 := sim800_get_operator_name env r4.2.1 r4.2.2 with hr5
  by_cases h5 : r5.1 = ESP_OK
  swap
  · refine ⟨[e1, e2, e3, e4, e5, event.free_parent],
      by simp [h0, h1, h2, h3, h4, h5, err_io, t0, t1, t2, t3, t4, t5], ?_, fun _ => rfl⟩
    rw [show [e1, e2, e3, e4, e5, event.free_parent]
        = [e1] ++ ([e2] ++ ([e3] ++ ([e4] ++ ([e5] ++ [event.free_parent])))) from rfl,
      sync_results_append, sync_results_append, sync_results_append, sync_results_append,
      sync_results_append, n1, n2, n3, n4, n5, sf]
    rfl
  refine ⟨[e1, e2, e3, e4, e5], by simp [h0, h1, h2, h3, h4, h5, t0, t1, t2, t3, t4, t5], ?_,
    fun hne => absurd (by simp [h0, h1, h2, h3, h4, h5]) hne⟩
  rw [show [e1, e2, e3, e4, e5] = [e1] ++ ([e2] ++ ([e3] ++ ([e4] ++ [e5]))) from rfl,
    sync_results_append, sync_results_append, sync_results_append, sync_results_append,
    n1, n2, n3, n4, n5]
  rfl

theorem issued_commands_sync_cons (s : esp_err_t) (q : List event) :
    issued_commands (event.sync s :: q) = issued_commands q := rfl

/-- From line 563 on, with the final sync set apart: what `open_queries` issues
after it, and how it ends. -/
theorem open_queries_phase (env : environment) (dce : sim800_modem_dce_t) (w : world) :
    ∃ q', (open_queries env dce w).2.2.trace
        = w.trace ++ event.sync (esp_modem_dce_sync env dce w).1 :: q' ∧
      sync_results q' = [] ∧
      issued_commands q' <+: open_plan ∧
      ((esp_modem_dce_sync env dce w).1 ≠ ESP_OK → issued_commands q' = []) ∧
      ((esp_modem_dce_sync env dce w).1 = ESP_OK →
        (issued_commands q').head? = some (issued.echo false)) ∧
      ((esp_modem_dce_sync env dce w).1 = ESP_OK →
        (∀ e ∈ q', is_command e = true → command_succeeded e = true) →
        issued_commands q' = open_plan) ∧
      ((open_queries env dce w).1 = ESP_OK ↔
        ((esp_modem_dce_sync env dce w).1 = ESP_OK ∧ issued_commands q' = open_plan ∧
          ∀ e ∈ q', is_command e = true → command_succeeded e = true)) ∧
      (∀ (p : List event) (e : event) (post : List event), q' = p ++ e :: post →
        is_command e = true → command_succeeded e = false → issued_commands post = []) ∧
      ((open_queries env dce w).1 ≠ ESP_OK → q'.getLast? = some event.free_parent) := by
  obtain ⟨q, a1, a2, a3, a4, a5, a6⟩ := open_queries_spec env dce w
  obtain ⟨q', b1, b2, b3⟩ := open_queries_sync env dce w
  have hq : q = event.sync (esp_modem_dce_sync env dce w).1 :: q' := by
    rw [a1] at b1
    exact List.append_cancel_left b1
  subst hq
  rw [issued_commands_sync_cons] at a2 a3 a4 a6
  have hall : (∀ e ∈ q', is_command e = true → command_succeeded e = true) →
      ∀ e ∈ event.sync (esp_modem_dce_sync env dce w).1 :: q',
        is_command e = true → command_succeeded e = true := by
    intro h e he hc
    rcases List.mem_cons.1 he with rfl | he
    · exact absurd hc (by simp [is_command, issued_of])
    · exact h e he hc
  have hprog : (esp_modem_dce_sync env dce w).1 = ESP_OK →
      (∀ e ∈ q', is_command e = true → command_succeeded e = true) →
      issued_commands q' = open_plan := fun h0 h => a4 h0 (hall h)
  refine ⟨q', b1, b2, a2, a6, ?_, hprog, ?_, ?_, b3⟩
  · intro h0
    cases hi : issued_commands q' with
    | nil =>
      have hnone : ∀ e ∈ q', is_command e = true → command_succeeded e = true := by
        intro e he hc
        unfold issued_commands at hi
        rw [List.filterMap_eq_nil_iff] at hi
        have := hi e he
        simp [is_command, this] at hc
      have := hprog h0 hnone
      rw [hi] at this
      exact absurd this (by decide)
    | cons c rest =>
      rw [hi] at a2
      obtain ⟨t, ht⟩ := a2
      simp only [open_plan, List.cons_append, List.cons.injEq] at ht
      simp [ht.1]
  · rw [a3]
    constructor
    · rintro ⟨h0, h1, h2⟩
      exact ⟨h0, h1, fun e he => h2 e (List.mem_cons_of_mem _ he)⟩
    · rintro ⟨h0, h1, h2⟩
      exact ⟨h0, h1, hall h2⟩
  · intro p e post hq hc hf
    exact stops_at_failure_spec _ a5 (event.sync (esp_modem_dce_sync env dce w).1 :: p) e post
      (by rw [hq]; rfl) hc hf

theorem sync_results_reset_pulse :
    sync_results
      [event.gpio_set gpio_pin.RESET 1, event.delay 300, event.gpio_set gpio_pin.RESET 0,
       event.delay 1100, event.gpio_set gpio_pin.PWRKEY 1,
       event.delay 1000, event.delay 1000, event.delay 1000, event.delay 1000,
       event.delay 1000] = [] := rfl

theorem issued_commands_reset_events :
    issued_commands
      [event.gpio_set gpio_pin.RESET 1, event.delay 300, event.gpio_set gpio_pin.RESET 0,
       event.delay 1100, event.gpio_set gpio_pin.PWRKEY 1,
       event.delay 1000, event.delay 1000, event.delay 1000, event.delay 1000,
       event.delay 1000] = [] := rfl

/-- C10: the events of a call of `sim800_open` are those of a retry phase `pre`
followed by those of the phase `q` that starts at line 563. The retry phase
issues no command and starts with a wait of 1 s and a sync attempt that gets
the answer of the sync primitive. If every sync attempt of the retry phase
failed there were at least 11 of them, nothing follows and the result is
ESP_FAIL. If one succeeded, line 563 is reached: `q` is the final sync with its
result `s` followed by events `q'` without a sync, and the commands issued in
`q'` are an initial part of echo-off, AT+CGMM, AT+CGSN, AT+CIMI, AT+COPS? in
that order, each at most once. Once the final sync is confirmed (`s` is ESP_OK)
echo-off is issued, and as long as the commands succeed the next one is
issued; without it none is issued. The result is ESP_OK exactly when the final
sync is confirmed, all five commands were issued and every one of them
succeeded; after a command that fails no later command is issued, and whenever
the result of this phase is not ESP_OK its last event is the call of `free` of
the label `err_io`. With a sync primitive that always answers, one attempt is
made, the final sync follows and echo-off is issued. -/
theorem open_issues_queries_in_order (env : environment) (dce : sim800_modem_dce_t)
    (w : world) :
    ∃ r pre q, sim800_open env dce w = some r ∧ r.2.2.trace = w.trace ++ pre ++ q ∧
      issued_commands pre = [] ∧
      (∃ rest, pre = event.delay 1000 :: event.sync (env.sync w.syncs dce).1 :: rest) ∧
      ((∀ x ∈ sync_results pre, x ≠ ESP_OK) →
        11 ≤ (sync_results pre).length ∧ q = [] ∧ r.1 = ESP_FAIL) ∧
      ((∃ x ∈ sync_results pre, x = ESP_OK) →
        ∃ s q', q = event.sync s :: q' ∧ sync_results q' = [] ∧
          issued_commands q' <+: open_plan ∧
          (s ≠ ESP_OK → issued_commands q' = []) ∧
          (s = ESP_OK → (issued_commands q').head? = some (issued.echo false)) ∧
          (s = ESP_OK → (∀ e ∈ q', is_command e = true → command_succeeded e = true) →
            issued_commands q' = open_plan) ∧
          (r.1 = ESP_OK ↔ (s = ESP_OK ∧ issued_commands q' = open_plan ∧
            ∀ e ∈ q', is_command e = true → command_succeeded e = true)) ∧
          (∀ (p : List event) (e : event) (post : List event), q' = p ++ e :: post →
            is_command e = true → command_succeeded e = false → issued_commands post = []) ∧
          (r.1 ≠ ESP_OK → q'.getLast? = some event.free_parent)) ∧
      ((∀ (k : Nat) (d : sim800_modem_dce_t), (env.sync k d).1 = ESP_OK) →
        pre = [event.delay 1000, event.sync ESP_OK] ∧
        ∃ q', q = event.sync ESP_OK :: q' ∧
          (issued_commands q').head? = some (issued.echo false)) := by
  obtain ⟨⟨b1, d1, w1⟩, hs1⟩ := sync_retry_total env 11 0 dce w (by omega) (by omega)
  obtain ⟨results, a1, a2, a3, a4, a5, a6⟩ :=
    sync_retry_attempts env 11 0 dce w _ (by omega) rfl hs1
  obtain ⟨rest1, f1⟩ := sync_retry_first env dce w _ hs1
  simp only at a1 a5 a6 f1
  have hfirst : ∀ tail : List event, ∃ rest, sync_attempt_events results ++ tail
      = event.delay 1000 :: event.sync (env.sync w.syncs dce).1 :: rest := by
    intro tail
    rw [a1] at f1
    have := List.append_cancel_left f1
    exact ⟨rest1 ++ tail, by rw [this]; rfl⟩
  -- the phase that starts at line 563, reached in the state `d`, `v`
  have phase : ∀ (d : sim800_modem_dce_t) (v : world) (pre : List event),
      v.trace = w.trace ++ pre → issued_commands pre = [] →
      (∃ rest, pre = event.delay 1000 :: event.sync (env.sync w.syncs dce).1 :: rest) →
      (∃ x ∈ sync_results pre, x = ESP_OK) →
      ((∀ (k : Nat) (d : sim800_modem_dce_t), (env.sync k d).1 = ESP_OK) →
        pre = [event.delay 1000, event.sync ESP_OK]) →
      sim800_open env dce w = some (open_queries env d v) →
      ∃ r pre q, sim800_open env dce w = some r ∧ r.2.2.trace = w.trace ++ pre ++ q ∧
        issued_commands pre = [] ∧
        (∃ rest, pre = event.delay 1000 :: event.sync (env.sync w.syncs dce).1 :: rest) ∧
        ((∀ x ∈ sync_results pre, x ≠ ESP_OK) →
          11 ≤ (sync_results pre).length ∧ q = [] ∧ r.1 = ESP_FAIL) ∧
        ((∃ x ∈ sync_results pre, x = ESP_OK) →
          ∃ s q', q = event.sync s :: q' ∧ sync_results q' = [] ∧
            issued_commands q' <+: open_plan ∧
            (s ≠ ESP_OK → issued_commands q' = []) ∧
            (s = ESP_OK → (issued_commands q').head? = some (issued.echo false)) ∧
            (s = ESP_OK → (∀ e ∈ q', is_command e = true → command_succeeded e = true) →
              issued_commands q' = open_plan) ∧
            (r.1 = ESP_OK ↔ (s = ESP_OK ∧ issued_commands q' = open_plan ∧
              ∀ e ∈ q', is_command e = true → command_succeeded e = true)) ∧
            (∀ (p : List event) (e : event) (post : List event), q' = p ++ e :: post →
              is_command e = true → command_succeeded e = false →
              issued_commands post = []) ∧
            (r.1 ≠ ESP_OK → q'.getLast? = some event.free_parent)) ∧
        ((∀ (k : Nat) (d : sim800_modem_dce_t), (env.sync k d).1 = ESP_OK) →
          pre = [event.delay 1000, event.sync ESP_OK] ∧
          ∃ q', q = event.sync ESP_OK :: q' ∧
            (issued_commands q').head? = some (issued.echo false)) := by
    intro d v pre hv hpre hhead hok halways ho
    obtain ⟨q', c1, c2, c3, c4, c5, c6, c7, c8, c9⟩ := open_queries_phase env d v
    refine ⟨open_queries env d v, pre, event.sync (esp_modem_dce_sync env d v).1 :: q', ho,
      by rw [c1, hv], hpre, hhead, ?_, ?_, ?_⟩
    · intro hnone
      obtain ⟨x, hx, hxe⟩ := hok
      exact absurd hxe (hnone x hx)
    · intro _
      exact ⟨_, q', rfl, c2, c3, c4, c5, c6, c7, c8, c9⟩
    · intro hall
      have hs : (esp_modem_dce_sync env d v).1 = ESP_OK := hall _ _
      refine ⟨halways hall, q', by rw [hs], c5 hs⟩
  cases b1 with
  | true =>
    have hlast : results.getLast? = some ESP_OK := a5.1 rfl
    refine phase d1 w1 (sync_attempt_events results) a1
      (issued_commands_sync_attempts results)
      (by simpa using hfirst []) ?_ ?_ (by simp [sim800_open, hs1])
    · exact ⟨ESP_OK, by
        rw [sync_results_sync_attempts]; exact List.mem_of_getLast?_eq_some hlast, rfl⟩
    · intro hall
      obtain ⟨d1', w1', e1, e2⟩ := sync_retry_always env dce w hall
      rw [hs1] at e1
      cases e1
      rw [a1] at e2
      exact List.append_cancel_left e2
  | false =>
    have hnl : ¬ results.getLast? = some ESP_OK := fun h => by
      have := a5.2 h
      exact absurd this (by decide)
    have hfail1 := all_failed_of_last_failed results a4 hnl
    have hlen1 : results.length = 11 := a6 rfl
    have hnever : ¬ ∀ (k : Nat) (d : sim800_modem_dce_t), (env.sync k d).1 = ESP_OK := by
      intro hall
      obtain ⟨d1', w1', e1, -⟩ := sync_retry_always env dce w hall
      rw [hs1] at e1
      cases e1
    obtain ⟨⟨p, w2⟩, hp⟩ := status_probe_total env 21 0 (reset_pulse w1) (by omega) (by omega)
    obtain ⟨evs, t2, q2, -⟩ := status_probe_events env 21 0 _ _ hp
    simp only at t2
    rw [reset_pulse_trace, a1] at t2
    cases p with
    | false =>
      refine ⟨(ESP_FAIL, d1, w2), sync_attempt_events results ++
        ([event.gpio_set gpio_pin.RESET 1, event.delay 300, event.gpio_set gpio_pin.RESET 0,
          event.delay 1100, event.gpio_set gpio_pin.PWRKEY 1,
          event.delay 1000, event.delay 1000, event.delay 1000, event.delay 1000,
          event.delay 1000] ++ evs), [], by simp [sim800_open, hs1, hp],
        by simp [t2], ?_, hfirst _, ?_, ?_, fun hall => absurd hall hnever⟩
      · rw [issued_commands_append, issued_commands_append, issued_commands_sync_attempts,
          issued_commands_reset_events, issued_commands_probe_events evs q2]
        rfl
      · intro _
        rw [sync_results_append, sync_results_append, sync_results_sync_attempts,
          sync_results_reset_pulse, sync_results_probe_events evs q2]
        simp [hlen1]
      · rintro ⟨x, hx, hxe⟩
        rw [sync_results_append, sync_results_append, sync_results_sync_attempts,
          sync_results_reset_pulse, sync_results_probe_events evs q2] at hx
        simp only [List.append_nil] at hx
        exact absurd hxe (hfail1 x hx)
    | true =>
      obtain ⟨⟨b2, d3, w3⟩, hs2⟩ := sync_retry_total env 11 0 d1 w2 (by omega) (by omega)
      obtain ⟨results2, c1, c2, c3, c4, c5, c6⟩ :=
        sync_retry_attempts env 11 0 d1 w2 _ (by omega) rfl hs2
      simp only at c1 c5 c6
      rw [t2] at c1
      have hpre3 : issued_commands (sync_attempt_events results ++
          ([event.gpio_set gpio_pin.RESET 1, event.delay 300, event.gpio_set gpio_pin.RESET 0,
            event.delay 1100, event.gpio_set gpio_pin.PWRKEY 1,
            event.delay 1000, event.delay 1000, event.delay 1000, event.delay 1000,
            event.delay 1000] ++ (evs ++ sync_attempt_events results2))) = [] := by
        rw [issued_commands_append, issued_commands_append, issued_commands_append,
          issued_commands_sync_attempts, issued_commands_reset_events,
          issued_commands_probe_events evs q2, issued_commands_sync_attempts]
        rfl
      have hsr3 : sync_results (sync_attempt_events results ++
          ([event.gpio_set gpio_pin.RESET 1, event.delay 300, event.gpio_set gpio_pin.RESET 0,
            event.delay 1100, event.gpio_set gpio_pin.PWRKEY 1,
            event.delay 1000, event.delay 1000, event.delay 1000, event.delay 1000,
            event.delay 1000] ++ (evs ++ sync_attempt_events results2)))
          = results ++ results2 := by
        rw [sync_results_append, sync_results_append, sync_results_append,
          sync_results_sync_attempts, sync_results_reset_pulse,
          sync_results_probe_events evs q2, sync_results_sync_attempts]
        rfl
      cases b2 with
      | false =>
        have hnl2 : ¬ results2.getLast? = some ESP_OK := fun h => by
          have := c5.2 h
          exact absurd this (by decide)
        have hfail2 := all_failed_of_last_failed results2 c4 hnl2
        refine ⟨(ESP_FAIL, d3, w3), _, [], by simp [sim800_open, hs1, hp, hs2],
          by rw [c1]; simp, hpre3, hfirst _, ?_, ?_, fun hall => absurd hall hnever⟩
        · intro _
          rw [hsr3]
          simp [hlen1]
        · rintro ⟨x, hx, hxe⟩
          rw [hsr3] at hx
          rcases List.mem_append.1 hx with h | h
          · exact absurd hxe (hfail1 x h)
          · exact absurd hxe (hfail2 x h)
      | true =>
        have hlast2 : results2.getLast? = some ESP_OK := c5.1 rfl
        refine phase d3 w3 _ (by rw [c1]; simp) hpre3 (hfirst _) ?_
          (fun hall => absurd hall hnever) (by simp [sim800_open, hs1, hp, hs2])
        exact ⟨ESP_OK, by
          rw [hsr3]
          exact List.mem_append_right _ (List.mem_of_getLast?_eq_some hlast2), rfl⟩

/-- C10, example: with a transport that answers every command, the bring-up
issues the five commands in order and returns ESP_OK; when the answer to
AT+CGSN leaves the exchange failed, it stops after AT+CGSN and ends with the
call of `free` of the label `err_io`. -/
theorem open_order_example :
    (sim800_open
      { status := fun _ => 1, sync := fun _ d => (ESP_OK, d), echo := fun _ _ d => (ESP_OK, d),
        send_cmd := fun _ _ _ d =>
          (ESP_OK, { d with parent := { d.parent with state := MODEM_STATE_SUCCESS } }) }
      (sim800_init ⟨ESP_OK⟩) ⟨0, 0, 0, 0, []⟩).map
        (fun r => (r.1, issued_commands r.2.2.trace)) = some (ESP_OK, open_plan) ∧
    (sim800_open
      { status := fun _ => 1, sync := fun _ d => (ESP_OK, d), echo := fun _ _ d => (ESP_OK, d),
        send_cmd := fun k _ _ d =>
          (ESP_OK, { d with parent := { d.parent with
            state := if k = 1 then MODEM_STATE_FAIL else MODEM_STATE_SUCCESS } }) }
      (sim800_init ⟨ESP_OK⟩) ⟨0, 0, 0, 0, []⟩).map
        (fun r => (issued_commands r.2.2.trace, r.2.2.trace.getLast?))
      = some (open_plan.take 3, some event.free_parent) := by
  decide

end Sim800
